import Mathlib

/-!
# Minetest `MapgenV7`: a shallow embedding of `mapgen_v7.cpp`

The terrain passes of `MapgenV7` are translated function by function, with
`pathRemoveFile` of `porting.cpp`.

Modelling conventions.

* A `float` or `double` value is the rational number it denotes (`ℚ`).  The
  arithmetic of the source is kept expression by expression, and every
  operation is followed by the rounding of its exact result to the type the
  operation has in C++: `f32` for `float`, `f64` for `double` (IEEE 754
  binary32 and binary64, round to nearest, ties to even, gradual underflow).
  An operation with a `double` operand is a `double` operation; a decimal
  literal such as `0.2` is the `double` `f64 (2 / 10)`; a value stored in a
  `float` variable or returned as `float` goes through `f32`; comparisons,
  `fabs`, negation and the choice made by `MYMAX` or `rangelim` are exact.
  Each operation is rounded on its own (no fused multiply-add, no excess
  precision).  Infinities and NaN are not modelled: the exponent range is not
  bounded above.
* `s16`, `int` and `u32` variables are integers (`Int`).  A conversion of a
  `float` to `s16` is `float_to_s16` (truncation toward zero, then narrowing
  to 16 bits); a data-dependent sum or increment stored in an `s16` goes
  through `s16`.  Loop variables that run over the node coordinates of the
  chunk (`node_min .. node_max`, one node of halo) are not narrowed: the frame
  is inside the map, far from the ends of the 16-bit range.
* `vm->m_data`, addressed through `vm->m_area.index(x, y, z)`, is a total map
  from node coordinates to content ids (`VoxelData`).  `add_y(em, i, d)` and
  `i ± em.X` move the `y` coordinate, `vi++` moves `x`.  Only the content id of
  a `MapNode` is kept.
* The arrays `heightmap`, `ridge_heightmap`, `biomemap` and the noise result
  buffers are total maps from the array index.
* A `for` loop over an integer interval is `forUp` / `forDown`; the running
  indices of the source (`index`, `j`, `index2d`) are kept as components of
  the loop state.
* A dereference of a null `Biome *` is recorded in a `fault` flag of the loop
  state; `generateBiomes` returns `none` when the flag has been raised.
* Code that is not under src/ (noise evaluation, biome and node registries,
  `CaveV7`, `PseudoRandom`, the heightmap refresh, the dungeon, decoration and
  ore generators) enters as parameters or is modelled from the specification,
  as the doc comment of each such definition says.
* In `porting.cpp` a `char` buffer is the list of its character codes;
  `pathRemoveFile` gives `none` when `strlen` finds no NUL in the buffer or
  the final store falls outside it.
-/

/-! ## Loops -/

/-- Run `body lo`, `body (lo+1)`, ... for `n` iterations. -/
def loopUp {σ : Type} : Nat → Int → (Int → σ → σ) → σ → σ
  | 0, _, _, s => s
  | n + 1, lo, body, s => loopUp n (lo + 1) body (body lo s)

/-- The loop `for (v = lo; v <= hi; v++) body`. -/
def forUp {σ : Type} (lo hi : Int) (body : Int → σ → σ) (s : σ) : σ :=
  loopUp (hi + 1 - lo).toNat lo body s

/-- Run `body hi`, `body (hi-1)`, ... for `n` iterations. -/
def loopDown {σ : Type} : Nat → Int → (Int → σ → σ) → σ → σ
  | 0, _, _, s => s
  | n + 1, hi, body, s => loopDown n (hi - 1) body (body hi s)

/-- The loop `for (v = hi; v >= lo; v--) body`. -/
def forDown {σ : Type} (hi lo : Int) (body : Int → σ → σ) (s : σ) : σ :=
  loopDown (hi + 1 - lo).toNat hi body s

/-! ## Floating point -/

/-- The power of two `2 ^ k` for an integer exponent `k`. -/
def pow2 (k : Int) : ℚ :=
  if 0 ≤ k then ((2 ^ k.toNat : Nat) : ℚ) else 1 / ((2 ^ (-k).toNat : Nat) : ℚ)

/-- The integer nearest to `t`; of two nearest integers the even one. -/
def roundEven (t : ℚ) : Int :=
  let f := ⌊t⌋
  if t - f < 1 / 2 then f
  else if t - f > 1 / 2 then f + 1
  else if f % 2 = 0 then f else f + 1

/-- The number of halvings that bring `n` below 2, in at most `fuel` steps. -/
def log2Aux : Nat → Nat → Nat
  | 0, _ => 0
  | fuel + 1, n => if 2 ≤ n then log2Aux fuel (n / 2) + 1 else 0

/-- The binary exponent of a positive rational `a`: the integer `e` with
`2 ^ e ≤ a < 2 ^ (e + 1)`. -/
def floorLog2 (a : ℚ) : Int :=
  let k : Int := (log2Aux a.num.natAbs a.num.natAbs : Int) - (log2Aux a.den a.den : Int)
  if pow2 k ≤ a then k else k - 1

/-- Rounding of a magnitude `a ≥ 0` to a binary floating-point format with `m`
fraction bits and least normal exponent `emin`: `a` is rounded to the nearest
multiple of the unit in the last place of its binade, ties to even. -/
def roundMag (m : Nat) (emin : Int) (a : ℚ) : ℚ :=
  let c := max (floorLog2 a) emin - (m : Int)
  (roundEven (a / pow2 c) : ℚ) * pow2 c

/-- Rounding of a rational to a binary floating-point format (sign and
magnitude). -/
def roundFloat (m : Nat) (emin : Int) (q : ℚ) : ℚ :=
  if 0 ≤ q then roundMag m emin q else -roundMag m emin (-q)

/-- Rounding to `float` (binary32: 23 fraction bits, least normal exponent
`-126`). -/
def f32 (q : ℚ) : ℚ := roundFloat 23 (-126) q

/-- Rounding to `double` (binary64: 52 fraction bits, least normal exponent
`-1022`). -/
def f64 (q : ℚ) : ℚ := roundFloat 52 (-1022) q

/-! ## Scalars, nodes and registries -/

/-- Narrowing of an integer to the signed 16-bit type `s16`. -/
def s16 (v : Int) : Int := (v + 32768) % 65536 - 32768

/-- The conversion `(s16)f` of a `float`: the fraction is discarded (toward
zero).  For a value outside the range of `s16` the C++ standard leaves the
result undefined; the definition follows the x86-64 build, which converts to a
32-bit integer (`cvttss2si`) and keeps the low 16 bits, and gets `0` for a
value outside the 32-bit range. -/
def float_to_s16 (f : ℚ) : Int :=
  let t := Int.tdiv f.num (f.den : Int)
  if -2147483648 ≤ t ∧ t ≤ 2147483647 then s16 t else 0

/-- Content id of a node (`content_t`). -/
abbrev content_t := Nat

/-- Modelled from the spec: `CONTENT_AIR` of mapnode.h (not under src/), the
sentinel id `AIR`. -/
def CONTENT_AIR : content_t := 126

/-- Modelled from the spec: `CONTENT_IGNORE` of mapnode.h (not under src/), the
sentinel id `IGNORE`, distinct from `AIR`. -/
def CONTENT_IGNORE : content_t := 127

/-- Modelled from the spec: `MAP_GENERATION_LIMIT` of constants.h (not under
src/), the bound on generated coordinates. -/
def MAP_GENERATION_LIMIT : Int := 31000

/-- Modelled from the spec: the `mountains` bit of `spflags` (mapgen_v7.h, not
under src/). -/
def MGV7_MOUNTAINS : Nat := 1

/-- Modelled from the spec: the `ridges` bit of `spflags` (mapgen_v7.h, not
under src/). -/
def MGV7_RIDGES : Nat := 2

/-- Modelled from the spec: the macro `rangelim(d, min, max)` of
util/numeric.h (not under src/), the clamp of `d` to `[min, max]`. -/
def rangelim (d lo hi : ℚ) : ℚ := if d < lo then lo else if d > hi then hi else d

/-- Modelled from the spec: `contour(v) = max(1 − |v|, 0)` of noise.h (not
under src/). -/
def contour (v : ℚ) : ℚ := max (1 - |v|) 0

/-- Three 16-bit coordinates (`v3s16`). -/
structure v3s16 where
  X : Int
  Y : Int
  Z : Int

/-- Two 16-bit coordinates (`v2s16`). -/
structure v2s16 where
  X : Int
  Y : Int

/-- The voxel buffer `vm->m_data` seen through `vm->m_area.index(x, y, z)`. -/
abbrev VoxelData := Int → Int → Int → content_t

/-- The assignment `vm->m_data[index(x, y, z)] = MapNode(c)`. -/
def setNode (vm : VoxelData) (x y z : Int) (c : content_t) : VoxelData :=
  fun x1 y1 z1 => if x1 = x ∧ y1 = y ∧ z1 = z then c else vm x1 y1 z1

/-- The assignment `a[i] = v` on an array. -/
def arraySet {α : Type} (a : Int → α) (i : Int) (v : α) : Int → α :=
  fun k => if k = i then v else a k

/-- Noise parameters (`NoiseParams`), with the field order of the constructor
calls in `MapgenV7Params::MapgenV7Params`. -/
structure NoiseParams where
  offset : ℚ
  scale : ℚ
  spread : ℚ × ℚ × ℚ
  seed : Int
  octaves : Int
  persist : ℚ
  lacunarity : ℚ

/-- A `Noise` object: its parameters and its result buffer. -/
structure Noise where
  np : NoiseParams
  result : Int → ℚ

/-- The point evaluators `NoisePerlin2D(np, x, y, seed)` and
`NoisePerlin3D(np, x, y, z, seed)` of noise.cpp (not under src/), taken as
parameters. -/
structure NoiseLib where
  NoisePerlin2D : NoiseParams → Int → Int → Int → ℚ
  NoisePerlin3D : NoiseParams → Int → Int → Int → Int → ℚ

/-- A biome record (`Biome`, mg_biome.h): the block ids and depths read by the
generator. -/
structure Biome where
  c_top : content_t
  c_filler : content_t
  c_stone : content_t
  c_water : content_t
  c_water_top : content_t
  c_dust : content_t
  depth_top : Int
  depth_filler : Int
  depth_water_top : Int

/-- The biome registry (`BiomeManager`, not under src/): `getBiome(heat,
humidity, y)` and `get(id)`, taken as parameters. -/
structure BiomeManager where
  getBiome : ℚ → ℚ → Int → Biome
  get : Nat → Biome

/-- The node registry (`INodeDefManager`, not under src/): the `buildable_to`
flag of `ndef->get(c)`. -/
structure INodeDefManager where
  buildable_to : content_t → Bool

/-- The members of `MapgenV7` (and of its base `Mapgen`) that the terrain
passes read or write. -/
structure MapgenV7 where
  seed : Int
  water_level : Int
  flags : Nat
  csize : v3s16
  vm : VoxelData
  ndef : INodeDefManager
  bmgr : BiomeManager
  ystride : Int
  zstride : Int
  spflags : Nat
  blockseed : Nat
  node_min : v3s16
  node_max : v3s16
  full_node_min : v3s16
  full_node_max : v3s16
  heightmap : Int → Int
  ridge_heightmap : Int → Int
  biomemap : Int → Nat
  noise_terrain_base : Noise
  noise_terrain_alt : Noise
  noise_terrain_persist : Noise
  noise_height_select : Noise
  noise_filler_depth : Noise
  noise_mount_height : Noise
  noise_ridge_uwater : Noise
  noise_mountain : Noise
  noise_ridge : Noise
  noise_cave1 : Noise
  noise_cave2 : Noise
  noise_heat : Noise
  noise_humidity : Noise
  c_stone : content_t
  c_water_source : content_t
  c_desert_stone : content_t

/-! ## Point queries -/

/-- Source function `MapgenV7::baseTerrainLevelAtPoint`: the value returned and the generator
with the two persistence fields it has overwritten. -/
def MapgenV7.baseTerrainLevelAtPoint (nl : NoiseLib) (g : MapgenV7) (x z : Int) :
    ℚ × MapgenV7 :=
  let hselect := nl.NoisePerlin2D g.noise_height_select.np x z g.seed
  let hselect := rangelim hselect 0 1
  let persist := nl.NoisePerlin2D g.noise_terrain_persist.np x z g.seed
  let g1 := { g with noise_terrain_base :=
    { g.noise_terrain_base with np := { g.noise_terrain_base.np with persist := persist } } }
  let height_base := nl.NoisePerlin2D g1.noise_terrain_base.np x z g1.seed
  let g2 := { g1 with noise_terrain_alt :=
    { g1.noise_terrain_alt with np := { g1.noise_terrain_alt.np with persist := persist } } }
  let height_alt := nl.NoisePerlin2D g2.noise_terrain_alt.np x z g2.seed
  if height_alt > height_base then (height_alt, g2)
  else (f32 (f64 (f32 (height_base * hselect) + f64 (height_alt * f64 (1 - hselect)))), g2)

/-- Source function `MapgenV7::baseTerrainLevelFromMap`.  In the blend
`height_base * hselect` is a `float` product; `1.0 - hselect`, the product with
`height_alt` and the sum are `double` operations; the value returned is
converted to `float`. -/
def MapgenV7.baseTerrainLevelFromMap (g : MapgenV7) (index : Int) : ℚ :=
  let hselect := rangelim (g.noise_height_select.result index) 0 1
  let height_base := g.noise_terrain_base.result index
  let height_alt := g.noise_terrain_alt.result index
  if height_alt > height_base then height_alt
  else f32 (f64 (f32 (height_base * hselect) + f64 (height_alt * f64 (1 - hselect))))

/-- Source function `MapgenV7::getMountainTerrainAtPoint`: the `float` product
against `(float)y`. -/
def MapgenV7.getMountainTerrainAtPoint (nl : NoiseLib) (g : MapgenV7) (x y z : Int) : Bool :=
  let mnt_h_n := nl.NoisePerlin2D g.noise_mount_height.np x z g.seed
  let mnt_n := nl.NoisePerlin3D g.noise_mountain.np x y z g.seed
  decide (f32 (mnt_n * mnt_h_n) ≥ f32 (y : ℚ))

/-- Source function `MapgenV7::getMountainTerrainFromMap`: the `float` product
against `(float)y`. -/
def MapgenV7.getMountainTerrainFromMap (g : MapgenV7) (idx_xyz idx_xz y : Int) : Bool :=
  let mounthn := g.noise_mount_height.result idx_xz
  let mountn := g.noise_mountain.result idx_xyz
  decide (f32 (mountn * mounthn) ≥ f32 (y : ℚ))

/-- The `while (iters--)` loop of `getGroundLevelAtPoint`, started with `iters`
iterations left at height `y`; `y` is an `s16`. -/
def MapgenV7.groundProbe (nl : NoiseLib) (g : MapgenV7) (px pz : Int) : Nat → Int → Int
  | 0, y => y
  | iters + 1, y =>
    if !g.getMountainTerrainAtPoint nl px y pz then y
    else MapgenV7.groundProbe nl g px pz iters (s16 (y + 1))

/-- Source function `MapgenV7::getGroundLevelAtPoint`: the value returned and the generator as
the call leaves it. -/
def MapgenV7.getGroundLevelAtPoint (nl : NoiseLib) (g : MapgenV7) (p : v2s16) :
    Int × MapgenV7 :=
  let r := g.baseTerrainLevelAtPoint nl p.X p.Y
  let y := float_to_s16 r.1
  let g1 := r.2
  let width : ℚ := f32 (f64 (2 / 10))
  let uwatern := f32 (nl.NoisePerlin2D g1.noise_ridge_uwater.np p.X p.Y g1.seed * 2)
  if |uwatern| ≤ width then (g1.water_level - 10, g1)
  else (g1.groundProbe nl p.X p.Y 128 y, g1)

/-! ## Base terrain -/

/-- The members written by `generateBaseTerrain`, with its running maximum. -/
structure BaseState where
  vm : VoxelData
  heightmap : Int → Int
  ridge_heightmap : Int → Int
  stone_surface_max_y : Int

/-- Body of the `y` loop of `generateBaseTerrain` at the cell `(x, y, z)`. -/
def MapgenV7.baseCell (g : MapgenV7) (surface_y x z y : Int) (vm : VoxelData) : VoxelData :=
  if vm x y z = CONTENT_IGNORE then
    if y ≤ surface_y then setNode vm x y z g.c_stone
    else if y ≤ g.water_level then setNode vm x y z g.c_water_source
    else setNode vm x y z CONTENT_AIR
  else vm

/-- Body of the column loop of `generateBaseTerrain` at the column `(x, z)`
with array index `index`. -/
def MapgenV7.baseColumn (g : MapgenV7) (x z index : Int) (st : BaseState) : BaseState :=
  let surface_height := g.baseTerrainLevelFromMap index
  let surface_y := float_to_s16 surface_height
  { vm := forUp (g.node_min.Y - 1) (g.node_max.Y + 1) (g.baseCell surface_y x z) st.vm
    heightmap := arraySet st.heightmap index surface_y
    ridge_heightmap := arraySet st.ridge_heightmap index surface_y
    stone_surface_max_y :=
      if surface_y > st.stone_surface_max_y then surface_y else st.stone_surface_max_y }

/-- The two column loops of `generateBaseTerrain`, with the running `index`. -/
def MapgenV7.baseLoop (g : MapgenV7) (st : BaseState × Int) : BaseState × Int :=
  forUp g.node_min.Z g.node_max.Z (fun z =>
    forUp g.node_min.X g.node_max.X (fun x p => (g.baseColumn x z p.2 p.1, p.2 + 1))) st

/-- Source function `MapgenV7::generateBaseTerrain`: the generator afterwards and the value
returned. -/
def MapgenV7.generateBaseTerrain (g : MapgenV7) : MapgenV7 × Int :=
  let st0 : BaseState :=
    { vm := g.vm, heightmap := g.heightmap, ridge_heightmap := g.ridge_heightmap
      stone_surface_max_y := -MAP_GENERATION_LIMIT }
  let r := g.baseLoop (st0, 0)
  ({ g with vm := r.1.vm, heightmap := r.1.heightmap, ridge_heightmap := r.1.ridge_heightmap },
    r.1.stone_surface_max_y)

/-! ## Mountain overlay -/

/-- Body of the innermost loop of `generateMountainTerrain` at the cell
`(x, y, z)`; `j` is the running index into the 3D noise buffer. -/
def MapgenV7.mountainCell (g : MapgenV7) (z y x : Int) (st : VoxelData × Int) (j : Int) :
    VoxelData × Int :=
  let index := (z - g.node_min.Z) * g.csize.X + (x - g.node_min.X)
  let c := st.1 x y z
  if g.getMountainTerrainFromMap j index y = true ∧ (c = CONTENT_AIR ∨ c = g.c_water_source) then
    (setNode st.1 x y z g.c_stone, if y > st.2 then y else st.2)
  else st

/-- The three loops of `generateMountainTerrain`; the state is the voxel
buffer with `ymax`, and the running index `j`. -/
def MapgenV7.mountainLoop (g : MapgenV7) (st : (VoxelData × Int) × Int) :
    (VoxelData × Int) × Int :=
  forUp g.node_min.Z g.node_max.Z (fun z =>
    forUp (g.node_min.Y - 1) (g.node_max.Y + 1) (fun y =>
      forUp g.node_min.X g.node_max.X (fun x p => (g.mountainCell z y x p.1 p.2, p.2 + 1)))) st

/-- Source function `MapgenV7::generateMountainTerrain`: the generator afterwards and the value
returned. -/
def MapgenV7.generateMountainTerrain (g : MapgenV7) (ymax : Int) : MapgenV7 × Int :=
  if g.node_max.Y < 0 then (g, ymax)
  else
    let r := g.mountainLoop ((g.vm, ymax), 0)
    ({ g with vm := r.1.1 }, r.1.2)

/-! ## Ridge carving -/

/-- The test of `generateRidgeTerrain` that lets the cell at height `y` be
carved: none of the three `continue` statements is taken.  `j` is the column
index and `index` the index into the 3D noise buffer.  The divisions by the
`double` literals `2.5` and `7.0` are `double` divisions whose result is stored
in a `float`; the other operations are `float` operations; the sum is compared
with the `double` `0.6`. -/
def MapgenV7.ridgeCarves (g : MapgenV7) (j index y : Int) : Bool :=
  let width : ℚ := f32 (f64 (2 / 10))
  if g.heightmap j < g.water_level - 16 then false
  else
    let uwatern := f32 (g.noise_ridge_uwater.result j * 2)
    if |uwatern| > width then false
    else
      let altitude : ℚ := f32 ((y - g.water_level : Int) : ℚ)
      let height_mod := f32 (f64 (f32 (altitude + 17) / f64 (25 / 10)))
      let width_mod := f32 (width - |uwatern|)
      let nridge := f32 (f64 (f32 (g.noise_ridge.result index * max altitude 0) / f64 7))
      if f32 (nridge + f32 (width_mod * height_mod)) < f64 (6 / 10) then false
      else true

/-- Body of the innermost loop of `generateRidgeTerrain` at the cell
`(x, y, z)`; the state is the voxel buffer with `ridge_heightmap`. -/
def MapgenV7.ridgeCell (g : MapgenV7) (z y x : Int) (st : VoxelData × (Int → Int))
    (index : Int) : VoxelData × (Int → Int) :=
  let j := (z - g.node_min.Z) * g.csize.X + (x - g.node_min.X)
  if g.ridgeCarves j index y = true then
    (setNode st.1 x y z (if y > g.water_level then CONTENT_AIR else g.c_water_source),
      if y < st.2 j then arraySet st.2 j (y - 1) else st.2)
  else st

/-- The three loops of `generateRidgeTerrain`, with the running `index`. -/
def MapgenV7.ridgeLoop (g : MapgenV7) (st : (VoxelData × (Int → Int)) × Int) :
    (VoxelData × (Int → Int)) × Int :=
  forUp g.node_min.Z g.node_max.Z (fun z =>
    forUp (g.node_min.Y - 1) (g.node_max.Y + 1) (fun y =>
      forUp g.node_min.X g.node_max.X (fun x p => (g.ridgeCell z y x p.1 p.2, p.2 + 1)))) st

/-- Source function `MapgenV7::generateRidgeTerrain`. -/
def MapgenV7.generateRidgeTerrain (g : MapgenV7) : MapgenV7 :=
  if g.node_max.Y < g.water_level then g
  else
    let r := g.ridgeLoop ((g.vm, g.ridge_heightmap), 0)
    { g with vm := r.1.1, ridge_heightmap := r.1.2 }

/-- Source function `MapgenV7::generateTerrain`: the generator afterwards and the value
returned. -/
def MapgenV7.generateTerrain (g : MapgenV7) : MapgenV7 × Int :=
  let r := g.generateBaseTerrain
  let r := if r.1.spflags &&& MGV7_MOUNTAINS ≠ 0 then r.1.generateMountainTerrain r.2 else r
  let g2 := if r.1.spflags &&& MGV7_RIDGES ≠ 0 then r.1.generateRidgeTerrain else r.1
  (g2, r.2)

/-! ## Biome surface layers -/

/-- The variables of one column scan of `generateBiomes`.  `biome` is the
pointer `Biome *biome` (`none` is `NULL`); `fault` records that a null `biome`
has been dereferenced. -/
structure BiomeScan where
  vm : VoxelData
  biome : Option Biome
  dfiller : Int
  y0_top : Int
  y0_filler : Int
  depth_water_top : Int
  nplaced : Int
  have_air : Bool
  desert_stone : Bool
  fault : Bool

/-- The assignment `vm->m_data[i] = MapNode(biome->field)` at `(x, y, z)`: it
dereferences `biome`. -/
def BiomeScan.writeBiome (s : BiomeScan) (x y z : Int) (field : Biome → content_t) :
    BiomeScan :=
  match s.biome with
  | some b => { s with vm := setNode s.vm x y z (field b) }
  | none => { s with fault := true }

/-- The first `if` of the `y` loop of `generateBiomes`: the biome is sampled at
a cell that is neither `IGNORE` nor `AIR` when the scan is at `node_max.Y` or
has air above.  The sum `biome->depth_filler + noise_filler_depth->result[index]`
is a `float` addition, converted to the `s16` variable `dfiller`. -/
def MapgenV7.biomeSample (g : MapgenV7) (heat_map humidity_map : Int → ℚ) (index y : Int)
    (c : content_t) (s : BiomeScan) : BiomeScan :=
  if c ≠ CONTENT_IGNORE ∧ c ≠ CONTENT_AIR ∧ (y = g.node_max.Y ∨ s.have_air = true) then
    let biome := g.bmgr.getBiome (heat_map index) (humidity_map index) y
    let dfiller :=
      float_to_s16 (f32 ((biome.depth_filler : ℚ) + g.noise_filler_depth.result index))
    { s with
      biome := some biome
      dfiller := dfiller
      y0_top := biome.depth_top
      y0_filler := s16 (biome.depth_top + dfiller)
      depth_water_top := biome.depth_water_top
      desert_stone := if biome.c_stone = g.c_desert_stone then true else s.desert_stone }
  else s

/-- Body of the `y` loop of `generateBiomes` at the cell `(x, y, z)`. -/
def MapgenV7.biomeCell (g : MapgenV7) (heat_map humidity_map : Int → ℚ) (x z index y : Int)
    (s0 : BiomeScan) : BiomeScan :=
  let c := s0.vm x y z
  let s := g.biomeSample heat_map humidity_map index y c s0
  if c = g.c_stone ∧ s.have_air = true then
    let c_below := s.vm x (y - 1) z
    if c_below ≠ CONTENT_AIR then
      if s.nplaced < s.y0_top then
        { s.writeBiome x y z Biome.c_top with nplaced := s16 (s.nplaced + 1) }
      else if s.nplaced < s.y0_filler ∧ s.nplaced ≥ s.y0_top then
        { s.writeBiome x y z Biome.c_filler with nplaced := s16 (s.nplaced + 1) }
      else if c = g.c_stone then
        { s with have_air := false, nplaced := 0 }.writeBiome x y z Biome.c_stone
      else
        { s with have_air := false, nplaced := 0 }
    else if c = g.c_stone then
      { s with have_air := false, nplaced := 0 }.writeBiome x y z Biome.c_stone
    else s
  else if c = g.c_stone then
    { s with have_air := false, nplaced := 0 }.writeBiome x y z Biome.c_stone
  else if c = g.c_water_source then
    let s1 := { s with have_air := true, nplaced := 0 }
    if y > g.water_level - s1.depth_water_top then s1.writeBiome x y z Biome.c_water_top
    else s1.writeBiome x y z Biome.c_water
  else if c = CONTENT_AIR then
    { s with have_air := true, nplaced := 0 }
  else s

/-- The state carried from column to column by `generateBiomes`: the voxel
buffer, `desert_stone`, and the record of a null dereference. -/
structure BiomeState where
  vm : VoxelData
  desert_stone : Bool
  fault : Bool

/-- Body of the column loop of `generateBiomes` at the column `(x, z)` with
array index `index`. -/
def MapgenV7.biomeColumn (g : MapgenV7) (heat_map humidity_map : Int → ℚ) (x z index : Int)
    (st : BiomeState) : BiomeState :=
  let c_above := st.vm x (g.node_max.Y + 1) z
  let s0 : BiomeScan :=
    { vm := st.vm, biome := none, dfiller := 0, y0_top := 0, y0_filler := 0
      depth_water_top := 0, nplaced := 0, have_air := decide (c_above = CONTENT_AIR)
      desert_stone := st.desert_stone, fault := st.fault }
  let s := forDown g.node_max.Y g.node_min.Y (g.biomeCell heat_map humidity_map x z index) s0
  { vm := s.vm, desert_stone := s.desert_stone, fault := s.fault }

/-- The two column loops of `generateBiomes`, with the running `index`. -/
def MapgenV7.biomeLoop (g : MapgenV7) (heat_map humidity_map : Int → ℚ)
    (st : BiomeState × Int) : BiomeState × Int :=
  forUp g.node_min.Z g.node_max.Z (fun z =>
    forUp g.node_min.X g.node_max.X (fun x p =>
      (g.biomeColumn heat_map humidity_map x z p.2 p.1, p.2 + 1))) st

/-- Source function `MapgenV7::generateBiomes`: the generator afterwards and the value
returned, or `none` when the pass dereferences a null `biome`. -/
def MapgenV7.generateBiomes (g : MapgenV7) (heat_map humidity_map : Int → ℚ) :
    Option (MapgenV7 × Bool) :=
  if g.node_max.Y < g.water_level then some (g, false)
  else
    let r := g.biomeLoop heat_map humidity_map
      ({ vm := g.vm, desert_stone := false, fault := false }, 0)
    if r.1.fault = true then none
    else some ({ g with vm := r.1.vm }, r.1.desert_stone)

/-! ## Surface dust -/

/-- The scan `for (y = y_start; y >= node_min.Y - 1; y--)` of `dustTopNodes`
with its `break` at the first cell that is not `AIR`: the height at which `vi`
is left, with `n` iterations remaining at height `y`. -/
def dustScan (vm : VoxelData) (x z : Int) : Nat → Int → Int
  | 0, y => y
  | n + 1, y => if vm x y z ≠ CONTENT_AIR then y else dustScan vm x z n (y - 1)

/-- The tail of the column body of `dustTopNodes`, once `y_start` is set: the
scan down to the first cell that is not `AIR`, and the placement of the dust
one node above it. -/
def MapgenV7.dustFrom (g : MapgenV7) (x z : Int) (biome : Biome) (vm : VoxelData)
    (y_start : Int) : VoxelData :=
  let yv := dustScan vm x z (y_start + 1 - (g.node_min.Y - 1)).toNat y_start
  let c := vm x yv z
  if g.ndef.buildable_to c = false ∧ c ≠ CONTENT_IGNORE ∧ c ≠ biome.c_dust then
    setNode vm x (yv + 1) z biome.c_dust
  else vm

/-- Body of the column loop of `dustTopNodes` at the column `(x, z)` with array
index `index`; each `continue` leaves the buffer as it is. -/
def MapgenV7.dustColumn (g : MapgenV7) (x z index : Int) (vm : VoxelData) : VoxelData :=
  let biome := g.bmgr.get (g.biomemap index)
  if biome.c_dust = CONTENT_IGNORE then vm
  else
    let c_full_max := vm x g.full_node_max.Y z
    if c_full_max = CONTENT_AIR then g.dustFrom x z biome vm (g.full_node_max.Y - 1)
    else if c_full_max = CONTENT_IGNORE then
      let c_max := vm x (g.node_max.Y + 1) z
      if c_max = CONTENT_AIR then g.dustFrom x z biome vm g.node_max.Y else vm
    else vm

/-- The two column loops of `dustTopNodes`, with the running `index`. -/
def MapgenV7.dustLoop (g : MapgenV7) (st : VoxelData × Int) : VoxelData × Int :=
  forUp g.node_min.Z g.node_max.Z (fun z =>
    forUp g.node_min.X g.node_max.X (fun x p => (g.dustColumn x z p.2 p.1, p.2 + 1))) st

/-- Source function `MapgenV7::dustTopNodes`. -/
def MapgenV7.dustTopNodes (g : MapgenV7) : MapgenV7 :=
  if g.node_max.Y < g.water_level then g
  else { g with vm := (g.dustLoop (g.vm, 0)).1 }

/-! ## Noise caves -/

/-- Body of the innermost loop of the noise-cave block of `generateCaves` at
the cell `(x, y, z)`; `index` runs over the 3D noise buffers and `index2d`
over `biomemap`.  `d1` and `d2` are `float` variables, their product is a
`float` product, compared with the `double` `0.3`. -/
def MapgenV7.caveCell (g : MapgenV7) (z y x : Int) (vm : VoxelData) (index2d index : Int) :
    VoxelData :=
  let biome := g.bmgr.get (g.biomemap index2d)
  let c := vm x y z
  if c = CONTENT_AIR ∨ (y ≤ g.water_level ∧ c ≠ biome.c_stone ∧ c ≠ g.c_stone) then vm
  else
    let d1 := f32 (contour (g.noise_cave1.result index))
    let d2 := f32 (contour (g.noise_cave2.result index))
    if f32 (d1 * d2) > f64 (3 / 10) then setNode vm x y z CONTENT_AIR else vm

/-- The three loops of the noise-cave block of `generateCaves`; the state is
the voxel buffer, `index2d` and `index`.  After each row `index2d` is moved
back by `ystride`, after each `z` it is moved forward by `ystride`. -/
def MapgenV7.caveLoop (g : MapgenV7) (st : (VoxelData × Int) × Int) : (VoxelData × Int) × Int :=
  forUp g.node_min.Z g.node_max.Z (fun z q =>
    let r := forUp (g.node_min.Y - 1) (g.node_max.Y + 1) (fun y q1 =>
      let r1 := forUp g.node_min.X g.node_max.X (fun x p =>
        ((g.caveCell z y x p.1.1 p.1.2 p.2, p.1.2 + 1), p.2 + 1)) q1
      ((r1.1.1, r1.1.2 - g.ystride), r1.2)) q
    ((r.1.1, r.1.2 + g.ystride), r.2)) st

/-- The noise-cave block of `MapgenV7::generateCaves` (the statement
`if (max_stone_y >= node_min.Y) ...`); the bruise caves that follow are carved
by `CaveV7`, which is not under src/. -/
def MapgenV7.generateCavesNoise (g : MapgenV7) (max_stone_y : Int) : MapgenV7 :=
  if max_stone_y ≥ g.node_min.Y then { g with vm := (g.caveLoop ((g.vm, 0), 0)).1.1 }
  else g

/-! ## Biome point query -/

/-- Source function `MapgenV7::getBiomeAtPoint`: the biome returned and the generator as the
call leaves it. -/
def MapgenV7.getBiomeAtPoint (nl : NoiseLib) (g : MapgenV7) (p : v3s16) : Biome × MapgenV7 :=
  let heat := nl.NoisePerlin2D g.noise_heat.np p.X p.Z g.seed
  let humidity := nl.NoisePerlin2D g.noise_humidity.np p.X p.Z g.seed
  let r := g.baseTerrainLevelAtPoint nl p.X p.Z
  let groundlevel := float_to_s16 r.1
  (r.2.bmgr.getBiome heat humidity groundlevel, r.2)

/-! ## Node ids resolved by the constructor -/

/-- The content ids that the constructor `MapgenV7::MapgenV7` resolves from
node names. -/
structure ResolvedNodes where
  c_stone : content_t
  c_dirt : content_t
  c_dirt_with_grass : content_t
  c_sand : content_t
  c_water_source : content_t
  c_lava_source : content_t
  c_ice : content_t
  c_cobble : content_t
  c_desert_stone : content_t
  c_mossycobble : content_t
  c_sandbrick : content_t
  c_stair_cobble : content_t
  c_stair_sandstone : content_t

/-- The block `Resolve nodes to be used` of the constructor
`MapgenV7::MapgenV7`: thirteen lookups, then the five substitutions in the
order of the source.  `getId` is `ndef->getId(name)` of the node registry (not
under src/), which gives `CONTENT_IGNORE` for a name that is not registered. -/
def MapgenV7.resolveNodes (getId : String → content_t) : ResolvedNodes :=
  let c_stone := getId "mapgen_stone"
  let c_dirt := getId "mapgen_dirt"
  let c_dirt_with_grass := getId "mapgen_dirt_with_grass"
  let c_sand := getId "mapgen_sand"
  let c_water_source := getId "mapgen_water_source"
  let c_lava_source := getId "mapgen_lava_source"
  let c_ice := getId "default:ice"
  let c_cobble := getId "mapgen_cobble"
  let c_desert_stone := getId "mapgen_desert_stone"
  let c_mossycobble := getId "mapgen_mossycobble"
  let c_sandbrick := getId "mapgen_sandstonebrick"
  let c_stair_cobble := getId "mapgen_stair_cobble"
  let c_stair_sandstone := getId "mapgen_stair_sandstone"
  let c_ice := if c_ice = CONTENT_IGNORE then CONTENT_AIR else c_ice
  let c_mossycobble := if c_mossycobble = CONTENT_IGNORE then c_cobble else c_mossycobble
  let c_sandbrick := if c_sandbrick = CONTENT_IGNORE then c_desert_stone else c_sandbrick
  let c_stair_cobble := if c_stair_cobble = CONTENT_IGNORE then c_cobble else c_stair_cobble
  let c_stair_sandstone :=
    if c_stair_sandstone = CONTENT_IGNORE then c_sandbrick else c_stair_sandstone
  { c_stone := c_stone, c_dirt := c_dirt, c_dirt_with_grass := c_dirt_with_grass
    c_sand := c_sand, c_water_source := c_water_source, c_lava_source := c_lava_source
    c_ice := c_ice, c_cobble := c_cobble, c_desert_stone := c_desert_stone
    c_mossycobble := c_mossycobble, c_sandbrick := c_sandbrick
    c_stair_cobble := c_stair_cobble, c_stair_sandstone := c_stair_sandstone }

/-! ## Caves -/

/-- The class `PseudoRandom` and the carver `CaveV7` (neither is under src/),
taken as parameters; `ρ` is the state of the pseudo-random generator.
`PseudoRandom seed` is the constructor call `PseudoRandom ps(seed)`,
`range ps lo hi` is `ps.range(lo, hi)` with the state it leaves, and
`makeCave g ps node_min node_max max_stone_y` is `CaveV7 cave(this, &ps);
cave.makeCave(node_min, node_max, max_stone_y)`: the voxel buffer and the
generator state it leaves. -/
structure CaveLib (ρ : Type) where
  PseudoRandom : Nat → ρ
  range : ρ → Int → Int → Int × ρ
  makeCave : MapgenV7 → ρ → v3s16 → v3s16 → Int → VoxelData × ρ

/-- The seed expression `blockseed + 21343` of `PseudoRandom ps(blockseed +
21343)` in `generateCaves`: a sum of `u32` values, taken modulo `2^32`. -/
def MapgenV7.bruiseSeed (g : MapgenV7) : Nat := (g.blockseed + 21343) % 4294967296

/-- The loop `for (u32 i = 0; i < bruises_count; i++)` of `generateCaves`, with
`n` iterations left. -/
def MapgenV7.bruiseLoop {ρ : Type} (cl : CaveLib ρ) (max_stone_y : Int) :
    Nat → MapgenV7 × ρ → MapgenV7 × ρ
  | 0, s => s
  | n + 1, s =>
    let r := cl.makeCave s.1 s.2 s.1.node_min s.1.node_max max_stone_y
    MapgenV7.bruiseLoop cl max_stone_y n ({ s.1 with vm := r.1 }, r.2)

/-- The tail of `generateCaves` from a pseudo-random generator in the state
`ps`: the draw of `bruises_count` (a `u32`) and the loop that carves the bruise
caves. -/
def MapgenV7.bruiseCaves {ρ : Type} (cl : CaveLib ρ) (g : MapgenV7) (max_stone_y : Int)
    (ps : ρ) : MapgenV7 :=
  let r1 := cl.range ps 1 5
  let r2 := if r1.1 = 1 then cl.range r1.2 1 2 else (0, r1.2)
  let bruises_count : Nat := (r2.1 % 4294967296).toNat
  (MapgenV7.bruiseLoop cl max_stone_y bruises_count (g, r2.2)).1

/-- Source function `MapgenV7::generateCaves`: the noise-cave block, the construction of the
pseudo-random generator from `blockseed + 21343`, and the bruise caves. -/
def MapgenV7.generateCaves {ρ : Type} (cl : CaveLib ρ) (g : MapgenV7) (max_stone_y : Int) :
    MapgenV7 :=
  let g1 := g.generateCavesNoise max_stone_y
  g1.bruiseCaves cl max_stone_y (cl.PseudoRandom g1.bruiseSeed)

/-! ## Chunk generation -/

/-- Modelled from the spec: the `CAVES` bit of the mapgen `flags` (mapgen.h, not
under src/). -/
def MG_CAVES : Nat := 2

/-- Modelled from the spec: the `DUNGEONS` bit of the mapgen `flags` (mapgen.h,
not under src/). -/
def MG_DUNGEONS : Nat := 4

/-- The fields of the request record `BlockMakeData` that `makeChunk` reads. -/
structure BlockMakeData where
  vmanip : VoxelData
  nodedef : INodeDefManager
  blockpos_min : v3s16
  blockpos_max : v3s16
  blockpos_requested : v3s16

/-- The collaborators of `makeChunk` that are not under src/, taken as
parameters: the constant `MAP_BLOCKSIZE`, `getBlockSeed2(p, seed)`, the map
evaluators `noise->perlinMap2D(x, z, persistmap)` and `noise->perlinMap3D(x, y,
z)` (the result buffer they fill), `bmgr->calcBiomes(sx, sz, heat, humidity,
heightmap, biomemap)` (the `biomemap` it fills), the cave library, and the
dungeon, decoration and ore generators (the voxel buffer they leave; the
dungeon generator receives the `desert_stone` flag from which `makeChunk`
builds its `DungeonParams`). -/
structure ChunkLib (ρ : Type) where
  MAP_BLOCKSIZE : Int
  getBlockSeed2 : v3s16 → Int → Nat
  perlinMap2D : Noise → Int → Int → Option (Int → ℚ) → Int → ℚ
  perlinMap3D : Noise → Int → Int → Int → Int → ℚ
  calcBiomes : BiomeManager → Int → Int → (Int → ℚ) → (Int → ℚ) → (Int → Int) → Int → Nat
  caves : CaveLib ρ
  dungeon : MapgenV7 → Bool → Nat → v3s16 → v3s16 → VoxelData
  placeAllDecos : MapgenV7 → Nat → v3s16 → v3s16 → VoxelData
  placeAllOres : MapgenV7 → Nat → v3s16 → v3s16 → VoxelData

/-- The four terrain maps refilled at the start of `calculateNoise`:
`noise_terrain_persist`, then `noise_terrain_base` and `noise_terrain_alt` with
the persistence map just computed, then `noise_height_select`. -/
def MapgenV7.noiseTerrain {ρ : Type} (lib : ChunkLib ρ) (g : MapgenV7) (x z : Int) : MapgenV7 :=
  let persistmap := lib.perlinMap2D g.noise_terrain_persist x z none
  { g with
    noise_terrain_persist := { np := g.noise_terrain_persist.np, result := persistmap }
    noise_terrain_base :=
      { np := g.noise_terrain_base.np
        result := lib.perlinMap2D g.noise_terrain_base x z (some persistmap) }
    noise_terrain_alt :=
      { np := g.noise_terrain_alt.np
        result := lib.perlinMap2D g.noise_terrain_alt x z (some persistmap) }
    noise_height_select :=
      { np := g.noise_height_select.np
        result := lib.perlinMap2D g.noise_height_select x z none } }

/-- The statement `if (flags & MG_CAVES) ...` of `calculateNoise`. -/
def MapgenV7.noiseCaves {ρ : Type} (lib : ChunkLib ρ) (g : MapgenV7) (x y z : Int) : MapgenV7 :=
  if g.flags &&& MG_CAVES ≠ 0 then
    { g with
      noise_cave1 := { np := g.noise_cave1.np, result := lib.perlinMap3D g.noise_cave1 x y z }
      noise_cave2 := { np := g.noise_cave2.np, result := lib.perlinMap3D g.noise_cave2 x y z } }
  else g

/-- The statement `if ((spflags & MGV7_RIDGES) && node_max.Y >= water_level)
...` of `calculateNoise`. -/
def MapgenV7.noiseRidges {ρ : Type} (lib : ChunkLib ρ) (g : MapgenV7) (x y z : Int) : MapgenV7 :=
  if g.spflags &&& MGV7_RIDGES ≠ 0 ∧ g.node_max.Y ≥ g.water_level then
    { g with
      noise_ridge := { np := g.noise_ridge.np, result := lib.perlinMap3D g.noise_ridge x y z }
      noise_ridge_uwater :=
        { np := g.noise_ridge_uwater.np
          result := lib.perlinMap2D g.noise_ridge_uwater x z none } }
  else g

/-- The statement `if ((spflags & MGV7_MOUNTAINS) && node_max.Y >= 0) ...` of
`calculateNoise`. -/
def MapgenV7.noiseMountains {ρ : Type} (lib : ChunkLib ρ) (g : MapgenV7) (x y z : Int) :
    MapgenV7 :=
  if g.spflags &&& MGV7_MOUNTAINS ≠ 0 ∧ g.node_max.Y ≥ 0 then
    { g with
      noise_mountain :=
        { np := g.noise_mountain.np, result := lib.perlinMap3D g.noise_mountain x y z }
      noise_mount_height :=
        { np := g.noise_mount_height.np
          result := lib.perlinMap2D g.noise_mount_height x z none } }
  else g

/-- The statement `if (node_max.Y >= water_level) ...` of `calculateNoise`. -/
def MapgenV7.noiseBiomes {ρ : Type} (lib : ChunkLib ρ) (g : MapgenV7) (x z : Int) : MapgenV7 :=
  if g.node_max.Y ≥ g.water_level then
    { g with
      noise_filler_depth :=
        { np := g.noise_filler_depth.np
          result := lib.perlinMap2D g.noise_filler_depth x z none }
      noise_heat := { np := g.noise_heat.np, result := lib.perlinMap2D g.noise_heat x z none }
      noise_humidity :=
        { np := g.noise_humidity.np, result := lib.perlinMap2D g.noise_humidity x z none } }
  else g

/-- Source function `MapgenV7::calculateNoise`: the result buffers it refills, statement by
statement. -/
def MapgenV7.calculateNoise {ρ : Type} (lib : ChunkLib ρ) (g : MapgenV7) : MapgenV7 :=
  let x := g.node_min.X
  let y := g.node_min.Y - 1
  let z := g.node_min.Z
  ((((g.noiseTerrain lib x z).noiseCaves lib x y z).noiseRidges lib x y z).noiseMountains
    lib x y z).noiseBiomes lib x z

/-- Modelled from the spec: the top-down scan of one column by the heightmap
refresh (`Mapgen::findGroundLevel`, mapgen.cpp, not under src/), with `n`
cells left at height `y`: the `y` of the highest cell that is neither `AIR`
nor `IGNORE`, or the height below the last cell if there is none. -/
def groundScan (vm : VoxelData) (x z : Int) : Nat → Int → Int
  | 0, y => y
  | n + 1, y =>
    if vm x y z ≠ CONTENT_AIR ∧ vm x y z ≠ CONTENT_IGNORE then y
    else groundScan vm x z n (y - 1)

/-- Modelled from the spec: the heightmap refresh `Mapgen::updateHeightmap(nmin,
nmax)` (mapgen.cpp, not under src/): scan each column top-down in the chunk
and write `heightmap[i] = y` of the highest non-`AIR`, non-`IGNORE` cell, or
`nmin.Y - 1` if none. -/
def MapgenV7.updateHeightmap (g : MapgenV7) (nmin nmax : v3s16) : MapgenV7 :=
  { g with heightmap :=
      (forUp nmin.Z nmax.Z (fun z =>
        forUp nmin.X nmax.X (fun x (p : (Int → Int) × Int) =>
          (arraySet p.1 p.2 (groundScan g.vm x z (nmax.Y + 1 - nmin.Y).toNat nmax.Y), p.2 + 1)))
        (g.heightmap, 0)).1 }

/-- The statements of `makeChunk` up to the call of `generateTerrain`: the
buffer and registry handles, the chunk frame computed from the block
positions, `blockseed`, and `calculateNoise`. -/
def MapgenV7.makeChunkInit {ρ : Type} (lib : ChunkLib ρ) (g : MapgenV7) (data : BlockMakeData) :
    MapgenV7 :=
  let g := { g with vm := data.vmanip, ndef := data.nodedef }
  let blockpos_min := data.blockpos_min
  let blockpos_max := data.blockpos_max
  let g := { g with
    node_min := ⟨blockpos_min.X * lib.MAP_BLOCKSIZE, blockpos_min.Y * lib.MAP_BLOCKSIZE,
      blockpos_min.Z * lib.MAP_BLOCKSIZE⟩
    node_max := ⟨(blockpos_max.X + 1) * lib.MAP_BLOCKSIZE - 1,
      (blockpos_max.Y + 1) * lib.MAP_BLOCKSIZE - 1, (blockpos_max.Z + 1) * lib.MAP_BLOCKSIZE - 1⟩
    full_node_min := ⟨(blockpos_min.X - 1) * lib.MAP_BLOCKSIZE,
      (blockpos_min.Y - 1) * lib.MAP_BLOCKSIZE, (blockpos_min.Z - 1) * lib.MAP_BLOCKSIZE⟩
    full_node_max := ⟨(blockpos_max.X + 2) * lib.MAP_BLOCKSIZE - 1,
      (blockpos_max.Y + 2) * lib.MAP_BLOCKSIZE - 1,
      (blockpos_max.Z + 2) * lib.MAP_BLOCKSIZE - 1⟩ }
  let g := { g with blockseed := lib.getBlockSeed2 g.full_node_min g.seed }
  g.calculateNoise lib

/-- The statement `if (flags & MG_CAVES) generateCaves(stone_surface_max_y)` of
`makeChunk`. -/
def MapgenV7.chunkCaves {ρ : Type} (lib : ChunkLib ρ) (g : MapgenV7)
    (stone_surface_max_y : Int) : MapgenV7 :=
  if g.flags &&& MG_CAVES ≠ 0 then g.generateCaves lib.caves stone_surface_max_y else g

/-- The statement `if ((flags & MG_DUNGEONS) && (stone_surface_max_y >=
node_min.Y)) ...` of `makeChunk`: the dungeon generator runs on the parameters
chosen by `desert_stone`. -/
def MapgenV7.chunkDungeons {ρ : Type} (lib : ChunkLib ρ) (g : MapgenV7)
    (stone_surface_max_y : Int) (desert_stone : Bool) : MapgenV7 :=
  if g.flags &&& MG_DUNGEONS ≠ 0 ∧ stone_surface_max_y ≥ g.node_min.Y then
    { g with vm := lib.dungeon g desert_stone g.blockseed g.full_node_min g.full_node_max }
  else g

/-- The call `m_emerge->decomgr->placeAllDecos(this, blockseed, node_min,
node_max)` of `makeChunk`. -/
def MapgenV7.chunkDecos {ρ : Type} (lib : ChunkLib ρ) (g : MapgenV7) : MapgenV7 :=
  { g with vm := lib.placeAllDecos g g.blockseed g.node_min g.node_max }

/-- The call `m_emerge->oremgr->placeAllOres(this, blockseed, node_min,
node_max)` of `makeChunk`. -/
def MapgenV7.chunkOres {ρ : Type} (lib : ChunkLib ρ) (g : MapgenV7) : MapgenV7 :=
  { g with vm := lib.placeAllOres g g.blockseed g.node_min g.node_max }

/-- The statements of `makeChunk` after `generateBiomes`: caves, dungeons,
decorations, ores and dust, in the order of the source.  `updateLiquid` and
`calcLighting`, which follow, write no content id. -/
def MapgenV7.makeChunkFinish {ρ : Type} (lib : ChunkLib ρ) (g : MapgenV7)
    (stone_surface_max_y : Int) (desert_stone : Bool) : MapgenV7 :=
  ((((g.chunkCaves lib stone_surface_max_y).chunkDungeons lib stone_surface_max_y
    desert_stone).chunkDecos lib).chunkOres lib).dustTopNodes

/-- The state of `makeChunk` after the heightmap refresh and `calcBiomes`, from
the state `g` that `generateTerrain` leaves. -/
def MapgenV7.makeChunkMaps {ρ : Type} (lib : ChunkLib ρ) (g : MapgenV7) : MapgenV7 :=
  let g := g.updateHeightmap g.node_min g.node_max
  { g with
    biomemap :=
      lib.calcBiomes g.bmgr g.csize.X g.csize.Z g.noise_heat.result g.noise_humidity.result
        g.heightmap }

/-- Source function `MapgenV7::makeChunk`: the generator as the call leaves it, or `none` when
an `assert` on the block positions fails or `generateBiomes` dereferences a
null `biome`.  `stone_surface_max_y` is an `s16`. -/
def MapgenV7.makeChunk {ρ : Type} (lib : ChunkLib ρ) (g : MapgenV7) (data : BlockMakeData) :
    Option MapgenV7 :=
  if (data.blockpos_requested.X ≥ data.blockpos_min.X ∧
      data.blockpos_requested.Y ≥ data.blockpos_min.Y ∧
      data.blockpos_requested.Z ≥ data.blockpos_min.Z) ∧
     (data.blockpos_requested.X ≤ data.blockpos_max.X ∧
      data.blockpos_requested.Y ≤ data.blockpos_max.Y ∧
      data.blockpos_requested.Z ≤ data.blockpos_max.Z) then
    let r := (g.makeChunkInit lib data).generateTerrain
    let stone_surface_max_y := s16 r.2
    let g := r.1.makeChunkMaps lib
    (g.generateBiomes g.noise_heat.result g.noise_humidity.result).map
      (fun b => b.1.makeChunkFinish lib stone_surface_max_y b.2)
  else none

/-! ## `porting.cpp`: `pathRemoveFile` -/

/-- The string that a `char` buffer holds: the characters before the first
NUL.  A `char` is its code. -/
def cstr (buf : List Nat) : List Nat := buf.takeWhile (fun c => c ≠ 0)

/-- The C function `strlen` on the buffer `path`: the number of characters
before the first NUL, or `none` when the buffer holds no NUL (the read runs
past its end). -/
def strlen (path : List Nat) : Option Nat :=
  if 0 ∈ path then some (cstr path).length else none

/-- The loop `for (i = strlen(path) - 1; i >= 0; i--) if (path[i] == delim)
break;` of `pathRemoveFile`, with `n` iterations left at index `i`: the value of
`i` when the loop is left. -/
def pathRemoveFile_scan (path : List Nat) (delim : Nat) : Nat → Int → Int
  | 0, i => i
  | n + 1, i =>
    if path.getD i.toNat 0 = delim then i else pathRemoveFile_scan path delim n (i - 1)

/-- The index `i` of the store `path[i] = 0` at the end of `pathRemoveFile`. -/
def pathRemoveFile_index (path : List Nat) (delim : Nat) : Option Int :=
  (strlen path).map (fun n => pathRemoveFile_scan path delim n ((n : Int) - 1))

/-- Source function `porting::pathRemoveFile`: the buffer after the call, or `none` when the
buffer holds no NUL or the store `path[i] = 0` falls outside the buffer. -/
def pathRemoveFile (path : List Nat) (delim : Nat) : Option (List Nat) :=
  match pathRemoveFile_index path delim with
  | none => none
  | some i => if 0 ≤ i ∧ i < (path.length : Int) then some (path.set i.toNat 0) else none

/-! ## Footprints -/

/-- The step `body` acts on the set `S` of cells of the voxel buffer `proj s`:
cells outside `S` keep their content, and the content it leaves in `S` depends
only on the content of `S` before the step. -/
structure ActsOn {σ : Type} (proj : σ → VoxelData) (S : Int → Int → Int → Prop)
    (body : σ → σ) : Prop where
  frame : ∀ s x y z, ¬ S x y z → proj (body s) x y z = proj s x y z
  loc : ∀ s t, (∀ x y z, S x y z → proj s x y z = proj t x y z) →
    ∀ x y z, S x y z → proj (body s) x y z = proj (body t) x y z

/-! ## Indices of a cell -/

/-- The number of columns in a row of the chunk, `node_max.X - node_min.X + 1`. -/
def MapgenV7.rowLen (g : MapgenV7) : Int := ((g.node_max.X + 1 - g.node_min.X).toNat : Int)

/-- The number of rows in a `z` slab of the 3D loops, `node_max.Y - node_min.Y + 3`. -/
def MapgenV7.slabRows (g : MapgenV7) : Int :=
  (((g.node_max.Y + 1) + 1 - (g.node_min.Y - 1)).toNat : Int)

/-- The value of the running index of a column loop (`for z`, `for x`,
`index++`) when it reaches the column `(x, z)`. -/
def MapgenV7.columnIndex (g : MapgenV7) (x z : Int) : Int :=
  (z - g.node_min.Z) * g.rowLen + (x - g.node_min.X)

/-- The value of the running index of a 3D loop (`for z`, `for y`, `for x`,
one increment per cell) when it reaches the cell `(x, y, z)`. -/
def MapgenV7.cellIndex (g : MapgenV7) (x y z : Int) : Int :=
  (z - g.node_min.Z) * (g.slabRows * g.rowLen) + (y - (g.node_min.Y - 1)) * g.rowLen
    + (x - g.node_min.X)

/-- The cell `(x, y, z)` is visited by the 3D loops: it lies in the chunk or
in its one-node halo below and above. -/
def MapgenV7.inChunk (g : MapgenV7) (x y z : Int) : Prop :=
  g.node_min.X ≤ x ∧ x ≤ g.node_max.X ∧ g.node_min.Y - 1 ≤ y ∧ y ≤ g.node_max.Y + 1 ∧
    g.node_min.Z ≤ z ∧ z ≤ g.node_max.Z

instance (g : MapgenV7) (x y z : Int) : Decidable (g.inChunk x y z) := by
  unfold MapgenV7.inChunk; infer_instance

/-- The base surface height `surface_y` that `generateBaseTerrain` computes for
the column `(x, z)`. -/
def MapgenV7.surfaceY (g : MapgenV7) (x z : Int) : Int :=
  float_to_s16 (g.baseTerrainLevelFromMap (g.columnIndex x z))

/-- The column index `(z - node_min.Z) * csize.X + (x - node_min.X)` that the
3D loops compute from `csize`. -/
def MapgenV7.columnIndexC (g : MapgenV7) (x z : Int) : Int :=
  (z - g.node_min.Z) * g.csize.X + (x - g.node_min.X)

/-- The value `b` is the maximum of `a` and of the heights that satisfy `P`. -/
def MaxOf (P : Int → Prop) (a b : Int) : Prop :=
  a ≤ b ∧ (∀ y, P y → y ≤ b) ∧ (b = a ∨ P b)

/-- The generator as `generateTerrain` hands it to the ridge pass: after
`generateBaseTerrain` and, when the `mountains` flag is set, after
`generateMountainTerrain`. -/
def MapgenV7.beforeRidge (g : MapgenV7) : MapgenV7 :=
  let r := g.generateBaseTerrain
  (if r.1.spflags &&& MGV7_MOUNTAINS ≠ 0 then r.1.generateMountainTerrain r.2 else r).1

/-- Two states of a column scan of `generateBiomes` agree on the column
`(x, z)` of the voxel buffer and on the scan variables that decide the writes
(all but `desert_stone` and `fault`). -/
def BiomeScan.agree (x z : Int) (s t : BiomeScan) : Prop :=
  (∀ y, s.vm x y z = t.vm x y z) ∧ s.biome = t.biome ∧ s.dfiller = t.dfiller ∧
    s.y0_top = t.y0_top ∧ s.y0_filler = t.y0_filler ∧
    s.depth_water_top = t.depth_water_top ∧ s.nplaced = t.nplaced ∧ s.have_air = t.have_air

/-- The layer that `generateBiomes` gives to a cell of a solid run at depth
`k` below the top of the run: `top` for the first `depth_top` cells, `filler`
for the next `f`, `stone` below. -/
def Biome.layer (B : Biome) (f k : Int) : content_t :=
  if k < B.depth_top then B.c_top else if k < B.depth_top + f then B.c_filler else B.c_stone

/-- The content that the scan of `generateBiomes` leaves in the cell at height
`w` of a run of generic stone with top `h` and lowest cell `b`: the layer of
its depth, except that the lowest cell of a run with `AIR` directly below it
(an overhang floor) gets the biome stone. -/
def Biome.runCell (B : Biome) (f h b : Int) (below : content_t) (w : Int) : content_t :=
  if w = b ∧ below = CONTENT_AIR then B.c_stone else B.layer f (h - w)

/-- Invariant of the column scan of `generateBiomes` over a run of generic
stone `b .. h` under air, before the cell at height `y` is processed: `vm0` is
the buffer and `fault0` the fault record at the start of the scan, `yf` the
value of `y0_filler` for the biome `B`, and `f` the number of filler cells. -/
structure BiomeRunInv (x z : Int) (vm0 : VoxelData) (fault0 : Bool) (B : Biome)
    (f h b yf y : Int) (s : BiomeScan) : Prop where
  below : ∀ w, w ≤ y → s.vm x w z = vm0 x w z
  layered : ∀ w, y < w → b ≤ w → w ≤ h → s.vm x w z = B.runCell f h b (vm0 x (b - 1) z) w
  fault : s.fault = fault0
  vars : y < h → s.biome = some B ∧ s.y0_top = B.depth_top ∧ s.y0_filler = yf
  air : b ≤ y → (s.have_air = true ↔ y ≥ h - B.depth_top - f)
  placed : b ≤ y → s.nplaced = if y < h ∧ y ≥ h - B.depth_top - f then h - y else 0

/-! ## Support definitions for the later claims -/

/-- The ridge pass overwrites the cell `(x, y, z)`: the pass is not skipped
(`node_max.Y ≥ water_level`), the loops visit the cell, and none of the three
`continue` statements is taken there. -/
def MapgenV7.ridgeWrites (g : MapgenV7) (x y z : Int) : Prop :=
  g.node_max.Y ≥ g.water_level ∧ g.inChunk x y z ∧
    g.ridgeCarves (g.columnIndexC x z) (g.cellIndex x y z) y = true

instance (g : MapgenV7) (x y z : Int) : Decidable (g.ridgeWrites x y z) := by
  unfold MapgenV7.ridgeWrites; infer_instance

/-- The generator `g` with the persistence fields of the `terrain_base` and
`terrain_alt` noise parameters set to `a` and `b`. -/
def MapgenV7.withPersist (g : MapgenV7) (a b : ℚ) : MapgenV7 :=
  { g with
    noise_terrain_base :=
      { g.noise_terrain_base with np := { g.noise_terrain_base.np with persist := a } }
    noise_terrain_alt :=
      { g.noise_terrain_alt with np := { g.noise_terrain_alt.np with persist := b } } }

/-- The update of one entry `r` of `ridge_heightmap` by a carve at height `y`:
the statement `if (y < ridge_heightmap[j]) ridge_heightmap[j] = y - 1`. -/
def ridgeLower (y r : Int) : Int := if y < r then y - 1 else r

/-- The state of the column scan of `generateBiomes` at the column `(x, z)`
after its first `n` cells (`y = node_max.Y` down to `node_max.Y - n + 1`),
started on the buffer state `st`. -/
def MapgenV7.biomeScanAfter (g : MapgenV7) (heat_map humidity_map : Int → ℚ) (x z index : Int)
    (st : BiomeState) (n : Nat) : BiomeScan :=
  loopDown n g.node_max.Y (g.biomeCell heat_map humidity_map x z index)
    { vm := st.vm, biome := none, dfiller := 0, y0_top := 0, y0_filler := 0
      depth_water_top := 0, nplaced := 0
      have_air := decide (st.vm x (g.node_max.Y + 1) z = CONTENT_AIR)
      desert_stone := st.desert_stone, fault := st.fault }

/-- The generator `g1` differs from `g` in the voxel buffer at most. -/
def MapgenV7.vmOnly (g g1 : MapgenV7) : Prop := ∃ v : VoxelData, g1 = { g with vm := v }

/-- The generator as `makeChunk` has it when `generateTerrain` has returned,
before the heightmap refresh. -/
def MapgenV7.afterTerrain {ρ : Type} (lib : ChunkLib ρ) (g : MapgenV7) (data : BlockMakeData) :
    MapgenV7 :=
  ((g.makeChunkInit lib data).generateTerrain).1

/-! ## Example generators -/

/-- Noise parameters used by the example generators. -/
def exParams : NoiseParams :=
  { offset := 0, scale := 1, spread := (1, 1, 1), seed := 0, octaves := 1, persist := 1 / 2
    lacunarity := 2 }

/-- A noise object whose result buffer is constant. -/
def exNoise (v : ℚ) : Noise := { np := exParams, result := fun _ => v }

/-- A grassland-like biome: one node of top (id 10), three of filler (id 11),
stone id 12, no dust. -/
def exBiome : Biome :=
  { c_top := 10, c_filler := 11, c_stone := 12, c_water := 13, c_water_top := 14
    c_dust := CONTENT_IGNORE, depth_top := 1, depth_filler := 3, depth_water_top := 2 }

/-- A generator on the one-column chunk `(0, 0, 0) .. (0, 7, 0)` with
`water_level = 1`, stone id 1, water id 2, an all-`IGNORE` voxel buffer, a base
level of 20 everywhere and a ridge under-water noise of `3/40`. -/
def exGen : MapgenV7 :=
  { seed := 0, water_level := 1, flags := 0, csize := ⟨1, 8, 1⟩
    vm := fun _ _ _ => CONTENT_IGNORE
    ndef := { buildable_to := fun c => decide (c = CONTENT_AIR) }
    bmgr := { getBiome := fun _ _ _ => exBiome, get := fun _ => exBiome }
    ystride := 1, zstride := 10, spflags := 3, blockseed := 0
    node_min := ⟨0, 0, 0⟩, node_max := ⟨0, 7, 0⟩
    full_node_min := ⟨-16, -16, -16⟩, full_node_max := ⟨16, 23, 16⟩
    heightmap := fun _ => 0, ridge_heightmap := fun _ => 0, biomemap := fun _ => 0
    noise_terrain_base := exNoise 20, noise_terrain_alt := exNoise 20
    noise_terrain_persist := exNoise (6 / 10), noise_height_select := exNoise 0
    noise_filler_depth := exNoise 0, noise_mount_height := exNoise 0
    noise_ridge_uwater := exNoise (3 / 40), noise_mountain := exNoise 0
    noise_ridge := exNoise 0, noise_cave1 := exNoise 0, noise_cave2 := exNoise 0
    noise_heat := exNoise 0, noise_humidity := exNoise 0
    c_stone := 1, c_water_source := 2, c_desert_stone := 3 }

/-- The example generator with a ridge under-water noise of `1/40`, inside the
river channel at `water_level`. -/
def exGenRiver : MapgenV7 := { exGen with noise_ridge_uwater := exNoise (1 / 40) }

/-- Point evaluators that return the `offset` of the noise parameters
everywhere. -/
def exNoiseLib : NoiseLib :=
  { NoisePerlin2D := fun np _ _ _ => np.offset
    NoisePerlin3D := fun np _ _ _ _ => np.offset }

/-- The example generator with a ridge under-water point noise of `1`, outside
every river channel; base level and mountain noise are `0`. -/
def exGenPoint : MapgenV7 :=
  { exGen with noise_ridge_uwater := { np := { exParams with offset := 1 }, result := fun _ => 0 } }

/-- The example generator with a voxel buffer of generic stone (id 1); the
cave noises are `0`, so the contour product is `1` everywhere. -/
def exGenStone : MapgenV7 := { exGen with vm := fun _ _ _ => 1 }

/-- A tundra-like biome with a dust block (snow, id 20). -/
def exBiomeSnow : Biome := { exBiome with c_dust := 20 }

/-- The example generator with the snow biome everywhere and a column of
generic stone up to `y = 3` under air. -/
def exGenSnow : MapgenV7 :=
  { exGen with
    bmgr := { getBiome := fun _ _ _ => exBiomeSnow, get := fun _ => exBiomeSnow }
    vm := fun _ y _ => if y ≤ 3 then 1 else CONTENT_AIR }

/-- A heat (and humidity) map that is `0` everywhere. -/
def exHeat : Int → ℚ := fun _ => 0

/-- The example generator with generic stone up to `h = 5` under air. -/
def exGenFlat : MapgenV7 := { exGen with vm := fun _ y _ => if y ≤ 5 then 1 else CONTENT_AIR }

/-- The example generator with a single cell of generic stone at `y = 5`, air
above and below it. -/
def exGenOverhang : MapgenV7 :=
  { exGen with vm := fun _ y _ => if y = 5 then 1 else CONTENT_AIR }

/-- The example generator with a shelf of generic stone at `y = 3 .. 5`, air
above and below it. -/
def exGenShelf : MapgenV7 :=
  { exGen with vm := fun _ y _ => if 3 ≤ y ∧ y ≤ 5 then 1 else CONTENT_AIR }

/-- The example generator with a voxel buffer of air, a mountain noise of `3`
and a mountain height noise of `1`: the cells with `y ≤ 3` are
mountain-solid. -/
def exGenMount : MapgenV7 :=
  { exGen with
    vm := fun _ _ _ => CONTENT_AIR
    noise_mountain := exNoise 3, noise_mount_height := exNoise 1 }

/-! ## Further example generators and registries -/

/-- The example generator queried through `exNoiseLib`: base level `0`, outside
every river channel, and `mountain_noise_3d * mount_height_noise = 1/2`
everywhere, so that exactly the cells with `y ≤ 0` are mountain-solid. -/
def exGenHill : MapgenV7 :=
  { exGenPoint with
    noise_mountain := { np := { exParams with offset := 1 / 2 }, result := fun _ => 0 }
    noise_mount_height := { np := { exParams with offset := 1 }, result := fun _ => 0 } }

/-- The example generator with a base level of `-1/2` everywhere. -/
def exGenNeg : MapgenV7 :=
  { exGen with noise_terrain_base := exNoise (-1 / 2), noise_terrain_alt := exNoise (-1 / 2) }

/-- A node registry in which only `mapgen_cobble` (id 5) and
`mapgen_desert_stone` (id 3) are registered. -/
def exGetId : String → content_t := fun name =>
  if name = "mapgen_cobble" then 5 else if name = "mapgen_desert_stone" then 3
  else CONTENT_IGNORE

/-- The example generator with `blockseed = 1`. -/
def exGenSeed : MapgenV7 := { exGen with blockseed := 1 }

/-- A pseudo-random generator whose state is the seed it was constructed from
and never changes, whose `range` returns the seed taken modulo the width of
the interval, and a carver that leaves the buffer as it is. -/
def exCaveLib : CaveLib Nat :=
  { PseudoRandom := fun seed => seed
    range := fun ps lo hi => (lo + (ps : Int) % (hi - lo + 1), ps)
    makeCave := fun g ps _ _ _ => (g.vm, ps) }

/-- Collaborators for the example chunk: a block is one node, the map
evaluators fill a buffer with the `offset` of the noise parameters, every
column gets biome id `0`, and the dungeon, decoration and ore generators leave
the buffer as it is. -/
def exLib : ChunkLib Nat :=
  { MAP_BLOCKSIZE := 1
    getBlockSeed2 := fun _ _ => 0
    perlinMap2D := fun n _ _ _ _ => n.np.offset
    perlinMap3D := fun n _ _ _ _ => n.np.offset
    calcBiomes := fun _ _ _ _ _ _ _ => 0
    caves := exCaveLib
    dungeon := fun g _ _ _ _ => g.vm
    placeAllDecos := fun g _ _ _ => g.vm
    placeAllOres := fun g _ _ _ => g.vm }

/-- A request for the one-column chunk `(0, 0, 0) .. (0, 7, 0)` on a buffer of
`IGNORE`. -/
def exData : BlockMakeData :=
  { vmanip := fun _ _ _ => CONTENT_IGNORE
    nodedef := { buildable_to := fun c => decide (c = CONTENT_AIR) }
    blockpos_min := ⟨0, 0, 0⟩, blockpos_max := ⟨0, 7, 0⟩, blockpos_requested := ⟨0, 0, 0⟩ }

/-- The example generator with mountains, ridges, caves and dungeons disabled,
base and alternative terrain noise parameters of offset `3` (a base level of
`3` under `exLib`), and the snow biome everywhere. -/
def exGenChunk : MapgenV7 :=
  { exGen with
    spflags := 0
    bmgr := { getBiome := fun _ _ _ => exBiomeSnow, get := fun _ => exBiomeSnow }
    noise_terrain_base := { np := { exParams with offset := 3 }, result := fun _ => 0 }
    noise_terrain_alt := { np := { exParams with offset := 3 }, result := fun _ => 0 } }

/-- The example generator with a base level of `5` everywhere and a ridge
under-water noise of `127/2000`: with `water_level = 1` the carve test passes
exactly for `y ≥ 5`, so the lowest cell that the ridge pass overwrites in the
column is the surface cell itself. -/
def exGenBed : MapgenV7 :=
  { exGen with
    noise_terrain_base := exNoise 5, noise_terrain_alt := exNoise 5
    noise_ridge_uwater := exNoise (127 / 2000) }
/-! ## Floating-point rounding -/

theorem log2Aux_spec (fuel : Nat) : ∀ n : Nat, n ≤ fuel → 0 < n →
    2 ^ log2Aux fuel n ≤ n ∧ n < 2 ^ (log2Aux fuel n + 1) := by
  induction fuel with
  | zero => intro n h hn; omega
  | succ f ih =>
    intro n h hn
    unfold log2Aux
    by_cases h2 : 2 ≤ n
    · rw [if_pos h2]
      have := ih (n / 2) (by omega) (by omega)
      obtain ⟨h1, h3⟩ := this
      generalize log2Aux f (n / 2) = k at h1 h3
      rw [pow_succ] at h3 ⊢
      constructor
      · omega
      · rw [pow_succ]; omega
    · rw [if_neg h2]
      have : n = 1 := by omega
      subst this; simp

theorem pow2_eq (k : Int) : pow2 k = (2 : ℚ) ^ k := by
  unfold pow2
  by_cases h : 0 ≤ k
  · rw [if_pos h]
    obtain ⟨n, rfl⟩ := Int.eq_ofNat_of_zero_le h
    simp
  · rw [if_neg h]
    obtain ⟨n, hn⟩ : ∃ n : Nat, k = -(n : Int) := ⟨(-k).toNat, by omega⟩
    subst hn
    simp

theorem pow2_pos (k : Int) : 0 < pow2 k := by
  rw [pow2_eq]; positivity

theorem floorLog2_spec (a : ℚ) (ha : 0 < a) :
    (2 : ℚ) ^ floorLog2 a ≤ a ∧ a < (2 : ℚ) ^ (floorLog2 a + 1) := by
  have hn : 0 < a.num := Rat.num_pos.mpr ha
  have hnn : 0 < a.num.natAbs := by omega
  have hd : 0 < a.den := a.den_pos
  obtain ⟨n1, n2⟩ := log2Aux_spec a.num.natAbs a.num.natAbs le_rfl hnn
  obtain ⟨d1, d2⟩ := log2Aux_spec a.den a.den le_rfl hd
  have ea : a = (a.num.natAbs : ℚ) / (a.den : ℚ) := by
    have h := (Rat.num_div_den a).symm
    have h2 : (a.num : ℚ) = ((a.num.natAbs : Nat) : ℚ) := by
      have : (a.num.natAbs : Int) = a.num := Int.natAbs_of_nonneg hn.le
      rw [← Int.cast_natCast, this]
    rw [h2] at h; exact h
  unfold floorLog2
  generalize log2Aux a.num.natAbs a.num.natAbs = ln at n1 n2 ⊢
  generalize log2Aux a.den a.den = ld at d1 d2 ⊢
  generalize a.num.natAbs = n at n1 n2 ea hnn
  generalize a.den = d at d1 d2 ea hd
  have n1q : (2 : ℚ) ^ ln ≤ (n : ℚ) := by exact_mod_cast n1
  have n2q : (n : ℚ) < (2 : ℚ) ^ (ln + 1) := by exact_mod_cast n2
  have d1q : (2 : ℚ) ^ ld ≤ (d : ℚ) := by exact_mod_cast d1
  have d2q : (d : ℚ) < (2 : ℚ) ^ (ld + 1) := by exact_mod_cast d2
  have hdq : (0 : ℚ) < d := by exact_mod_cast hd
  have hup : a < (2 : ℚ) ^ ((ln : Int) - ld + 1) := by
    have e : (2 : ℚ) ^ ((ln : Int) - ld + 1) = (2 : ℚ) ^ (ln + 1) / (2 : ℚ) ^ ld := by
      rw [show ((ln : Int) - ld + 1) = ((ln + 1 : Nat) : Int) - (ld : Nat) by push_cast; ring]
      rw [zpow_sub₀ (by norm_num : (2 : ℚ) ≠ 0), zpow_natCast, zpow_natCast]
    rw [e, ea, div_lt_div_iff₀ hdq (by positivity)]
    calc (n : ℚ) * 2 ^ ld ≤ n * d := by gcongr
      _ < 2 ^ (ln + 1) * d := by gcongr
  have hlo : (2 : ℚ) ^ ((ln : Int) - ld - 1) ≤ a := by
    have e : (2 : ℚ) ^ ((ln : Int) - ld - 1) = (2 : ℚ) ^ ln / (2 : ℚ) ^ (ld + 1) := by
      rw [show ((ln : Int) - ld - 1) = ((ln : Nat) : Int) - ((ld + 1 : Nat) : Int) by push_cast; ring]
      rw [zpow_sub₀ (by norm_num : (2 : ℚ) ≠ 0), zpow_natCast, zpow_natCast]
    rw [e, ea, div_le_div_iff₀ (by positivity) hdq]
    calc (2 : ℚ) ^ ln * d ≤ n * d := by gcongr
      _ ≤ n * 2 ^ (ld + 1) := by gcongr
  show (2 : ℚ) ^ (if pow2 ((ln : Int) - ld) ≤ a then (ln : Int) - ld else (ln : Int) - ld - 1) ≤ a ∧
    a < (2 : ℚ) ^ ((if pow2 ((ln : Int) - ld) ≤ a then (ln : Int) - ld else (ln : Int) - ld - 1) + 1)
  by_cases hk : pow2 ((ln : Int) - ld) ≤ a
  · rw [if_pos hk]
    rw [pow2_eq] at hk
    exact ⟨hk, hup⟩
  · rw [if_neg hk]
    rw [pow2_eq] at hk
    refine ⟨hlo, ?_⟩
    rw [show ((ln : Int) - ld - 1 + 1) = (ln : Int) - ld by ring]
    exact lt_of_not_le hk

theorem floorLog2_mono (a b : ℚ) (ha : 0 < a) (hab : a ≤ b) : floorLog2 a ≤ floorLog2 b := by
  by_contra hc
  push_neg at hc
  have h1 := (floorLog2_spec a ha).1
  have h2 := (floorLog2_spec b (lt_of_lt_of_le ha hab)).2
  have h3 : (2 : ℚ) ^ (floorLog2 b + 1) ≤ (2 : ℚ) ^ floorLog2 a :=
    zpow_le_zpow_right₀ (by norm_num) (by omega)
  linarith

theorem roundEven_floor_le (t : ℚ) : ⌊t⌋ ≤ roundEven t := by
  unfold roundEven
  dsimp only
  split_ifs <;> omega

theorem roundEven_le_floor_succ (t : ℚ) : roundEven t ≤ ⌊t⌋ + 1 := by
  unfold roundEven
  dsimp only
  split_ifs <;> omega

theorem roundEven_intCast (m : Int) : roundEven (m : ℚ) = m := by
  unfold roundEven
  simp

theorem roundEven_mono (t s : ℚ) (h : t ≤ s) : roundEven t ≤ roundEven s := by
  have hf : ⌊t⌋ ≤ ⌊s⌋ := Int.floor_mono h
  rcases lt_or_eq_of_le hf with hlt | heq
  · calc roundEven t ≤ ⌊t⌋ + 1 := roundEven_le_floor_succ t
      _ ≤ ⌊s⌋ := hlt
      _ ≤ roundEven s := roundEven_floor_le s
  · unfold roundEven
    dsimp only
    rw [← heq]
    have hts : t - ⌊t⌋ ≤ s - ⌊t⌋ := by linarith
    split_ifs <;> first | omega | linarith

theorem roundEven_ge_int (m : Int) (t : ℚ) (h : (m : ℚ) ≤ t) : m ≤ roundEven t := by
  have := roundEven_mono _ _ h
  rwa [roundEven_intCast] at this

theorem roundEven_le_int (m : Int) (t : ℚ) (h : t ≤ (m : ℚ)) : roundEven t ≤ m := by
  have := roundEven_mono _ _ h
  rwa [roundEven_intCast] at this

theorem roundMag_nonneg (m : Nat) (emin : Int) (a : ℚ) (ha : 0 ≤ a) : 0 ≤ roundMag m emin a := by
  unfold roundMag
  dsimp only
  have hp := pow2_pos (max (floorLog2 a) emin - (m : Int))
  have h0 : (0 : Int) ≤ roundEven (a / pow2 (max (floorLog2 a) emin - (m : Int))) :=
    roundEven_ge_int 0 _ (by push_cast; positivity)
  have h1 : (0 : ℚ) ≤ (roundEven (a / pow2 (max (floorLog2 a) emin - (m : Int))) : ℚ) := by
    exact_mod_cast h0
  positivity

theorem roundMag_zero (m : Nat) (emin : Int) : roundMag m emin 0 = 0 := by
  unfold roundMag
  simp [roundEven]

theorem roundMag_mono (m : Nat) (emin : Int) (a b : ℚ) (ha : 0 ≤ a) (hab : a ≤ b) :
    roundMag m emin a ≤ roundMag m emin b := by
  rcases eq_or_lt_of_le ha with h0 | hpos
  · rw [← h0, roundMag_zero]
    exact roundMag_nonneg m emin b (le_trans ha hab)
  have hbpos : 0 < b := lt_of_lt_of_le hpos hab
  have hm := floorLog2_mono a b hpos hab
  have sa := floorLog2_spec a hpos
  have sb := floorLog2_spec b hbpos
  unfold roundMag
  dsimp only
  generalize floorLog2 a = ea at hm sa
  generalize floorLog2 b = eb at hm sb
  rcases eq_or_lt_of_le (max_le_max_right emin hm) with he | hlt
  · rw [he]
    have hp := pow2_pos (max eb emin - (m : Int))
    have h1 : roundEven (a / pow2 (max eb emin - (m : Int)))
        ≤ roundEven (b / pow2 (max eb emin - (m : Int))) :=
      roundEven_mono _ _ (div_le_div_of_nonneg_right hab hp.le)
    have h2 : (roundEven (a / pow2 (max eb emin - (m : Int))) : ℚ)
        ≤ (roundEven (b / pow2 (max eb emin - (m : Int))) : ℚ) := by exact_mod_cast h1
    exact mul_le_mul_of_nonneg_right h2 hp.le
  · have hb : max eb emin = eb := by
      rcases le_total eb emin with h | h
      · exfalso
        rw [max_eq_right h] at hlt
        exact absurd (le_max_right ea emin) (not_le.mpr hlt)
      · exact max_eq_left h
    rw [hb] at hlt ⊢
    have hEa : ea ≤ max ea emin := le_max_left _ _
    generalize max ea emin = E at hlt hEa
    rw [pow2_eq, pow2_eq]
    have hu : (0 : ℚ) < (2 : ℚ) ^ (E - (m : Int)) := by positivity
    have hv : (0 : ℚ) < (2 : ℚ) ^ (eb - (m : Int)) := by positivity
    have e1 : (2 : ℚ) ^ (E + 1) = (2 : ℚ) ^ (m + 1) * (2 : ℚ) ^ (E - (m : Int)) := by
      rw [← zpow_natCast, ← zpow_add₀ (by norm_num : (2 : ℚ) ≠ 0)]
      congr 1
      push_cast
      ring
    have e2 : (2 : ℚ) ^ eb = (2 : ℚ) ^ m * (2 : ℚ) ^ (eb - (m : Int)) := by
      rw [← zpow_natCast, ← zpow_add₀ (by norm_num : (2 : ℚ) ≠ 0)]
      congr 1
      ring
    have h3 : (2 : ℚ) ^ (ea + 1) ≤ (2 : ℚ) ^ (E + 1) :=
      zpow_le_zpow_right₀ (by norm_num) (by omega)
    have h4 : (2 : ℚ) ^ (E + 1) ≤ (2 : ℚ) ^ eb :=
      zpow_le_zpow_right₀ (by norm_num) (by omega)
    have hA : a / (2 : ℚ) ^ (E - (m : Int)) ≤ (((2 ^ (m + 1) : Nat) : Int) : ℚ) := by
      rw [div_le_iff₀ hu]
      push_cast
      rw [← e1]
      linarith [sa.2]
    have hB : (((2 ^ m : Nat) : Int) : ℚ) ≤ b / (2 : ℚ) ^ (eb - (m : Int)) := by
      rw [le_div_iff₀ hv]
      push_cast
      rw [← e2]
      exact sb.1
    have rA : (roundEven (a / (2 : ℚ) ^ (E - (m : Int))) : ℚ) ≤ (2 : ℚ) ^ (m + 1) := by
      have := roundEven_le_int _ _ hA
      exact_mod_cast this
    have rB : (2 : ℚ) ^ m ≤ (roundEven (b / (2 : ℚ) ^ (eb - (m : Int))) : ℚ) := by
      have := roundEven_ge_int _ _ hB
      exact_mod_cast this
    calc (roundEven (a / (2 : ℚ) ^ (E - (m : Int))) : ℚ) * (2 : ℚ) ^ (E - (m : Int))
        ≤ (2 : ℚ) ^ (m + 1) * (2 : ℚ) ^ (E - (m : Int)) := mul_le_mul_of_nonneg_right rA hu.le
      _ = (2 : ℚ) ^ (E + 1) := e1.symm
      _ ≤ (2 : ℚ) ^ eb := h4
      _ = (2 : ℚ) ^ m * (2 : ℚ) ^ (eb - (m : Int)) := e2
      _ ≤ (roundEven (b / (2 : ℚ) ^ (eb - (m : Int))) : ℚ) * (2 : ℚ) ^ (eb - (m : Int)) :=
        mul_le_mul_of_nonneg_right rB hv.le

theorem roundFloat_mono (m : Nat) (emin : Int) (x y : ℚ) (h : x ≤ y) :
    roundFloat m emin x ≤ roundFloat m emin y := by
  unfold roundFloat
  by_cases hx : 0 ≤ x
  · rw [if_pos hx, if_pos (le_trans hx h)]
    exact roundMag_mono m emin x y hx h
  · rw [if_neg hx]
    push_neg at hx
    by_cases hy : 0 ≤ y
    · rw [if_pos hy]
      have h1 := roundMag_nonneg m emin (-x) (by linarith)
      have h2 := roundMag_nonneg m emin y hy
      linarith
    · rw [if_neg hy]
      push_neg at hy
      have := roundMag_mono m emin (-y) (-x) (by linarith) (by linarith)
      linarith

theorem roundFloat_neg (m : Nat) (emin : Int) (x : ℚ) :
    roundFloat m emin (-x) = -roundFloat m emin x := by
  unfold roundFloat
  rcases lt_trichotomy x 0 with h | h | h
  · rw [if_pos (by linarith : (0 : ℚ) ≤ -x), if_neg (by linarith : ¬ (0 : ℚ) ≤ x)]
    simp
  · subst h
    simp [roundMag_zero]
  · rw [if_neg (by linarith : ¬ (0 : ℚ) ≤ -x), if_pos (by linarith : (0 : ℚ) ≤ x)]
    simp

theorem roundFloat_abs (m : Nat) (emin : Int) (x : ℚ) :
    |roundFloat m emin x| = roundFloat m emin |x| := by
  rcases le_total 0 x with h | h
  · rw [abs_of_nonneg h, abs_of_nonneg]
    unfold roundFloat
    rw [if_pos h]
    exact roundMag_nonneg m emin x h
  · rw [abs_of_nonpos h, roundFloat_neg, abs_of_nonpos]
    have h1 := roundFloat_neg m emin x
    have h2 : 0 ≤ roundFloat m emin (-x) := by
      unfold roundFloat
      rw [if_pos (by linarith : (0 : ℚ) ≤ -x)]
      exact roundMag_nonneg m emin (-x) (by linarith)
    linarith

theorem f32_mono (x y : ℚ) (h : x ≤ y) : f32 x ≤ f32 y := roundFloat_mono 23 (-126) x y h

theorem f64_mono (x y : ℚ) (h : x ≤ y) : f64 x ≤ f64 y := roundFloat_mono 52 (-1022) x y h

theorem f32_abs (x : ℚ) : |f32 x| = f32 |x| := roundFloat_abs 23 (-126) x

theorem f32_zero : f32 0 = 0 := by decide!

theorem f64_zero : f64 0 = 0 := by decide!

/-! ### Values of the rounding functions

The `float` nearest `0.2` lies above `1/5`; at the inputs below the rounded
arithmetic of the source and the exact arithmetic on the same operands give
different results. -/

theorem f32_width : f32 (f64 (2 / 10)) = 13421773 / 67108864 := by decide!

theorem f64_threshold : f64 (3 / 10) < 3 / 10 ∧ f64 (6 / 10) < 6 / 10 := by decide!

/-- At a ridge noise of `0.1f` the river test of the source passes, while
`|2 * 0.1f| ≤ 2/10` fails. -/
theorem f32_river_example :
    |f32 ((13421773 / 134217728) * 2)| ≤ f32 (f64 (2 / 10)) ∧
      ¬ |(13421773 / 134217728 : ℚ) * 2| ≤ 2 / 10 := by decide!

/-- The `float` product of `1 + 2^-23` and `1 - 2^-23` is `1`, the exact
product is below `1`. -/
theorem f32_product_example :
    f32 ((1 + 1 / 8388608) * (1 - 1 / 8388608)) = 1 ∧
      ((1 + 1 / 8388608) * (1 - 1 / 8388608) : ℚ) < 1 := by decide!

/-- With cave noises `0.5f` and `0.4f` the rounded contour product is above
the `double` `0.3`, the exact product is below `3/10`. -/
theorem f32_contour_example :
    f32 (f32 (contour (1 / 2)) * f32 (contour (13421773 / 33554432))) > f64 (3 / 10) ∧
      ¬ contour (1 / 2) * contour (13421773 / 33554432) > 3 / 10 := by decide!

/-- The `float` sum of `3` and `-2^-30` is `3`: the conversion to `s16` gives
`3`, where the exact sum truncates to `2`. -/
theorem f32_filler_example :
    float_to_s16 (f32 (((3 : Int) : ℚ) + -(1 / 1073741824))) = 3 ∧
      float_to_s16 (((3 : Int) : ℚ) + -(1 / 1073741824)) = 2 := by decide!

/-- The blend of `height_base = 10` and `height_alt = -2^-26` at
`hselect = 0.5` is `5.0f`. -/
theorem f32_blend_example :
    f32 (f64 (f32 (10 * (1 / 2)) + f64 (-(1 / 67108864) * f64 (1 - 1 / 2)))) = 5 := by
  decide!


/-! ## Loop lemmas -/

theorem loopUp_succ {σ : Type} (n : Nat) (lo : Int) (body : Int → σ → σ) (s : σ) :
    loopUp (n + 1) lo body s = loopUp n (lo + 1) body (body lo s) := rfl

theorem loopUp_inv {σ : Type} (body : Int → σ → σ) (Inv : Nat → σ → Prop) :
    ∀ (n : Nat) (lo : Int) (s : σ), Inv 0 s →
      (∀ (k : Nat) (t : σ), k < n → Inv k t → Inv (k + 1) (body (lo + k) t)) →
      Inv n (loopUp n lo body s) := by
  intro n
  induction n generalizing Inv with
  | zero => intro lo s h0 _; exact h0
  | succ n ih =>
    intro lo s h0 hstep
    rw [loopUp_succ]
    refine ih (fun k t => Inv (k + 1) t) (lo + 1) (body lo s) ?_ ?_
    · have := hstep 0 s (Nat.succ_pos n) h0
      simpa using this
    · intro k t hk hI
      have := hstep (k + 1) t (Nat.succ_lt_succ hk) hI
      have e : lo + 1 + (k : Int) = lo + ((k + 1 : Nat) : Int) := by push_cast; ring
      rw [e]; exact this

theorem loopDown_rel {σ τ : Type} (R : σ → τ → Prop) (f : Int → σ → σ) (h : Int → τ → τ)
    (hstep : ∀ i s t, R s t → R (f i s) (h i t)) :
    ∀ (n : Nat) (hi : Int) (s : σ) (t : τ), R s t → R (loopDown n hi f s) (loopDown n hi h t) := by
  intro n
  induction n with
  | zero => intro hi s t hR; exact hR
  | succ n ih => intro hi s t hR; exact ih (hi - 1) _ _ (hstep hi s t hR)

/-- A running index that advances by `d` at every iteration can be replaced by
its closed form. -/
theorem loopUp_counter {σ : Type} (f : Int → σ → Int → σ) (d : Int) :
    ∀ (n : Nat) (lo : Int) (s : σ) (k : Int),
      loopUp n lo (fun i (p : σ × Int) => (f i p.1 p.2, p.2 + d)) (s, k)
        = (loopUp n lo (fun i s => f i s (k + (i - lo) * d)) s, k + n * d) := by
  intro n
  induction n with
  | zero => intro lo s k; simp [loopUp]
  | succ n ih =>
    intro lo s k
    rw [loopUp_succ, loopUp_succ]
    have e := ih (lo + 1) (f lo s k) (k + d)
    simp only at e ⊢
    rw [e]
    have hf : (fun i s => f i s (k + d + (i - (lo + 1)) * d))
        = (fun i s => f i s (k + (i - lo) * d)) := by
      funext i s; congr 1; ring
    rw [hf]
    have h0 : k + (lo - lo) * d = k := by ring
    rw [h0]
    congr 1
    push_cast; ring

theorem forUp_counter {σ : Type} (f : Int → σ → Int → σ) (d : Int) (lo hi : Int) (p : σ × Int) :
    forUp lo hi (fun i (p : σ × Int) => (f i p.1 p.2, p.2 + d)) p
      = (forUp lo hi (fun i s => f i s (p.2 + (i - lo) * d)) p.1,
          p.2 + ((hi + 1 - lo).toNat : Int) * d) := by
  unfold forUp
  exact loopUp_counter f d _ lo p.1 p.2

theorem ActsOn.widen {σ : Type} {proj : σ → VoxelData} {S T : Int → Int → Int → Prop}
    {body : σ → σ} (h : ActsOn proj S body) (hST : ∀ x y z, S x y z → T x y z) :
    ActsOn proj T body := by
  constructor
  · intro s x y z hT
    exact h.frame s x y z (fun hS => hT (hST x y z hS))
  · intro s t hag x y z _
    by_cases hS : S x y z
    · exact h.loc s t (fun a b c hc => hag a b c (hST a b c hc)) x y z hS
    · rw [h.frame s x y z hS, h.frame t x y z hS]
      exact hag x y z ‹_›

theorem ActsOn.congrSet {σ : Type} {proj : σ → VoxelData} {S T : Int → Int → Int → Prop}
    {body : σ → σ} (h : ActsOn proj S body) (hST : ∀ x y z, S x y z ↔ T x y z) :
    ActsOn proj T body := by
  have e : S = T := by funext x y z; exact propext (hST x y z)
  rw [← e]; exact h

/-- A loop whose iteration `i` acts on the slice `key = i` of `S`: every cell
of a visited slice holds what its own iteration, run on the initial state,
leaves there; all other cells are unchanged. -/
theorem loopUp_slices {σ : Type} (proj : σ → VoxelData) (key : Int → Int → Int → Int)
    (S : Int → Int → Int → Prop) (body : Int → σ → σ)
    (h : ∀ i, ActsOn proj (fun x y z => key x y z = i ∧ S x y z) (body i)) :
    ∀ (n : Nat) (lo : Int) (s : σ) (x y z : Int),
      ((lo ≤ key x y z ∧ key x y z < lo + n ∧ S x y z) →
        proj (loopUp n lo body s) x y z = proj (body (key x y z) s) x y z) ∧
      (¬ (lo ≤ key x y z ∧ key x y z < lo + n ∧ S x y z) →
        proj (loopUp n lo body s) x y z = proj s x y z) := by
  intro n
  induction n with
  | zero =>
    intro lo s x y z
    constructor
    · intro hc
      have := hc.1; have := hc.2.1; push_cast at *; omega
    · intro _; rfl
  | succ n ih =>
    intro lo s x y z
    rw [loopUp_succ]
    have ih1 := (ih (lo + 1) (body lo s) x y z).1
    have ih2 := (ih (lo + 1) (body lo s) x y z).2
    constructor
    · intro hc
      have a1 := hc.1
      have a2 := hc.2.1
      push_cast at a2
      by_cases h0 : key x y z = lo
      · rw [ih2 (fun hn => by have := hn.1; omega), h0]
      · rw [ih1 ⟨by omega, by omega, hc.2.2⟩]
        refine (h (key x y z)).loc (body lo s) s ?_ x y z ⟨rfl, hc.2.2⟩
        intro a b c hk
        refine (h lo).frame s a b c ?_
        intro hk2
        exact h0 (hk.1.symm.trans hk2.1)
    · intro hn
      rw [ih2 (fun hc => hn ⟨by have := hc.1; omega, by have := hc.2.1; push_cast; omega,
        hc.2.2⟩)]
      refine (h lo).frame s x y z ?_
      intro hk
      apply hn
      refine ⟨by omega, ?_, hk.2⟩
      push_cast; omega

theorem forUp_slices {σ : Type} (proj : σ → VoxelData) (key : Int → Int → Int → Int)
    (S : Int → Int → Int → Prop) (body : Int → σ → σ)
    (h : ∀ i, ActsOn proj (fun x y z => key x y z = i ∧ S x y z) (body i))
    (lo hi : Int) (s : σ) (x y z : Int) :
    ((lo ≤ key x y z ∧ key x y z ≤ hi ∧ S x y z) →
      proj (forUp lo hi body s) x y z = proj (body (key x y z) s) x y z) ∧
    (¬ (lo ≤ key x y z ∧ key x y z ≤ hi ∧ S x y z) →
      proj (forUp lo hi body s) x y z = proj s x y z) := by
  unfold forUp
  have hl := loopUp_slices proj key S body h (hi + 1 - lo).toNat lo s x y z
  constructor
  · intro hc
    refine hl.1 ⟨hc.1, ?_, hc.2.2⟩
    have := hc.1; have := hc.2.1; omega
  · intro hn
    refine hl.2 ?_
    intro hc
    apply hn
    refine ⟨hc.1, ?_, hc.2.2⟩
    have := hc.1; have := hc.2.1; omega

theorem forUp_actsOn {σ : Type} (proj : σ → VoxelData) (key : Int → Int → Int → Int)
    (S : Int → Int → Int → Prop) (body : Int → σ → σ)
    (h : ∀ i, ActsOn proj (fun x y z => key x y z = i ∧ S x y z) (body i))
    (lo hi : Int) :
    ActsOn proj (fun x y z => lo ≤ key x y z ∧ key x y z ≤ hi ∧ S x y z)
      (forUp lo hi body) := by
  constructor
  · intro s x y z hn
    exact (forUp_slices proj key S body h lo hi s x y z).2 hn
  · intro s t hag x y z hc
    rw [(forUp_slices proj key S body h lo hi s x y z).1 hc,
      (forUp_slices proj key S body h lo hi t x y z).1 hc]
    refine (h (key x y z)).loc s t ?_ x y z ⟨rfl, hc.2.2⟩
    intro a b c hk
    refine hag a b c ⟨?_, ?_, hk.2⟩
    · rw [hk.1]; exact hc.1
    · rw [hk.1]; exact hc.2.1

/-! ## Column loops and cell loops -/

/-- Two nested loops over `z` and `x` with one running index: the index can be
replaced by its closed form. -/
theorem columnLoops_eq {σ : Type} (col : Int → Int → Int → σ → σ) (xlo xhi zlo zhi : Int)
    (st : σ × Int) :
    (forUp zlo zhi (fun z => forUp xlo xhi (fun x p => (col x z p.2 p.1, p.2 + 1))) st).1
      = forUp zlo zhi (fun z s => forUp xlo xhi (fun x s1 =>
          col x z (st.2 + (z - zlo) * ((xhi + 1 - xlo).toNat : Int) + (x - xlo)) s1) s) st.1 := by
  have hx : ∀ z : Int, (fun (p : σ × Int) =>
      forUp xlo xhi (fun x p => (col x z p.2 p.1, p.2 + 1)) p)
      = (fun p => (forUp xlo xhi (fun x s1 => col x z (p.2 + (x - xlo)) s1) p.1,
          p.2 + ((xhi + 1 - xlo).toNat : Int))) := by
    intro z
    funext p
    have := forUp_counter (fun x (s1 : σ) j => col x z j s1) 1 xlo xhi p
    simp only [mul_one] at this
    exact this
  have hz := forUp_counter (fun z (s : σ) j => forUp xlo xhi
      (fun x s1 => col x z (j + (x - xlo)) s1) s) ((xhi + 1 - xlo).toNat : Int) zlo zhi st
  simp only [hx]
  rw [hz]

/-- Two nested loops over `z` and `x` whose body acts on the column `(x, z)`:
a cell of a visited column holds what the body of its column, run on the
initial state, leaves there; all other cells are unchanged. -/
theorem columnLoops_cell {σ : Type} (proj : σ → VoxelData) (col : Int → Int → σ → σ)
    (h : ∀ x z, ActsOn proj (fun a _ c => a = x ∧ c = z) (col x z))
    (xlo xhi zlo zhi : Int) (s : σ) (x y z : Int) :
    ((xlo ≤ x ∧ x ≤ xhi ∧ zlo ≤ z ∧ z ≤ zhi) →
      proj (forUp zlo zhi (fun z s => forUp xlo xhi (fun x s1 => col x z s1) s) s) x y z
        = proj (col x z s) x y z) ∧
    (¬ (xlo ≤ x ∧ x ≤ xhi ∧ zlo ≤ z ∧ z ≤ zhi) →
      proj (forUp zlo zhi (fun z s => forUp xlo xhi (fun x s1 => col x z s1) s) s) x y z
        = proj s x y z) := by
  have hxa : ∀ z0 : Int, ActsOn proj (fun a _ c => xlo ≤ a ∧ a ≤ xhi ∧ c = z0)
      (forUp xlo xhi (fun x s1 => col x z0 s1)) := fun z0 =>
    forUp_actsOn proj (fun a _ _ => a) (fun _ _ c => c = z0) (fun x s1 => col x z0 s1)
      (fun i => h i z0) xlo xhi
  have hza : ∀ z0 : Int, ActsOn proj (fun _ _ c => c = z0 ∧ True)
      (fun s => forUp xlo xhi (fun x s1 => col x z0 s1) s) := fun z0 =>
    (hxa z0).widen (fun a b c hc => ⟨hc.2.2, trivial⟩)
  have hz := forUp_slices proj (fun _ _ c => c) (fun _ _ _ => True)
    (fun z s => forUp xlo xhi (fun x s1 => col x z s1) s) hza zlo zhi s x y z
  have hx := forUp_slices proj (fun a _ _ => a) (fun _ _ c => c = z) (fun x s1 => col x z s1)
    (fun i => h i z) xlo xhi s x y z
  constructor
  · intro hc
    rw [hz.1 ⟨hc.2.2.1, hc.2.2.2, trivial⟩]
    exact hx.1 ⟨hc.1, hc.2.1, rfl⟩
  · intro hn
    by_cases hzr : zlo ≤ z ∧ z ≤ zhi
    · rw [hz.1 ⟨hzr.1, hzr.2, trivial⟩]
      exact hx.2 (fun hc => hn ⟨hc.1, hc.2.1, hzr.1, hzr.2⟩)
    · exact hz.2 (fun hc => hzr ⟨hc.1, hc.2.1⟩)

/-- Three nested loops over `z`, `y` and `x` with one running index: the index
can be replaced by its closed form. -/
theorem cellLoops_eq {σ : Type} (cell : Int → Int → Int → σ → Int → σ)
    (xlo xhi ylo yhi zlo zhi : Int) (st : σ × Int) :
    (forUp zlo zhi (fun z => forUp ylo yhi (fun y =>
        forUp xlo xhi (fun x p => (cell z y x p.1 p.2, p.2 + 1)))) st).1
      = forUp zlo zhi (fun z s => forUp ylo yhi (fun y s1 => forUp xlo xhi (fun x s2 =>
          cell z y x s2 (st.2
            + (z - zlo) * (((yhi + 1 - ylo).toNat : Int) * ((xhi + 1 - xlo).toNat : Int))
            + (y - ylo) * ((xhi + 1 - xlo).toNat : Int) + (x - xlo))) s1) s) st.1 := by
  have hx : ∀ z y : Int, (fun (p : σ × Int) =>
      forUp xlo xhi (fun x p => (cell z y x p.1 p.2, p.2 + 1)) p)
      = (fun p => (forUp xlo xhi (fun x s2 => cell z y x s2 (p.2 + (x - xlo))) p.1,
          p.2 + ((xhi + 1 - xlo).toNat : Int))) := by
    intro z y
    funext p
    have := forUp_counter (fun x (s2 : σ) j => cell z y x s2 j) 1 xlo xhi p
    simp only [mul_one] at this
    exact this
  have hy : ∀ z : Int, (fun (p : σ × Int) =>
      forUp ylo yhi (fun y => forUp xlo xhi (fun x p => (cell z y x p.1 p.2, p.2 + 1))) p)
      = (fun p => (forUp ylo yhi (fun y s1 => forUp xlo xhi (fun x s2 =>
            cell z y x s2 (p.2 + (y - ylo) * ((xhi + 1 - xlo).toNat : Int) + (x - xlo))) s1) p.1,
          p.2 + ((yhi + 1 - ylo).toNat : Int) * ((xhi + 1 - xlo).toNat : Int))) := by
    intro z
    funext p
    have := forUp_counter (fun y (s1 : σ) j => forUp xlo xhi
      (fun x s2 => cell z y x s2 (j + (x - xlo))) s1) ((xhi + 1 - xlo).toNat : Int) ylo yhi p
    simp only [hx]
    exact this
  have hz := forUp_counter (fun z (s : σ) j => forUp ylo yhi (fun y s1 => forUp xlo xhi
      (fun x s2 => cell z y x s2 (j + (y - ylo) * ((xhi + 1 - xlo).toNat : Int) + (x - xlo))) s1) s)
      (((yhi + 1 - ylo).toNat : Int) * ((xhi + 1 - xlo).toNat : Int)) zlo zhi st
  simp only [hy]
  rw [hz]

/-- Three nested loops over `z`, `y` and `x` whose body acts on the cell
`(x, y, z)`: a visited cell holds what its own body, run on the initial state,
leaves there; all other cells are unchanged. -/
theorem cellLoops_cell {σ : Type} (proj : σ → VoxelData) (cell : Int → Int → Int → σ → σ)
    (h : ∀ z y x, ActsOn proj (fun a b c => a = x ∧ b = y ∧ c = z) (cell z y x))
    (xlo xhi ylo yhi zlo zhi : Int) (s : σ) (x y z : Int) :
    ((xlo ≤ x ∧ x ≤ xhi ∧ ylo ≤ y ∧ y ≤ yhi ∧ zlo ≤ z ∧ z ≤ zhi) →
      proj (forUp zlo zhi (fun z s => forUp ylo yhi (fun y s1 =>
        forUp xlo xhi (fun x s2 => cell z y x s2) s1) s) s) x y z
        = proj (cell z y x s) x y z) ∧
    (¬ (xlo ≤ x ∧ x ≤ xhi ∧ ylo ≤ y ∧ y ≤ yhi ∧ zlo ≤ z ∧ z ≤ zhi) →
      proj (forUp zlo zhi (fun z s => forUp ylo yhi (fun y s1 =>
        forUp xlo xhi (fun x s2 => cell z y x s2) s1) s) s) x y z
        = proj s x y z) := by
  have hrow : ∀ z0 y0 : Int, ActsOn proj (fun a b c => b = y0 ∧ (xlo ≤ a ∧ a ≤ xhi ∧ c = z0))
      (fun s1 => forUp xlo xhi (fun x s2 => cell z0 y0 x s2) s1) := fun z0 y0 =>
    (forUp_actsOn proj (fun a _ _ => a) (fun _ b c => b = y0 ∧ c = z0)
      (fun x s2 => cell z0 y0 x s2) (fun i => h z0 y0 i) xlo xhi).congrSet
      (fun a b c => by constructor <;> intro hc <;> simp only [hc, and_self])
  have hslab : ∀ z0 : Int, ActsOn proj (fun _ _ c => c = z0 ∧ True)
      (fun s => forUp ylo yhi (fun y s1 => forUp xlo xhi (fun x s2 => cell z0 y x s2) s1) s) :=
    fun z0 =>
    (forUp_actsOn proj (fun _ b _ => b) (fun a _ c => xlo ≤ a ∧ a ≤ xhi ∧ c = z0)
      (fun y s1 => forUp xlo xhi (fun x s2 => cell z0 y x s2) s1) (fun i => hrow z0 i)
      ylo yhi).widen (fun a b c hc => ⟨hc.2.2.2.2, trivial⟩)
  have hz := forUp_slices proj (fun _ _ c => c) (fun _ _ _ => True)
    (fun z s => forUp ylo yhi (fun y s1 => forUp xlo xhi (fun x s2 => cell z y x s2) s1) s)
    hslab zlo zhi s x y z
  have hy := forUp_slices proj (fun _ b _ => b) (fun a _ c => xlo ≤ a ∧ a ≤ xhi ∧ c = z)
    (fun y s1 => forUp xlo xhi (fun x s2 => cell z y x s2) s1) (fun i => hrow z i)
    ylo yhi s x y z
  have hx := forUp_slices proj (fun a _ _ => a) (fun _ b c => b = y ∧ c = z)
    (fun x s2 => cell z y x s2) (fun i => h z y i) xlo xhi s x y z
  constructor
  · intro hc
    rw [hz.1 ⟨hc.2.2.2.2.1, hc.2.2.2.2.2, trivial⟩,
      hy.1 ⟨hc.2.2.1, hc.2.2.2.1, hc.1, hc.2.1, rfl⟩]
    exact hx.1 ⟨hc.1, hc.2.1, rfl, rfl⟩
  · intro hn
    by_cases hzr : zlo ≤ z ∧ z ≤ zhi
    · rw [hz.1 ⟨hzr.1, hzr.2, trivial⟩]
      by_cases hyr : (ylo ≤ y ∧ y ≤ yhi) ∧ (xlo ≤ x ∧ x ≤ xhi)
      · exact absurd ⟨hyr.2.1, hyr.2.2, hyr.1.1, hyr.1.2, hzr.1, hzr.2⟩ hn
      · exact hy.2 (fun hc => hyr ⟨⟨hc.1, hc.2.1⟩, hc.2.2.1, hc.2.2.2.1⟩)
    · exact hz.2 (fun hc => hzr ⟨hc.1, hc.2.1⟩)

/-! ## Voxel buffer and array updates -/

theorem setNode_same (vm : VoxelData) (x y z : Int) (c : content_t) :
    setNode vm x y z c x y z = c := by
  simp [setNode]

theorem setNode_other (vm : VoxelData) (x y z : Int) (c : content_t) (a b d : Int)
    (h : ¬ (a = x ∧ b = y ∧ d = z)) : setNode vm x y z c a b d = vm a b d := by
  simp only [setNode, if_neg h]

theorem arraySet_same {α : Type} (a : Int → α) (i : Int) (v : α) : arraySet a i v i = v := by
  simp [arraySet]

theorem arraySet_other {α : Type} (a : Int → α) (i k : Int) (v : α) (h : k ≠ i) :
    arraySet a i v k = a k := by
  simp [arraySet, h]

/-! ## Base terrain -/

theorem baseCell_at (g : MapgenV7) (sy x z y : Int) (vm : VoxelData) :
    g.baseCell sy x z y vm x y z =
      if vm x y z = CONTENT_IGNORE then
        (if y ≤ sy then g.c_stone else if y ≤ g.water_level then g.c_water_source
          else CONTENT_AIR)
      else vm x y z := by
  unfold MapgenV7.baseCell
  split_ifs <;> simp [setNode_same]

theorem baseCell_other (g : MapgenV7) (sy x z y : Int) (vm : VoxelData) (a b c : Int)
    (h : ¬ (a = x ∧ b = y ∧ c = z)) : g.baseCell sy x z y vm a b c = vm a b c := by
  unfold MapgenV7.baseCell
  split_ifs <;> simp [setNode_other _ _ _ _ _ _ _ _ h]

theorem baseCell_actsOn (g : MapgenV7) (sy x z y : Int) :
    ActsOn (fun v : VoxelData => v) (fun a b c => b = y ∧ (a = x ∧ c = z))
      (g.baseCell sy x z y) := by
  constructor
  · intro s a b c h
    exact baseCell_other g sy x z y s a b c (fun hc => h ⟨hc.2.1, hc.1, hc.2.2⟩)
  · intro s t hag a b c hc
    obtain ⟨rfl, rfl, rfl⟩ := hc
    simp only [baseCell_at]
    rw [hag a b c ⟨rfl, rfl, rfl⟩]

theorem baseColumn_vm (g : MapgenV7) (x z k : Int) (st : BaseState) :
    (g.baseColumn x z k st).vm
      = forUp (g.node_min.Y - 1) (g.node_max.Y + 1)
          (g.baseCell (float_to_s16 (g.baseTerrainLevelFromMap k)) x z) st.vm := rfl

theorem baseColumn_actsOn (g : MapgenV7) (x z k : Int) :
    ActsOn BaseState.vm (fun a _ c => a = x ∧ c = z) (g.baseColumn x z k) := by
  have h := forUp_actsOn (fun v : VoxelData => v) (fun _ b _ => b) (fun a _ c => a = x ∧ c = z)
    (g.baseCell (float_to_s16 (g.baseTerrainLevelFromMap k)) x z)
    (fun i => baseCell_actsOn g _ x z i) (g.node_min.Y - 1) (g.node_max.Y + 1)
  have h2 : ActsOn (fun v : VoxelData => v) (fun a _ c => a = x ∧ c = z)
      (forUp (g.node_min.Y - 1) (g.node_max.Y + 1)
        (g.baseCell (float_to_s16 (g.baseTerrainLevelFromMap k)) x z)) :=
    h.widen (fun a b c hc => hc.2.2)
  constructor
  · intro s a b c hn
    rw [baseColumn_vm]
    exact h2.frame s.vm a b c hn
  · intro s t hag a b c hc
    rw [baseColumn_vm, baseColumn_vm]
    exact h2.loc s.vm t.vm hag a b c hc

theorem baseColumn_cell (g : MapgenV7) (x z k : Int) (st : BaseState) (y : Int) :
    (g.baseColumn x z k st).vm x y z =
      if (g.node_min.Y - 1 ≤ y ∧ y ≤ g.node_max.Y + 1) ∧ st.vm x y z = CONTENT_IGNORE then
        (if y ≤ float_to_s16 (g.baseTerrainLevelFromMap k) then g.c_stone
          else if y ≤ g.water_level then g.c_water_source else CONTENT_AIR)
      else st.vm x y z := by
  rw [baseColumn_vm]
  have h := forUp_slices (fun v : VoxelData => v) (fun _ b _ => b) (fun a _ c => a = x ∧ c = z)
    (g.baseCell (float_to_s16 (g.baseTerrainLevelFromMap k)) x z)
    (fun i => baseCell_actsOn g _ x z i) (g.node_min.Y - 1) (g.node_max.Y + 1) st.vm x y z
  by_cases hy : g.node_min.Y - 1 ≤ y ∧ y ≤ g.node_max.Y + 1
  · have := h.1 ⟨hy.1, hy.2, rfl, rfl⟩
    simp only at this
    rw [this, baseCell_at]
    by_cases hi : st.vm x y z = CONTENT_IGNORE
    · simp only [hi, hy, and_self, if_true]
    · simp only [hi, and_false, if_false]
  · have := h.2 (fun hc => hy ⟨hc.1, hc.2.1⟩)
    simp only at this
    rw [this, if_neg (fun hc => hy hc.1)]


theorem baseLoop_vm (g : MapgenV7) (st : BaseState) (x y z : Int) :
    (g.baseLoop (st, 0)).1.vm x y z =
      if g.inChunk x y z ∧ st.vm x y z = CONTENT_IGNORE then
        (if y ≤ g.surfaceY x z then g.c_stone
          else if y ≤ g.water_level then g.c_water_source else CONTENT_AIR)
      else st.vm x y z := by
  unfold MapgenV7.baseLoop
  rw [columnLoops_eq (fun x z k s => g.baseColumn x z k s)]
  have h := columnLoops_cell BaseState.vm
    (fun x z => g.baseColumn x z
      ((st, (0 : Int)).2 + (z - g.node_min.Z) * ((g.node_max.X + 1 - g.node_min.X).toNat : Int)
        + (x - g.node_min.X)))
    (fun x z => baseColumn_actsOn g x z _) g.node_min.X g.node_max.X g.node_min.Z g.node_max.Z
    st x y z
  by_cases hc : g.node_min.X ≤ x ∧ x ≤ g.node_max.X ∧ g.node_min.Z ≤ z ∧ z ≤ g.node_max.Z
  · rw [h.1 hc, baseColumn_cell]
    have e : (st, (0 : Int)).2 + (z - g.node_min.Z)
        * ((g.node_max.X + 1 - g.node_min.X).toNat : Int) + (x - g.node_min.X)
        = g.columnIndex x z := by
      simp [MapgenV7.columnIndex, MapgenV7.rowLen]
    rw [e]
    have e2 : g.inChunk x y z ↔ (g.node_min.Y - 1 ≤ y ∧ y ≤ g.node_max.Y + 1) := by
      unfold MapgenV7.inChunk
      constructor
      · intro hh; exact ⟨hh.2.2.1, hh.2.2.2.1⟩
      · intro hh; exact ⟨hc.1, hc.2.1, hh.1, hh.2, hc.2.2.1, hc.2.2.2⟩
    simp only [e2, MapgenV7.surfaceY]
  · rw [h.2 hc]
    have e2 : ¬ g.inChunk x y z := by
      unfold MapgenV7.inChunk
      intro hh; exact hc ⟨hh.1, hh.2.1, hh.2.2.2.2.1, hh.2.2.2.2.2⟩
    simp only [e2, false_and, if_false]

/-! ## Ridge carving -/

theorem ridgeCell_fst (g : MapgenV7) (z y x : Int) (st : VoxelData × (Int → Int)) (k : Int) :
    (g.ridgeCell z y x st k).1 =
      if g.ridgeCarves (g.columnIndexC x z) k y = true then
        setNode st.1 x y z (if y > g.water_level then CONTENT_AIR else g.c_water_source)
      else st.1 := by
  unfold MapgenV7.ridgeCell MapgenV7.columnIndexC
  dsimp only
  by_cases h : g.ridgeCarves ((z - g.node_min.Z) * g.csize.X + (x - g.node_min.X)) k y = true
  · rw [if_pos h, if_pos h]
  · rw [if_neg h, if_neg h]

theorem ridgeCell_actsOn (g : MapgenV7) (z y x k : Int) :
    ActsOn (fun s : VoxelData × (Int → Int) => s.1) (fun a b c => a = x ∧ b = y ∧ c = z)
      (fun s => g.ridgeCell z y x s k) := by
  constructor
  · intro s a b c h
    simp only [ridgeCell_fst]
    by_cases hr : g.ridgeCarves (g.columnIndexC x z) k y = true
    · rw [if_pos hr]
      exact setNode_other _ _ _ _ _ _ _ _ h
    · rw [if_neg hr]
  · intro s t hag a b c hc
    obtain ⟨rfl, rfl, rfl⟩ := hc
    simp only [ridgeCell_fst]
    by_cases hr : g.ridgeCarves (g.columnIndexC a c) k b = true
    · rw [if_pos hr, if_pos hr, setNode_same, setNode_same]
    · rw [if_neg hr, if_neg hr]
      exact hag a b c ⟨rfl, rfl, rfl⟩

theorem ridgeLoop_vm (g : MapgenV7) (st : VoxelData × (Int → Int)) (x y z : Int) :
    (g.ridgeLoop (st, 0)).1.1 x y z =
      if g.inChunk x y z ∧ g.ridgeCarves (g.columnIndexC x z) (g.cellIndex x y z) y = true then
        (if y > g.water_level then CONTENT_AIR else g.c_water_source)
      else st.1 x y z := by
  unfold MapgenV7.ridgeLoop
  rw [cellLoops_eq (fun z y x s k => g.ridgeCell z y x s k)]
  have h := cellLoops_cell (fun s : VoxelData × (Int → Int) => s.1)
    (fun z y x s => g.ridgeCell z y x s ((st, (0 : Int)).2
      + (z - g.node_min.Z) * ((((g.node_max.Y + 1) + 1 - (g.node_min.Y - 1)).toNat : Int)
          * ((g.node_max.X + 1 - g.node_min.X).toNat : Int))
      + (y - (g.node_min.Y - 1)) * ((g.node_max.X + 1 - g.node_min.X).toNat : Int)
      + (x - g.node_min.X)))
    (fun z y x => ridgeCell_actsOn g z y x _)
    g.node_min.X g.node_max.X (g.node_min.Y - 1) (g.node_max.Y + 1) g.node_min.Z g.node_max.Z
    st x y z
  by_cases hc : g.inChunk x y z
  · have h1 := h.1 hc
    simp only at h1
    rw [h1, ridgeCell_fst]
    have e : (0 : Int)
        + (z - g.node_min.Z) * ((((g.node_max.Y + 1) + 1 - (g.node_min.Y - 1)).toNat : Int)
          * ((g.node_max.X + 1 - g.node_min.X).toNat : Int))
        + (y - (g.node_min.Y - 1)) * ((g.node_max.X + 1 - g.node_min.X).toNat : Int)
        + (x - g.node_min.X) = g.cellIndex x y z := by
      simp [MapgenV7.cellIndex, MapgenV7.rowLen, MapgenV7.slabRows]
    rw [e]
    by_cases hr : g.ridgeCarves (g.columnIndexC x z) (g.cellIndex x y z) y = true
    · have hcr : g.inChunk x y z
          ∧ g.ridgeCarves (g.columnIndexC x z) (g.cellIndex x y z) y = true := ⟨hc, hr⟩
      rw [if_pos hr, if_pos hcr, setNode_same]
    · rw [if_neg hr, if_neg (fun hh => hr hh.2)]
  · have h2 := h.2 hc
    simp only at h2
    rw [h2, if_neg (fun hh => hc hh.1)]

theorem ridgeCarves_iff (g : MapgenV7) (j k y : Int) :
    g.ridgeCarves j k y = true ↔
      (g.heightmap j ≥ g.water_level - 16 ∧
        |f32 (g.noise_ridge_uwater.result j * 2)| ≤ f32 (f64 (2 / 10)) ∧
        f32 (f32 (f64 (f32 (g.noise_ridge.result k
                * max (f32 ((y - g.water_level : Int) : ℚ)) 0) / f64 7))
          + f32 (f32 (f32 (f64 (2 / 10)) - |f32 (g.noise_ridge_uwater.result j * 2)|)
            * f32 (f64 (f32 (f32 ((y - g.water_level : Int) : ℚ) + 17) / f64 (25 / 10)))))
          ≥ f64 (6 / 10)) := by
  unfold MapgenV7.ridgeCarves
  simp only
  split_ifs with h1 h2 h3
  · constructor
    · intro h; exact absurd h (by simp)
    · intro h; omega
  · constructor
    · intro h; exact absurd h (by simp)
    · intro h; exact absurd h.2.1 (not_le.mpr h2)
  · constructor
    · intro h; exact absurd h (by simp)
    · intro h; exact absurd h.2.2 (not_le.mpr h3)
  · constructor
    · intro _; exact ⟨by omega, not_lt.mp h2, not_lt.mp h3⟩
    · intro _; rfl

/-! ## Running maxima -/

theorem MaxOf.comp {P Q : Int → Prop} {a b c : Int} (h1 : MaxOf P a b) (h2 : MaxOf Q b c) :
    MaxOf (fun y => P y ∨ Q y) a c := by
  obtain ⟨h1a, h1b, h1c⟩ := h1
  obtain ⟨h2a, h2b, h2c⟩ := h2
  refine ⟨le_trans h1a h2a, ?_, ?_⟩
  · intro y hy
    rcases hy with hy | hy
    · exact le_trans (h1b y hy) h2a
    · exact h2b y hy
  · rcases h2c with h | h
    · rcases h1c with h3 | h3
      · left; rw [h, h3]
      · right; left; rw [h]; exact h3
    · right; right; exact h

theorem MaxOf.congrPred {P Q : Int → Prop} {a b : Int} (h : MaxOf P a b) (hPQ : ∀ y, P y ↔ Q y) :
    MaxOf Q a b := by
  obtain ⟨h1, h2, h3⟩ := h
  refine ⟨h1, fun y hy => h2 y ((hPQ y).2 hy), ?_⟩
  rcases h3 with h | h
  · left; exact h
  · right; exact (hPQ b).1 h

/-- A loop whose iteration `i` acts on the slice `key = i` and raises the
accumulator `acc` to the maximum over the heights `Ch i` of its slice: the
loop raises it to the maximum over all visited slices, each read in the initial
buffer. -/
theorem loopUp_maxOf {σ : Type} (proj : σ → VoxelData) (acc : σ → Int)
    (key : Int → Int → Int → Int) (S : Int → Int → Int → Prop) (body : Int → σ → σ)
    (Ch : Int → VoxelData → Int → Prop)
    (hA : ∀ i, ActsOn proj (fun x y z => key x y z = i ∧ S x y z) (body i))
    (hB : ∀ i s, MaxOf (Ch i (proj s)) (acc s) (acc (body i s)))
    (hC : ∀ i v w, (∀ x y z, key x y z = i ∧ S x y z → v x y z = w x y z) →
      ∀ y, Ch i v y ↔ Ch i w y) :
    ∀ (n : Nat) (lo : Int) (s : σ),
      MaxOf (fun y => ∃ i, lo ≤ i ∧ i < lo + n ∧ Ch i (proj s) y) (acc s)
        (acc (loopUp n lo body s)) := by
  intro n
  induction n with
  | zero =>
    intro lo s
    refine ⟨le_refl _, ?_, Or.inl rfl⟩
    intro y hy
    obtain ⟨i, h1, h2, _⟩ := hy
    push_cast at h2
    omega
  | succ n ih =>
    intro lo s
    rw [loopUp_succ]
    have h1 := hB lo s
    have h2 := ih (lo + 1) (body lo s)
    refine (h1.comp h2).congrPred ?_
    intro y
    constructor
    · intro hy
      rcases hy with hy | ⟨i, hi1, hi2, hi3⟩
      · exact ⟨lo, le_refl _, by push_cast; omega, hy⟩
      · refine ⟨i, by omega, by push_cast; omega, ?_⟩
        refine (hC i (proj (body lo s)) (proj s) ?_ y).1 hi3
        intro a b c hk
        exact (hA lo).frame s a b c (fun hk2 => by have := hk.1; have := hk2.1; omega)
    · intro hy
      obtain ⟨i, hi1, hi2, hi3⟩ := hy
      push_cast at hi2
      by_cases h0 : i = lo
      · left; rw [← h0]; exact hi3
      · right
        refine ⟨i, by omega, by omega, ?_⟩
        refine (hC i (proj (body lo s)) (proj s) ?_ y).2 hi3
        intro a b c hk
        exact (hA lo).frame s a b c (fun hk2 => by have := hk.1; have := hk2.1; omega)

theorem forUp_maxOf {σ : Type} (proj : σ → VoxelData) (acc : σ → Int)
    (key : Int → Int → Int → Int) (S : Int → Int → Int → Prop) (body : Int → σ → σ)
    (Ch : Int → VoxelData → Int → Prop)
    (hA : ∀ i, ActsOn proj (fun x y z => key x y z = i ∧ S x y z) (body i))
    (hB : ∀ i s, MaxOf (Ch i (proj s)) (acc s) (acc (body i s)))
    (hC : ∀ i v w, (∀ x y z, key x y z = i ∧ S x y z → v x y z = w x y z) →
      ∀ y, Ch i v y ↔ Ch i w y)
    (lo hi : Int) (s : σ) :
    MaxOf (fun y => ∃ i, lo ≤ i ∧ i ≤ hi ∧ Ch i (proj s) y) (acc s)
      (acc (forUp lo hi body s)) := by
  unfold forUp
  refine (loopUp_maxOf proj acc key S body Ch hA hB hC (hi + 1 - lo).toNat lo s).congrPred ?_
  intro y
  constructor
  · intro h
    obtain ⟨i, h1, h2, h3⟩ := h
    exact ⟨i, h1, by omega, h3⟩
  · intro h
    obtain ⟨i, h1, h2, h3⟩ := h
    exact ⟨i, h1, by omega, h3⟩

/-- Three nested loops over `z`, `y` and `x` whose body acts on the cell
`(x, y, z)` and raises the accumulator to `y` when `Ch z y x` holds of the
content of the cell: the loops raise it to the maximum over the visited cells,
each read in the initial buffer. -/
theorem cellLoops_maxOf {σ : Type} (proj : σ → VoxelData) (acc : σ → Int)
    (cell : Int → Int → Int → σ → σ) (Ch : Int → Int → Int → content_t → Prop)
    (hA : ∀ z y x, ActsOn proj (fun a b c => a = x ∧ b = y ∧ c = z) (cell z y x))
    (hB : ∀ z y x s, MaxOf (fun h => h = y ∧ Ch z y x (proj s x y z)) (acc s)
      (acc (cell z y x s)))
    (xlo xhi ylo yhi zlo zhi : Int) (s : σ) :
    MaxOf (fun h => ∃ x z, (xlo ≤ x ∧ x ≤ xhi ∧ ylo ≤ h ∧ h ≤ yhi ∧ zlo ≤ z ∧ z ≤ zhi) ∧
        Ch z h x (proj s x h z)) (acc s)
      (acc (forUp zlo zhi (fun z s => forUp ylo yhi (fun y s1 =>
        forUp xlo xhi (fun x s2 => cell z y x s2) s1) s) s)) := by
  have hrowA : ∀ z0 y0 : Int, ActsOn proj (fun a b c => b = y0 ∧ (xlo ≤ a ∧ a ≤ xhi ∧ c = z0))
      (fun s1 => forUp xlo xhi (fun x s2 => cell z0 y0 x s2) s1) := fun z0 y0 =>
    (forUp_actsOn proj (fun a _ _ => a) (fun _ b c => b = y0 ∧ c = z0)
      (fun x s2 => cell z0 y0 x s2) (fun i => hA z0 y0 i) xlo xhi).congrSet
      (fun a b c => by constructor <;> intro hc <;> simp only [hc, and_self])
  have hslabA : ∀ z0 : Int, ActsOn proj (fun _ _ c => c = z0 ∧ True)
      (fun s => forUp ylo yhi (fun y s1 => forUp xlo xhi (fun x s2 => cell z0 y x s2) s1) s) :=
    fun z0 =>
    (forUp_actsOn proj (fun _ b _ => b) (fun a _ c => xlo ≤ a ∧ a ≤ xhi ∧ c = z0)
      (fun y s1 => forUp xlo xhi (fun x s2 => cell z0 y x s2) s1) (fun i => hrowA z0 i)
      ylo yhi).widen (fun a b c hc => ⟨hc.2.2.2.2, trivial⟩)
  have hrow : ∀ z0 y0 s1, MaxOf (fun h => ∃ x, xlo ≤ x ∧ x ≤ xhi ∧
      (h = y0 ∧ Ch z0 y0 x (proj s1 x y0 z0))) (acc s1)
      (acc (forUp xlo xhi (fun x s2 => cell z0 y0 x s2) s1)) := fun z0 y0 s1 =>
    forUp_maxOf proj acc (fun a _ _ => a) (fun _ b c => b = y0 ∧ c = z0)
      (fun x s2 => cell z0 y0 x s2) (fun x v h => h = y0 ∧ Ch z0 y0 x (v x y0 z0))
      (fun i => hA z0 y0 i) (fun i s => hB z0 y0 i s)
      (fun i v w hag h => by
        have e : v i y0 z0 = w i y0 z0 := hag i y0 z0 ⟨rfl, rfl, rfl⟩
        show (h = y0 ∧ Ch z0 y0 i (v i y0 z0)) ↔ (h = y0 ∧ Ch z0 y0 i (w i y0 z0))
        rw [e]) xlo xhi s1
  have hslab : ∀ z0 s1, MaxOf (fun h => ∃ y, ylo ≤ y ∧ y ≤ yhi ∧ ∃ x, xlo ≤ x ∧ x ≤ xhi ∧
      (h = y ∧ Ch z0 y x (proj s1 x y z0))) (acc s1)
      (acc (forUp ylo yhi (fun y s2 => forUp xlo xhi (fun x s3 => cell z0 y x s3) s2) s1)) :=
    fun z0 s1 =>
    forUp_maxOf proj acc (fun _ b _ => b) (fun a _ c => xlo ≤ a ∧ a ≤ xhi ∧ c = z0)
      (fun y s2 => forUp xlo xhi (fun x s3 => cell z0 y x s3) s2)
      (fun y v h => ∃ x, xlo ≤ x ∧ x ≤ xhi ∧ (h = y ∧ Ch z0 y x (v x y z0)))
      (fun i => hrowA z0 i) (fun i s => hrow z0 i s)
      (fun i v w hag h => by
        constructor
        · intro hh
          obtain ⟨x, h1, h2, h3⟩ := hh
          have e : v x i z0 = w x i z0 := hag x i z0 ⟨rfl, h1, h2, rfl⟩
          exact ⟨x, h1, h2, by rw [← e]; exact h3⟩
        · intro hh
          obtain ⟨x, h1, h2, h3⟩ := hh
          have e : v x i z0 = w x i z0 := hag x i z0 ⟨rfl, h1, h2, rfl⟩
          exact ⟨x, h1, h2, by rw [e]; exact h3⟩) ylo yhi s1
  have hall := forUp_maxOf proj acc (fun _ _ c => c) (fun _ _ _ => True)
      (fun z s1 => forUp ylo yhi (fun y s2 => forUp xlo xhi (fun x s3 => cell z y x s3) s2) s1)
      (fun z v h => ∃ y, ylo ≤ y ∧ y ≤ yhi ∧ ∃ x, xlo ≤ x ∧ x ≤ xhi ∧
        (h = y ∧ Ch z y x (v x y z)))
      (fun i => hslabA i) (fun i s => hslab i s)
      (fun i v w hag h => by
        constructor
        · intro hh
          obtain ⟨y, h1, h2, x, h3, h4, h5⟩ := hh
          have e : v x y i = w x y i := hag x y i ⟨rfl, trivial⟩
          exact ⟨y, h1, h2, x, h3, h4, by rw [← e]; exact h5⟩
        · intro hh
          obtain ⟨y, h1, h2, x, h3, h4, h5⟩ := hh
          have e : v x y i = w x y i := hag x y i ⟨rfl, trivial⟩
          exact ⟨y, h1, h2, x, h3, h4, by rw [e]; exact h5⟩) zlo zhi s
  refine hall.congrPred ?_
  intro h
  constructor
  · intro hh
    obtain ⟨z, hz1, hz2, y, hy1, hy2, x, hx1, hx2, rfl, hc⟩ := hh
    exact ⟨x, z, ⟨hx1, hx2, hy1, hy2, hz1, hz2⟩, hc⟩
  · intro hh
    obtain ⟨x, z, ⟨hx1, hx2, hy1, hy2, hz1, hz2⟩, hc⟩ := hh
    exact ⟨z, hz1, hz2, h, hy1, hy2, x, hx1, hx2, rfl, hc⟩

/-! ## Mountain overlay -/

theorem getMountainTerrainFromMap_iff (g : MapgenV7) (j i y : Int) :
    g.getMountainTerrainFromMap j i y = true ↔
      f32 (g.noise_mountain.result j * g.noise_mount_height.result i)
          ≥ f32 (y : ℚ) := by
  unfold MapgenV7.getMountainTerrainFromMap
  simp only [decide_eq_true_eq]

theorem mountainCell_eq (g : MapgenV7) (z y x : Int) (st : VoxelData × Int) (j : Int) :
    g.mountainCell z y x st j =
      if f32 (g.noise_mountain.result j * g.noise_mount_height.result (g.columnIndexC x z))
          ≥ f32 (y : ℚ)
          ∧ (st.1 x y z = CONTENT_AIR ∨ st.1 x y z = g.c_water_source) then
        (setNode st.1 x y z g.c_stone, if y > st.2 then y else st.2)
      else st := by
  unfold MapgenV7.mountainCell MapgenV7.columnIndexC
  dsimp only
  simp only [getMountainTerrainFromMap_iff]

theorem mountainCell_actsOn (g : MapgenV7) (z y x j : Int) :
    ActsOn (fun s : VoxelData × Int => s.1) (fun a b c => a = x ∧ b = y ∧ c = z)
      (fun s => g.mountainCell z y x s j) := by
  constructor
  · intro s a b c h
    simp only [mountainCell_eq]
    by_cases hc : f32 (g.noise_mountain.result j * g.noise_mount_height.result (g.columnIndexC x z))
          ≥ f32 (y : ℚ) ∧ (s.1 x y z = CONTENT_AIR ∨ s.1 x y z = g.c_water_source)
    · rw [if_pos hc]
      exact setNode_other _ _ _ _ _ _ _ _ h
    · rw [if_neg hc]
  · intro s t hag a b c hc
    obtain ⟨rfl, rfl, rfl⟩ := hc
    have e : s.1 a b c = t.1 a b c := hag a b c ⟨rfl, rfl, rfl⟩
    simp only [mountainCell_eq, e]
    by_cases hc : f32 (g.noise_mountain.result j * g.noise_mount_height.result (g.columnIndexC a c))
          ≥ f32 (b : ℚ) ∧ (t.1 a b c = CONTENT_AIR ∨ t.1 a b c = g.c_water_source)
    · rw [if_pos hc, if_pos hc]
      show setNode s.1 a b c g.c_stone a b c = setNode t.1 a b c g.c_stone a b c
      rw [setNode_same, setNode_same]
    · rw [if_neg hc, if_neg hc]
      exact e

theorem mountainCell_maxOf (g : MapgenV7) (z y x j : Int) (s : VoxelData × Int) :
    MaxOf (fun h => h = y ∧
        (f32 (g.noise_mountain.result j * g.noise_mount_height.result (g.columnIndexC x z))
          ≥ f32 (y : ℚ)
          ∧ (s.1 x y z = CONTENT_AIR ∨ s.1 x y z = g.c_water_source)))
      s.2 (g.mountainCell z y x s j).2 := by
  rw [mountainCell_eq]
  by_cases hc : f32 (g.noise_mountain.result j * g.noise_mount_height.result (g.columnIndexC x z))
          ≥ f32 (y : ℚ) ∧ (s.1 x y z = CONTENT_AIR ∨ s.1 x y z = g.c_water_source)
  · rw [if_pos hc]
    by_cases hy : y > s.2
    · simp only [hy, if_true]
      exact ⟨le_of_lt hy, fun h hh => le_of_eq hh.1, Or.inr ⟨rfl, hc⟩⟩
    · simp only [hy, if_false]
      exact ⟨le_refl _, fun h hh => by rw [hh.1]; exact not_lt.mp hy, Or.inl rfl⟩
  · rw [if_neg hc]
    exact ⟨le_refl _, fun h hh => absurd hh.2 hc, Or.inl rfl⟩

theorem mountainLoop_index (g : MapgenV7) (x y z : Int) :
    (0 : Int)
      + (z - g.node_min.Z) * ((((g.node_max.Y + 1) + 1 - (g.node_min.Y - 1)).toNat : Int)
          * ((g.node_max.X + 1 - g.node_min.X).toNat : Int))
      + (y - (g.node_min.Y - 1)) * ((g.node_max.X + 1 - g.node_min.X).toNat : Int)
      + (x - g.node_min.X) = g.cellIndex x y z := by
  simp [MapgenV7.cellIndex, MapgenV7.rowLen, MapgenV7.slabRows]

theorem mountainLoop_vm (g : MapgenV7) (st : VoxelData × Int) (x y z : Int) :
    (g.mountainLoop (st, 0)).1.1 x y z =
      if g.inChunk x y z ∧
          (f32 (g.noise_mountain.result (g.cellIndex x y z) * g.noise_mount_height.result (g.columnIndexC x z))
          ≥ f32 (y : ℚ)
            ∧ (st.1 x y z = CONTENT_AIR ∨ st.1 x y z = g.c_water_source)) then g.c_stone
      else st.1 x y z := by
  unfold MapgenV7.mountainLoop
  rw [cellLoops_eq (fun z y x s k => g.mountainCell z y x s k)]
  have h := cellLoops_cell (fun s : VoxelData × Int => s.1)
    (fun z y x s => g.mountainCell z y x s ((st, (0 : Int)).2
      + (z - g.node_min.Z) * ((((g.node_max.Y + 1) + 1 - (g.node_min.Y - 1)).toNat : Int)
          * ((g.node_max.X + 1 - g.node_min.X).toNat : Int))
      + (y - (g.node_min.Y - 1)) * ((g.node_max.X + 1 - g.node_min.X).toNat : Int)
      + (x - g.node_min.X)))
    (fun z y x => mountainCell_actsOn g z y x _)
    g.node_min.X g.node_max.X (g.node_min.Y - 1) (g.node_max.Y + 1) g.node_min.Z g.node_max.Z
    st x y z
  by_cases hc : g.inChunk x y z
  · have h1 := h.1 hc
    simp only at h1
    rw [h1, mountainLoop_index, mountainCell_eq]
    by_cases hr : f32 (g.noise_mountain.result (g.cellIndex x y z) * g.noise_mount_height.result (g.columnIndexC x z))
          ≥ f32 (y : ℚ)
        ∧ (st.1 x y z = CONTENT_AIR ∨ st.1 x y z = g.c_water_source)
    · have hcr : g.inChunk x y z ∧ (f32 (g.noise_mountain.result (g.cellIndex x y z) * g.noise_mount_height.result (g.columnIndexC x z))
          ≥ f32 (y : ℚ)
          ∧ (st.1 x y z = CONTENT_AIR ∨ st.1 x y z = g.c_water_source)) := ⟨hc, hr⟩
      rw [if_pos hr, if_pos hcr]
      exact setNode_same _ _ _ _ _
    · rw [if_neg hr, if_neg (fun hh => hr hh.2)]
  · have h2 := h.2 hc
    simp only at h2
    rw [h2, if_neg (fun hh => hc hh.1)]

theorem mountainLoop_ymax (g : MapgenV7) (st : VoxelData × Int) :
    MaxOf (fun h => ∃ x z, g.inChunk x h z ∧
        (f32 (g.noise_mountain.result (g.cellIndex x h z) * g.noise_mount_height.result (g.columnIndexC x z))
          ≥ f32 (h : ℚ)
          ∧ (st.1 x h z = CONTENT_AIR ∨ st.1 x h z = g.c_water_source)))
      st.2 (g.mountainLoop (st, 0)).1.2 := by
  unfold MapgenV7.mountainLoop
  rw [cellLoops_eq (fun z y x s k => g.mountainCell z y x s k)]
  have h := cellLoops_maxOf (fun s : VoxelData × Int => s.1) (fun s => s.2)
    (fun z y x s => g.mountainCell z y x s ((st, (0 : Int)).2
      + (z - g.node_min.Z) * ((((g.node_max.Y + 1) + 1 - (g.node_min.Y - 1)).toNat : Int)
          * ((g.node_max.X + 1 - g.node_min.X).toNat : Int))
      + (y - (g.node_min.Y - 1)) * ((g.node_max.X + 1 - g.node_min.X).toNat : Int)
      + (x - g.node_min.X)))
    (fun z y x c => f32 (g.noise_mountain.result (g.cellIndex x y z) * g.noise_mount_height.result (g.columnIndexC x z))
          ≥ f32 (y : ℚ)
      ∧ (c = CONTENT_AIR ∨ c = g.c_water_source))
    (fun z y x => mountainCell_actsOn g z y x _)
    (fun z y x s => by
      have := mountainCell_maxOf g z y x (g.cellIndex x y z) s
      simp only [mountainLoop_index]
      exact this)
    g.node_min.X g.node_max.X (g.node_min.Y - 1) (g.node_max.Y + 1) g.node_min.Z g.node_max.Z st
  exact h

theorem generateMountainTerrain_skip (g : MapgenV7) (ymax : Int) (h : g.node_max.Y < 0) :
    g.generateMountainTerrain ymax = (g, ymax) := by
  unfold MapgenV7.generateMountainTerrain
  rw [if_pos h]

theorem generateMountainTerrain_vm (g : MapgenV7) (ymax : Int) (h : ¬ g.node_max.Y < 0) :
    (g.generateMountainTerrain ymax).1.vm = (g.mountainLoop ((g.vm, ymax), 0)).1.1 := by
  unfold MapgenV7.generateMountainTerrain
  rw [if_neg h]

theorem generateMountainTerrain_ret (g : MapgenV7) (ymax : Int) (h : ¬ g.node_max.Y < 0) :
    (g.generateMountainTerrain ymax).2 = (g.mountainLoop ((g.vm, ymax), 0)).1.2 := by
  unfold MapgenV7.generateMountainTerrain
  rw [if_neg h]

/-! ## Properties kept or established by a loop -/

theorem loopUp_preserve {σ : Type} (P : σ → Prop) (body : Int → σ → σ)
    (h : ∀ i s, P s → P (body i s)) : ∀ (n : Nat) (lo : Int) (s : σ), P s →
      P (loopUp n lo body s) := by
  intro n
  induction n with
  | zero => intro lo s hs; exact hs
  | succ n ih => intro lo s hs; exact ih (lo + 1) _ (h lo s hs)

theorem forUp_preserve {σ : Type} (P : σ → Prop) (body : Int → σ → σ)
    (h : ∀ i s, P s → P (body i s)) (lo hi : Int) (s : σ) (hs : P s) :
    P (forUp lo hi body s) :=
  loopUp_preserve P body h _ lo s hs

theorem forUp_establish {σ : Type} (P : σ → Prop) (body : Int → σ → σ) (lo hi j : Int)
    (hj : lo ≤ j ∧ j ≤ hi) (hpres : ∀ i s, P s → P (body i s)) (hest : ∀ s, P (body j s))
    (s : σ) : P (forUp lo hi body s) := by
  unfold forUp
  have h := loopUp_inv body (fun k t => lo + (k : Int) > j → P t) (hi + 1 - lo).toNat lo s
    (fun hk => by simp only [Nat.cast_zero, add_zero] at hk; omega)
    (fun k t _ hI hk => by
      by_cases hjk : lo + (k : Int) = j
      · rw [hjk]; exact hest t
      · exact hpres _ t (hI (by push_cast at hk; omega)))
  exact h (by omega)

/-! ## Heightmaps written by the base terrain -/

theorem baseColumn_maps (g : MapgenV7) (x z k : Int) (st : BaseState) :
    (g.baseColumn x z k st).heightmap
        = arraySet st.heightmap k (float_to_s16 (g.baseTerrainLevelFromMap k)) ∧
      (g.baseColumn x z k st).ridge_heightmap
        = arraySet st.ridge_heightmap k (float_to_s16 (g.baseTerrainLevelFromMap k)) :=
  ⟨rfl, rfl⟩

theorem baseLoop_maps (g : MapgenV7) (st : BaseState) (x z : Int)
    (hx : g.node_min.X ≤ x ∧ x ≤ g.node_max.X) (hz : g.node_min.Z ≤ z ∧ z ≤ g.node_max.Z) :
    (g.baseLoop (st, 0)).1.heightmap (g.columnIndex x z) = g.surfaceY x z ∧
      (g.baseLoop (st, 0)).1.ridge_heightmap (g.columnIndex x z) = g.surfaceY x z := by
  unfold MapgenV7.baseLoop
  rw [columnLoops_eq (fun x z k s => g.baseColumn x z k s)]
  have hpres : ∀ (a c j : Int) (s : BaseState),
      (s.heightmap (g.columnIndex x z) = g.surfaceY x z ∧
        s.ridge_heightmap (g.columnIndex x z) = g.surfaceY x z) →
      ((g.baseColumn a c j s).heightmap (g.columnIndex x z) = g.surfaceY x z ∧
        (g.baseColumn a c j s).ridge_heightmap (g.columnIndex x z) = g.surfaceY x z) := by
    intro a c j s hs
    rw [(baseColumn_maps g a c j s).1, (baseColumn_maps g a c j s).2]
    by_cases hj : g.columnIndex x z = j
    · rw [← hj, arraySet_same, arraySet_same]
      exact ⟨rfl, rfl⟩
    · rw [arraySet_other _ _ _ _ hj, arraySet_other _ _ _ _ hj]
      exact hs
  refine forUp_establish (fun s : BaseState =>
      s.heightmap (g.columnIndex x z) = g.surfaceY x z ∧
        s.ridge_heightmap (g.columnIndex x z) = g.surfaceY x z) _
    g.node_min.Z g.node_max.Z z hz ?_ ?_ st
  · intro c s hs
    exact forUp_preserve (fun s : BaseState =>
      s.heightmap (g.columnIndex x z) = g.surfaceY x z ∧
        s.ridge_heightmap (g.columnIndex x z) = g.surfaceY x z) _
      (fun a s1 h1 => hpres a c _ s1 h1) _ _ s hs
  · intro s
    refine forUp_establish (fun s : BaseState =>
        s.heightmap (g.columnIndex x z) = g.surfaceY x z ∧
          s.ridge_heightmap (g.columnIndex x z) = g.surfaceY x z) _
      g.node_min.X g.node_max.X x hx ?_ ?_ s
    · intro a s1 h1
      exact hpres a z _ s1 h1
    · intro s1
      have e : (st, (0 : Int)).2 + (z - g.node_min.Z)
          * ((g.node_max.X + 1 - g.node_min.X).toNat : Int) + (x - g.node_min.X)
          = g.columnIndex x z := by
        simp [MapgenV7.columnIndex, MapgenV7.rowLen]
      simp only [e]
      rw [(baseColumn_maps g x z _ s1).1, (baseColumn_maps g x z _ s1).2,
        arraySet_same, arraySet_same]
      exact ⟨rfl, rfl⟩

/-! ## The ridge heightmap only goes down -/

theorem ridgeCell_snd_le (g : MapgenV7) (z y x k : Int) (st : VoxelData × (Int → Int))
    (i : Int) : (g.ridgeCell z y x st k).2 i ≤ st.2 i := by
  unfold MapgenV7.ridgeCell
  dsimp only
  by_cases hr : g.ridgeCarves ((z - g.node_min.Z) * g.csize.X + (x - g.node_min.X)) k y = true
  · rw [if_pos hr]
    by_cases hy : y < st.2 ((z - g.node_min.Z) * g.csize.X + (x - g.node_min.X))
    · simp only [if_pos hy]
      by_cases hi : i = (z - g.node_min.Z) * g.csize.X + (x - g.node_min.X)
      · rw [hi, arraySet_same]; omega
      · rw [arraySet_other _ _ _ _ hi]
    · simp only [if_neg hy]
      exact le_refl _
  · rw [if_neg hr]

theorem ridgeLoop_snd_le (g : MapgenV7) (st : (VoxelData × (Int → Int)) × Int) (i : Int) :
    (g.ridgeLoop st).1.2 i ≤ st.1.2 i := by
  unfold MapgenV7.ridgeLoop
  refine forUp_preserve (fun p : (VoxelData × (Int → Int)) × Int => p.1.2 i ≤ st.1.2 i) _ ?_
    _ _ st (le_refl _)
  intro z s hs
  refine forUp_preserve (fun p : (VoxelData × (Int → Int)) × Int => p.1.2 i ≤ st.1.2 i) _ ?_
    _ _ s hs
  intro y s1 hs1
  refine forUp_preserve (fun p : (VoxelData × (Int → Int)) × Int => p.1.2 i ≤ st.1.2 i) _ ?_
    _ _ s1 hs1
  intro a s2 hs2
  exact le_trans (ridgeCell_snd_le g z y a s2.2 s2.1 i) hs2

theorem generateRidgeTerrain_maps (g : MapgenV7) (i : Int) :
    (g.generateRidgeTerrain).heightmap i = g.heightmap i ∧
      (g.generateRidgeTerrain).ridge_heightmap i ≤ g.ridge_heightmap i := by
  unfold MapgenV7.generateRidgeTerrain
  by_cases hw : g.node_max.Y < g.water_level
  · rw [if_pos hw]
    exact ⟨rfl, le_refl _⟩
  · rw [if_neg hw]
    exact ⟨rfl, ridgeLoop_snd_le g ((g.vm, g.ridge_heightmap), 0) i⟩

theorem generateMountainTerrain_maps (g : MapgenV7) (ymax : Int) :
    (g.generateMountainTerrain ymax).1.heightmap = g.heightmap ∧
      (g.generateMountainTerrain ymax).1.ridge_heightmap = g.ridge_heightmap := by
  unfold MapgenV7.generateMountainTerrain
  by_cases hw : g.node_max.Y < 0
  · rw [if_pos hw]
    exact ⟨rfl, rfl⟩
  · rw [if_neg hw]
    exact ⟨rfl, rfl⟩

theorem generateBaseTerrain_maps (g : MapgenV7) (x z : Int)
    (hx : g.node_min.X ≤ x ∧ x ≤ g.node_max.X) (hz : g.node_min.Z ≤ z ∧ z ≤ g.node_max.Z) :
    (g.generateBaseTerrain).1.heightmap (g.columnIndex x z) = g.surfaceY x z ∧
      (g.generateBaseTerrain).1.ridge_heightmap (g.columnIndex x z) = g.surfaceY x z := by
  unfold MapgenV7.generateBaseTerrain
  exact baseLoop_maps g _ x z hx hz

/-- The ridge invariant after `generateTerrain`, from the invariant after the
base terrain. -/
theorem generateTerrain_maps (g : MapgenV7) (i : Int)
    (h : (g.generateBaseTerrain).1.ridge_heightmap i ≤ (g.generateBaseTerrain).1.heightmap i) :
    (g.generateTerrain).1.ridge_heightmap i ≤ (g.generateTerrain).1.heightmap i := by
  unfold MapgenV7.generateTerrain
  dsimp only
  have hm : ∀ r : MapgenV7 × Int, r.1.ridge_heightmap i ≤ r.1.heightmap i →
      (if r.1.spflags &&& MGV7_MOUNTAINS ≠ 0 then r.1.generateMountainTerrain r.2
        else r).1.ridge_heightmap i
      ≤ (if r.1.spflags &&& MGV7_MOUNTAINS ≠ 0 then r.1.generateMountainTerrain r.2
        else r).1.heightmap i := by
    intro r hr
    by_cases hf : r.1.spflags &&& MGV7_MOUNTAINS ≠ 0
    · rw [if_pos hf, (generateMountainTerrain_maps r.1 r.2).1,
        (generateMountainTerrain_maps r.1 r.2).2]
      exact hr
    · rw [if_neg hf]
      exact hr
  have hr : ∀ g1 : MapgenV7, g1.ridge_heightmap i ≤ g1.heightmap i →
      (if g1.spflags &&& MGV7_RIDGES ≠ 0 then g1.generateRidgeTerrain else g1).ridge_heightmap i
      ≤ (if g1.spflags &&& MGV7_RIDGES ≠ 0 then g1.generateRidgeTerrain else g1).heightmap i := by
    intro g1 h1
    by_cases hf : g1.spflags &&& MGV7_RIDGES ≠ 0
    · rw [if_pos hf, (generateRidgeTerrain_maps g1 i).1]
      exact le_trans (generateRidgeTerrain_maps g1 i).2 h1
    · rw [if_neg hf]
      exact h1
  exact hr _ (hm _ h)

/-! ## The state handed to the ridge pass -/

theorem generateMountainTerrain_frame (g : MapgenV7) (ymax : Int) :
    (g.generateMountainTerrain ymax).1
      = { g with vm := (g.generateMountainTerrain ymax).1.vm } := by
  unfold MapgenV7.generateMountainTerrain
  by_cases hw : g.node_max.Y < 0
  · rw [if_pos hw]
  · rw [if_neg hw]

theorem beforeRidge_frame (g : MapgenV7) :
    g.beforeRidge = { g with
      vm := g.beforeRidge.vm
      heightmap := (g.generateBaseTerrain).1.heightmap
      ridge_heightmap := (g.generateBaseTerrain).1.ridge_heightmap } := by
  unfold MapgenV7.beforeRidge
  dsimp only
  by_cases hf : (g.generateBaseTerrain).1.spflags &&& MGV7_MOUNTAINS ≠ 0
  · rw [if_pos hf, generateMountainTerrain_frame]
    rfl
  · rw [if_neg hf]
    rfl

theorem generateTerrain_ridges (g : MapgenV7) (hf : g.spflags &&& MGV7_RIDGES ≠ 0) :
    (g.generateTerrain).1 = g.beforeRidge.generateRidgeTerrain := by
  have e : g.beforeRidge.spflags = g.spflags := by rw [beforeRidge_frame]
  have hf2 : g.beforeRidge.spflags &&& MGV7_RIDGES ≠ 0 := by rw [e]; exact hf
  unfold MapgenV7.generateTerrain
  unfold MapgenV7.beforeRidge at hf2 ⊢
  dsimp only at hf2 ⊢
  rw [if_pos hf2]

/-- At `y = water_level` the carve test of `generateRidgeTerrain` passes
when `heightmap[j] ≥ water_level - 16` and
`|2 * ridge_uwater_map[j]| ≤ 19/170`: the rounded product
`width_mod * height_mod` is then at least `0.6`. -/
theorem ridgeCarves_waterLevel (g : MapgenV7) (j k : Int)
    (hh : g.heightmap j ≥ g.water_level - 16)
    (hu : |2 * g.noise_ridge_uwater.result j| ≤ 19 / 170) :
    g.ridgeCarves j k g.water_level = true := by
  rw [ridgeCarves_iff]
  have e : ((g.water_level - g.water_level : Int) : ℚ) = 0 := by simp
  rw [e, f32_zero, max_self, mul_zero, f32_zero, zero_div, f64_zero, f32_zero]
  have hu2 : |g.noise_ridge_uwater.result j * 2| ≤ 19 / 170 := by
    rw [mul_comm]; exact hu
  have hU : |f32 (g.noise_ridge_uwater.result j * 2)| ≤ f32 (19 / 170) := by
    rw [f32_abs]; exact f32_mono _ _ hu2
  have hUW : f32 (19 / 170) ≤ f32 (f64 (2 / 10)) := by decide!
  have hH0 : (0 : ℚ) ≤ f32 (f64 (f32 (0 + 17) / f64 (25 / 10))) := by decide!
  have hw : f32 (f32 (f64 (2 / 10)) - f32 (19 / 170))
      ≤ f32 (f32 (f64 (2 / 10)) - |f32 (g.noise_ridge_uwater.result j * 2)|) :=
    f32_mono _ _ (by linarith)
  have hp := f32_mono _ _ (mul_le_mul_of_nonneg_right hw hH0)
  have hs := f32_mono _ _ (add_le_add_left hp 0)
  have hfin : f64 (6 / 10) ≤ f32 (0 + f32 (f32 (f32 (f64 (2 / 10)) - f32 (19 / 170))
      * f32 (f64 (f32 (0 + 17) / f64 (25 / 10))))) := by decide!
  exact ⟨hh, le_trans hU hUW, le_trans hfin hs⟩


/-! ## Point queries -/

theorem s16_of_range (v : Int) (h1 : -32768 ≤ v) (h2 : v ≤ 32767) : s16 v = v := by
  unfold s16; omega

theorem s16_range (v : Int) : -32768 ≤ s16 v ∧ s16 v ≤ 32767 := by
  unfold s16; omega

theorem float_to_s16_range (f : ℚ) : -32768 ≤ float_to_s16 f ∧ float_to_s16 f ≤ 32767 := by
  unfold float_to_s16
  dsimp only
  split_ifs
  · exact s16_range _
  · constructor <;> decide

theorem baseTerrainLevelAtPoint_frame (nl : NoiseLib) (g : MapgenV7) (x z : Int) :
    (g.baseTerrainLevelAtPoint nl x z).2 = { g with
      noise_terrain_base := (g.baseTerrainLevelAtPoint nl x z).2.noise_terrain_base
      noise_terrain_alt := (g.baseTerrainLevelAtPoint nl x z).2.noise_terrain_alt } := by
  unfold MapgenV7.baseTerrainLevelAtPoint
  dsimp only
  split_ifs <;> rfl

theorem getMountainTerrainAtPoint_iff (nl : NoiseLib) (g : MapgenV7) (x y z : Int) :
    g.getMountainTerrainAtPoint nl x y z = true ↔
      f32 (nl.NoisePerlin3D g.noise_mountain.np x y z g.seed
          * nl.NoisePerlin2D g.noise_mount_height.np x z g.seed) ≥ f32 (y : ℚ) := by
  unfold MapgenV7.getMountainTerrainAtPoint
  simp only [decide_eq_true_eq]

theorem groundProbe_spec (nl : NoiseLib) (g : MapgenV7) (px pz : Int) :
    ∀ (n : Nat) (y : Int), -32768 ≤ y → y + n ≤ 32767 →
      (∀ m, y ≤ m → m < y + n → g.getMountainTerrainAtPoint nl px m pz = false →
        (∀ k, y ≤ k → k < m → g.getMountainTerrainAtPoint nl px k pz = true) →
        g.groundProbe nl px pz n y = m) ∧
      ((∀ k, y ≤ k → k < y + n → g.getMountainTerrainAtPoint nl px k pz = true) →
        g.groundProbe nl px pz n y = y + n) := by
  intro n
  induction n with
  | zero =>
    intro y _ _
    constructor
    · intro m h1 h2; push_cast at h2; omega
    · intro _; simp [MapgenV7.groundProbe]
  | succ n ih =>
    intro y hy1 hy2
    push_cast at hy2
    have ihn := ih (y + 1) (by omega) (by omega)
    have e16 : s16 (y + 1) = y + 1 := s16_of_range _ (by omega) (by omega)
    constructor
    · intro m h1 h2 hm hall
      push_cast at h2
      unfold MapgenV7.groundProbe
      by_cases hs : g.getMountainTerrainAtPoint nl px y pz = true
      · have hne : m ≠ y := by
          intro h; rw [h, hs] at hm; exact Bool.noConfusion hm
        simp only [hs, Bool.not_true, Bool.false_eq_true, if_false, e16]
        exact ihn.1 m (by omega) (by omega) hm (fun k hk1 hk2 => hall k (by omega) hk2)
      · have hs2 : g.getMountainTerrainAtPoint nl px y pz = false := by
          simpa using hs
        simp only [hs2, Bool.not_false, if_true]
        by_contra hne
        have := hall y (le_refl _) (by omega)
        rw [hs2] at this
        exact Bool.noConfusion this
    · intro hall
      unfold MapgenV7.groundProbe
      have hs := hall y (le_refl _) (by push_cast; omega)
      simp only [hs, Bool.not_true, Bool.false_eq_true, if_false, e16]
      rw [ihn.2 (fun k hk1 hk2 => hall k (by omega) (by push_cast; omega))]
      push_cast; ring

/-! ## Noise caves -/

/-- Two running indices that advance by `d2` and `d` at every iteration can be
replaced by their closed forms. -/
theorem forUp_counter2 {σ : Type} (f : Int → σ → Int → Int → σ) (d2 d : Int) (lo hi : Int)
    (p : (σ × Int) × Int) :
    forUp lo hi (fun i (p : (σ × Int) × Int) => ((f i p.1.1 p.1.2 p.2, p.1.2 + d2), p.2 + d)) p
      = ((forUp lo hi (fun i s => f i s (p.1.2 + (i - lo) * d2) (p.2 + (i - lo) * d)) p.1.1,
          p.1.2 + ((hi + 1 - lo).toNat : Int) * d2), p.2 + ((hi + 1 - lo).toNat : Int) * d) := by
  have h1 := forUp_counter (fun i (s : σ × Int) k => (f i s.1 s.2 k, s.2 + d2)) d lo hi p
  rw [h1]
  have h2 := forUp_counter (fun i (s : σ) k2 => f i s k2 (p.2 + (i - lo) * d)) d2 lo hi p.1
  rw [h2]

/-- The loops of the noise-cave block with `index2d` and `index` replaced by
their closed forms. -/
theorem caveLoop_eq (g : MapgenV7) (vm : VoxelData) :
    (g.caveLoop ((vm, 0), 0)).1.1
      = forUp g.node_min.Z g.node_max.Z (fun z v =>
          forUp (g.node_min.Y - 1) (g.node_max.Y + 1) (fun y v1 =>
            forUp g.node_min.X g.node_max.X (fun x v2 =>
              g.caveCell z y x v2
                ((z - g.node_min.Z) * (g.slabRows * (g.rowLen - g.ystride) + g.ystride)
                  + (y - (g.node_min.Y - 1)) * (g.rowLen - g.ystride) + (x - g.node_min.X))
                (g.cellIndex x y z)) v1) v) vm := by
  unfold MapgenV7.caveLoop
  have hx : ∀ z y : Int, (fun (q1 : (VoxelData × Int) × Int) =>
      forUp g.node_min.X g.node_max.X (fun x (p : (VoxelData × Int) × Int) =>
        ((g.caveCell z y x p.1.1 p.1.2 p.2, p.1.2 + 1), p.2 + 1)) q1)
      = (fun q1 => ((forUp g.node_min.X g.node_max.X (fun x v2 =>
            g.caveCell z y x v2 (q1.1.2 + (x - g.node_min.X)) (q1.2 + (x - g.node_min.X))) q1.1.1,
          q1.1.2 + g.rowLen), q1.2 + g.rowLen)) := by
    intro z y
    funext q1
    have := forUp_counter2 (fun x (v : VoxelData) k2 k => g.caveCell z y x v k2 k) 1 1
      g.node_min.X g.node_max.X q1
    simp only [mul_one] at this
    exact this
  have hy : ∀ z : Int, (fun (q : (VoxelData × Int) × Int) =>
      forUp (g.node_min.Y - 1) (g.node_max.Y + 1) (fun y (q1 : (VoxelData × Int) × Int) =>
        ((forUp g.node_min.X g.node_max.X (fun x v2 =>
            g.caveCell z y x v2 (q1.1.2 + (x - g.node_min.X)) (q1.2 + (x - g.node_min.X))) q1.1.1,
          q1.1.2 + g.rowLen - g.ystride), q1.2 + g.rowLen)) q)
      = (fun q => ((forUp (g.node_min.Y - 1) (g.node_max.Y + 1) (fun y v1 =>
            forUp g.node_min.X g.node_max.X (fun x v2 =>
              g.caveCell z y x v2
                (q.1.2 + (y - (g.node_min.Y - 1)) * (g.rowLen - g.ystride) + (x - g.node_min.X))
                (q.2 + (y - (g.node_min.Y - 1)) * g.rowLen + (x - g.node_min.X))) v1) q.1.1,
          q.1.2 + g.slabRows * (g.rowLen - g.ystride)), q.2 + g.slabRows * g.rowLen)) := by
    intro z
    funext q
    have := forUp_counter2 (fun y (v : VoxelData) k2 k =>
        forUp g.node_min.X g.node_max.X (fun x v2 =>
          g.caveCell z y x v2 (k2 + (x - g.node_min.X)) (k + (x - g.node_min.X))) v)
      (g.rowLen - g.ystride) g.rowLen (g.node_min.Y - 1) (g.node_max.Y + 1) q
    have e : ∀ a : Int, a + g.rowLen - g.ystride = a + (g.rowLen - g.ystride) := by
      intro a; ring
    simp only [e]
    exact this
  have hz := forUp_counter2 (fun z (v : VoxelData) k2 k =>
      forUp (g.node_min.Y - 1) (g.node_max.Y + 1) (fun y v1 =>
        forUp g.node_min.X g.node_max.X (fun x v2 =>
          g.caveCell z y x v2
            (k2 + (y - (g.node_min.Y - 1)) * (g.rowLen - g.ystride) + (x - g.node_min.X))
            (k + (y - (g.node_min.Y - 1)) * g.rowLen + (x - g.node_min.X))) v1) v)
    (g.slabRows * (g.rowLen - g.ystride) + g.ystride) (g.slabRows * g.rowLen)
    g.node_min.Z g.node_max.Z ((vm, 0), 0)
  simp only [hx]
  simp only [hy]
  have e : ∀ a : Int, a + g.slabRows * (g.rowLen - g.ystride) + g.ystride
      = a + (g.slabRows * (g.rowLen - g.ystride) + g.ystride) := by
    intro a; ring
  simp only [e]
  rw [hz]
  simp only [zero_add, MapgenV7.cellIndex]

theorem caveCell_at (g : MapgenV7) (z y x : Int) (vm : VoxelData) (k2 k : Int) :
    g.caveCell z y x vm k2 k x y z =
      if vm x y z ≠ CONTENT_AIR ∧
          f32 (f32 (contour (g.noise_cave1.result k))
            * f32 (contour (g.noise_cave2.result k))) > f64 (3 / 10) ∧
          (y > g.water_level ∨ vm x y z = g.c_stone
            ∨ vm x y z = (g.bmgr.get (g.biomemap k2)).c_stone) then CONTENT_AIR
      else vm x y z := by
  unfold MapgenV7.caveCell
  dsimp only
  by_cases h1 : vm x y z = CONTENT_AIR ∨ (y ≤ g.water_level ∧
      vm x y z ≠ (g.bmgr.get (g.biomemap k2)).c_stone ∧ vm x y z ≠ g.c_stone)
  · rw [if_pos h1, if_neg]
    intro hc
    rcases h1 with h1 | h1
    · exact hc.1 h1
    · rcases hc.2.2 with h | h | h
      · omega
      · exact h1.2.2 h
      · exact h1.2.1 h
  · rw [if_neg h1]
    have hna : vm x y z ≠ CONTENT_AIR := fun h => h1 (Or.inl h)
    have hex : y > g.water_level ∨ vm x y z = g.c_stone
        ∨ vm x y z = (g.bmgr.get (g.biomemap k2)).c_stone := by
      by_contra hn
      apply h1
      right
      refine ⟨?_, fun h => hn (Or.inr (Or.inr h)), fun h => hn (Or.inr (Or.inl h))⟩
      by_contra hy
      exact hn (Or.inl (by omega))
    by_cases hd : f32 (f32 (contour (g.noise_cave1.result k))
            * f32 (contour (g.noise_cave2.result k))) > f64 (3 / 10)
    · have hall : vm x y z ≠ CONTENT_AIR ∧
          f32 (f32 (contour (g.noise_cave1.result k))
            * f32 (contour (g.noise_cave2.result k))) > f64 (3 / 10) ∧
          (y > g.water_level ∨ vm x y z = g.c_stone
            ∨ vm x y z = (g.bmgr.get (g.biomemap k2)).c_stone) := ⟨hna, hd, hex⟩
      rw [if_pos hd, if_pos hall]
      exact setNode_same _ _ _ _ _
    · rw [if_neg hd, if_neg (fun hc => hd hc.2.1)]

theorem caveCell_other (g : MapgenV7) (z y x : Int) (vm : VoxelData) (k2 k a b c : Int)
    (h : ¬ (a = x ∧ b = y ∧ c = z)) : g.caveCell z y x vm k2 k a b c = vm a b c := by
  unfold MapgenV7.caveCell
  dsimp only
  split_ifs
  · rfl
  · exact setNode_other _ _ _ _ _ _ _ _ h
  · rfl

theorem caveCell_actsOn (g : MapgenV7) (z y x k2 k : Int) :
    ActsOn (fun v : VoxelData => v) (fun a b c => a = x ∧ b = y ∧ c = z)
      (fun v => g.caveCell z y x v k2 k) := by
  constructor
  · intro s a b c h
    exact caveCell_other g z y x s k2 k a b c h
  · intro s t hag a b c hc
    obtain ⟨rfl, rfl, rfl⟩ := hc
    have e : s a b c = t a b c := hag a b c ⟨rfl, rfl, rfl⟩
    simp only [caveCell_at, e]

theorem caveLoop_vm (g : MapgenV7) (hys : g.ystride = g.rowLen) (vm : VoxelData)
    (x y z : Int) :
    (g.caveLoop ((vm, 0), 0)).1.1 x y z =
      if g.inChunk x y z ∧ vm x y z ≠ CONTENT_AIR ∧
          f32 (f32 (contour (g.noise_cave1.result (g.cellIndex x y z)))
            * f32 (contour (g.noise_cave2.result (g.cellIndex x y z)))) > f64 (3 / 10) ∧
          (y > g.water_level ∨ vm x y z = g.c_stone
            ∨ vm x y z = (g.bmgr.get (g.biomemap (g.columnIndex x z))).c_stone)
      then CONTENT_AIR else vm x y z := by
  rw [caveLoop_eq]
  have h := cellLoops_cell (fun v : VoxelData => v)
    (fun z y x v => g.caveCell z y x v
      ((z - g.node_min.Z) * (g.slabRows * (g.rowLen - g.ystride) + g.ystride)
        + (y - (g.node_min.Y - 1)) * (g.rowLen - g.ystride) + (x - g.node_min.X))
      (g.cellIndex x y z))
    (fun z y x => caveCell_actsOn g z y x _ _)
    g.node_min.X g.node_max.X (g.node_min.Y - 1) (g.node_max.Y + 1) g.node_min.Z g.node_max.Z
    vm x y z
  have e2 : (z - g.node_min.Z) * (g.slabRows * (g.rowLen - g.ystride) + g.ystride)
      + (y - (g.node_min.Y - 1)) * (g.rowLen - g.ystride) + (x - g.node_min.X)
      = g.columnIndex x z := by
    rw [hys]
    unfold MapgenV7.columnIndex
    ring
  by_cases hc : g.inChunk x y z
  · have h1 := h.1 hc
    simp only at h1
    rw [h1, caveCell_at, e2]
    simp only [hc, true_and]
  · have h2 := h.2 hc
    simp only at h2
    rw [h2, if_neg (fun hh => hc hh.1)]

/-! ## Surface dust -/

theorem dustScan_congr (v w : VoxelData) (x z : Int) (h : ∀ y, v x y z = w x y z) :
    ∀ (n : Nat) (y : Int), dustScan v x z n y = dustScan w x z n y := by
  intro n
  induction n with
  | zero => intro y; rfl
  | succ n ih =>
    intro y
    unfold dustScan
    rw [h y, ih (y - 1)]

theorem dustScan_find (vm : VoxelData) (x z h : Int) (hne : vm x h z ≠ CONTENT_AIR) :
    ∀ (n : Nat) (y : Int), h ≤ y → y - h < n →
      (∀ k, h < k → k ≤ y → vm x k z = CONTENT_AIR) → dustScan vm x z n y = h := by
  intro n
  induction n with
  | zero => intro y h1 h2; push_cast at h2; omega
  | succ n ih =>
    intro y h1 h2 hair
    push_cast at h2
    unfold dustScan
    by_cases hy : y = h
    · rw [hy, if_pos hne]
    · have ha : vm x y z = CONTENT_AIR := hair y (by omega) (le_refl _)
      rw [if_neg (fun hc => hc ha)]
      exact ih (y - 1) (by omega) (by omega) (fun k hk1 hk2 => hair k hk1 (by omega))

theorem dustFrom_other (g : MapgenV7) (x z : Int) (biome : Biome) (vm : VoxelData)
    (y_start a b c : Int) (h : ¬ (a = x ∧ c = z)) :
    g.dustFrom x z biome vm y_start a b c = vm a b c := by
  unfold MapgenV7.dustFrom
  split_ifs
  · exact setNode_other _ _ _ _ _ _ _ _ (fun hc => h ⟨hc.1, hc.2.2⟩)
  · rfl

theorem dustFrom_congr (g : MapgenV7) (x z : Int) (biome : Biome) (v w : VoxelData)
    (y_start : Int) (h : ∀ y, v x y z = w x y z) (y : Int) :
    g.dustFrom x z biome v y_start x y z = g.dustFrom x z biome w y_start x y z := by
  unfold MapgenV7.dustFrom
  simp only [dustScan_congr v w x z h, h]
  split_ifs
  · unfold setNode
    simp only [h]
  · exact h y

theorem dustColumn_other (g : MapgenV7) (x z k : Int) (vm : VoxelData) (a b c : Int)
    (h : ¬ (a = x ∧ c = z)) : g.dustColumn x z k vm a b c = vm a b c := by
  unfold MapgenV7.dustColumn
  dsimp only
  split_ifs <;> first | rfl | exact dustFrom_other g x z _ vm _ a b c h

theorem dustColumn_congr (g : MapgenV7) (x z k : Int) (v w : VoxelData)
    (h : ∀ y, v x y z = w x y z) (y : Int) :
    g.dustColumn x z k v x y z = g.dustColumn x z k w x y z := by
  unfold MapgenV7.dustColumn
  dsimp only
  simp only [h]
  split_ifs <;> first | exact h y | exact dustFrom_congr g x z _ v w _ h y

theorem dustColumn_actsOn (g : MapgenV7) (x z k : Int) :
    ActsOn (fun v : VoxelData => v) (fun a _ c => a = x ∧ c = z) (g.dustColumn x z k) := by
  constructor
  · intro s a b c h
    exact dustColumn_other g x z k s a b c h
  · intro s t hag a b c hc
    obtain ⟨rfl, rfl⟩ := hc
    exact dustColumn_congr g a c k s t (fun y => hag a y c ⟨rfl, rfl⟩) b

theorem dustLoop_vm (g : MapgenV7) (vm : VoxelData) (x y z : Int)
    (hx : g.node_min.X ≤ x ∧ x ≤ g.node_max.X) (hz : g.node_min.Z ≤ z ∧ z ≤ g.node_max.Z) :
    (g.dustLoop (vm, 0)).1 x y z = g.dustColumn x z (g.columnIndex x z) vm x y z := by
  unfold MapgenV7.dustLoop
  rw [columnLoops_eq (fun x z k s => g.dustColumn x z k s)]
  have h := columnLoops_cell (fun v : VoxelData => v)
    (fun x z => g.dustColumn x z
      ((vm, (0 : Int)).2 + (z - g.node_min.Z) * ((g.node_max.X + 1 - g.node_min.X).toNat : Int)
        + (x - g.node_min.X)))
    (fun x z => dustColumn_actsOn g x z _) g.node_min.X g.node_max.X g.node_min.Z g.node_max.Z
    vm x y z
  have h1 := h.1 ⟨hx.1, hx.2, hz.1, hz.2⟩
  simp only at h1
  rw [h1]
  have e : (0 : Int) + (z - g.node_min.Z) * ((g.node_max.X + 1 - g.node_min.X).toNat : Int)
      + (x - g.node_min.X) = g.columnIndex x z := by
    simp [MapgenV7.columnIndex, MapgenV7.rowLen]
  rw [e]

/-- The column body of `dustTopNodes` when the halo top is `AIR` and the first
cell that is not `AIR` below it, at height `h`, takes dust. -/
theorem dustColumn_place (g : MapgenV7) (x z k : Int) (vm : VoxelData) (h : Int)
    (hd : (g.bmgr.get (g.biomemap k)).c_dust ≠ CONTENT_IGNORE)
    (htop : vm x g.full_node_max.Y z = CONTENT_AIR)
    (hh1 : g.node_min.Y - 1 ≤ h) (hh2 : h ≤ g.full_node_max.Y - 1)
    (hair : ∀ y, h < y → y ≤ g.full_node_max.Y - 1 → vm x y z = CONTENT_AIR)
    (hna : vm x h z ≠ CONTENT_AIR)
    (hb : g.ndef.buildable_to (vm x h z) = false)
    (hi : vm x h z ≠ CONTENT_IGNORE)
    (hnd : vm x h z ≠ (g.bmgr.get (g.biomemap k)).c_dust) :
    g.dustColumn x z k vm = setNode vm x (h + 1) z (g.bmgr.get (g.biomemap k)).c_dust := by
  unfold MapgenV7.dustColumn
  dsimp only
  rw [if_neg hd, if_pos htop]
  unfold MapgenV7.dustFrom
  dsimp only
  have hs : dustScan vm x z (g.full_node_max.Y - 1 + 1 - (g.node_min.Y - 1)).toNat
      (g.full_node_max.Y - 1) = h :=
    dustScan_find vm x z h hna _ _ hh2 (by omega) hair
  rw [hs, if_pos ⟨hb, hi, hnd⟩]

/-! ## Biome surface layers: footprint of a column scan -/

theorem loopDown_preserve {σ : Type} (P : σ → Prop) (body : Int → σ → σ)
    (h : ∀ i s, P s → P (body i s)) : ∀ (n : Nat) (hi : Int) (s : σ), P s →
      P (loopDown n hi body s) := by
  intro n
  induction n with
  | zero => intro hi s hs; exact hs
  | succ n ih => intro hi s hs; exact ih (hi - 1) _ (h hi s hs)

theorem loopDown_succ {σ : Type} (n : Nat) (hi : Int) (body : Int → σ → σ) (s : σ) :
    loopDown (n + 1) hi body s = loopDown n (hi - 1) body (body hi s) := rfl

theorem loopDown_inv {σ : Type} (body : Int → σ → σ) (Inv : Int → σ → Prop) :
    ∀ (n : Nat) (hi : Int) (s : σ), Inv hi s →
      (∀ (y : Int) (t : σ), hi - n < y → y ≤ hi → Inv y t → Inv (y - 1) (body y t)) →
      Inv (hi - n) (loopDown n hi body s) := by
  intro n
  induction n with
  | zero => intro hi s h0 _; simpa using h0
  | succ n ih =>
    intro hi s h0 hstep
    rw [loopDown_succ]
    have h1 := hstep hi s (by push_cast; omega) (le_refl _) h0
    have h2 := ih (hi - 1) (body hi s) h1
      (fun y t hy1 hy2 hI => hstep y t (by push_cast; omega) (by omega) hI)
    have e : hi - ((n + 1 : Nat) : Int) = hi - 1 - (n : Int) := by push_cast; ring
    rw [e]
    exact h2

theorem writeBiome_vm_other (s : BiomeScan) (x y z : Int) (f : Biome → content_t)
    (a b c : Int) (h : ¬ (a = x ∧ b = y ∧ c = z)) :
    (s.writeBiome x y z f).vm a b c = s.vm a b c := by
  unfold BiomeScan.writeBiome
  cases s.biome with
  | none => rfl
  | some B => exact setNode_other _ _ _ _ _ _ _ _ h

theorem biomeSample_vm (g : MapgenV7) (heat hum : Int → ℚ) (k y : Int) (c : content_t)
    (s : BiomeScan) : (g.biomeSample heat hum k y c s).vm = s.vm := by
  unfold MapgenV7.biomeSample
  split_ifs <;> rfl

theorem biomeCell_vm_other (g : MapgenV7) (heat hum : Int → ℚ) (x z k y : Int) (s : BiomeScan)
    (a b c : Int) (h : ¬ (a = x ∧ b = y ∧ c = z)) :
    (g.biomeCell heat hum x z k y s).vm a b c = s.vm a b c := by
  have hv := biomeSample_vm g heat hum k y (s.vm x y z) s
  unfold MapgenV7.biomeCell
  dsimp only
  split_ifs <;>
    first
    | exact congrFun (congrFun (congrFun hv a) b) c
    | (rw [writeBiome_vm_other _ _ _ _ _ _ _ _ h]; exact congrFun (congrFun (congrFun hv a) b) c)

theorem agree_writeBiome (x z y : Int) (f : Biome → content_t) (s t : BiomeScan)
    (h : BiomeScan.agree x z s t) :
    BiomeScan.agree x z (s.writeBiome x y z f) (t.writeBiome x y z f) := by
  obtain ⟨hv, h1, h2, h3, h4, h5, h6, h7⟩ := h
  unfold BiomeScan.writeBiome
  rw [h1]
  cases hb : t.biome with
  | none => exact ⟨hv, by simp only [h1, hb], h2, h3, h4, h5, h6, h7⟩
  | some B =>
    refine ⟨?_, by simp only [h1, hb], h2, h3, h4, h5, h6, h7⟩
    intro w
    show setNode s.vm x y z (f B) x w z = setNode t.vm x y z (f B) x w z
    unfold setNode
    simp only [hv]

theorem agree_nplaced (x z n : Int) (s t : BiomeScan) (h : BiomeScan.agree x z s t) :
    BiomeScan.agree x z { s with nplaced := n } { t with nplaced := n } := by
  obtain ⟨hv, h1, h2, h3, h4, h5, h6, h7⟩ := h
  exact ⟨hv, h1, h2, h3, h4, h5, rfl, h7⟩

theorem agree_reset (x z : Int) (b : Bool) (s t : BiomeScan) (h : BiomeScan.agree x z s t) :
    BiomeScan.agree x z { s with have_air := b, nplaced := 0 }
      { t with have_air := b, nplaced := 0 } := by
  obtain ⟨hv, h1, h2, h3, h4, h5, h6, h7⟩ := h
  exact ⟨hv, h1, h2, h3, h4, h5, rfl, rfl⟩

theorem agree_biomeSample (g : MapgenV7) (heat hum : Int → ℚ) (x z k y : Int) (c : content_t)
    (s t : BiomeScan) (h : BiomeScan.agree x z s t) :
    BiomeScan.agree x z (g.biomeSample heat hum k y c s) (g.biomeSample heat hum k y c t) := by
  obtain ⟨hv, h1, h2, h3, h4, h5, h6, h7⟩ := h
  unfold MapgenV7.biomeSample
  rw [h7]
  split_ifs
  · exact ⟨hv, rfl, rfl, rfl, rfl, rfl, h6, rfl⟩
  · exact ⟨hv, h1, h2, h3, h4, h5, h6, h7⟩

theorem biomeCell_agree (g : MapgenV7) (heat hum : Int → ℚ) (x z k y : Int)
    (s t : BiomeScan) (h : BiomeScan.agree x z s t) :
    BiomeScan.agree x z (g.biomeCell heat hum x z k y s) (g.biomeCell heat hum x z k y t) := by
  have hc : s.vm x y z = t.vm x y z := h.1 y
  have ha := agree_biomeSample g heat hum x z k y (t.vm x y z) s t h
  unfold MapgenV7.biomeCell
  dsimp only
  rw [hc]
  generalize g.biomeSample heat hum k y (t.vm x y z) s = s1 at ha ⊢
  generalize g.biomeSample heat hum k y (t.vm x y z) t = t1 at ha ⊢
  obtain ⟨vs, bs, dfs, yts, yfs, dws, nps, has, dss, fs⟩ := s1
  obtain ⟨vt, bt, dft, ytt, yft, dwt, npt, hat, dst, ft⟩ := t1
  have ha2 := ha
  obtain ⟨hv, h1, h2, h3, h4, h5, h6, h7⟩ := ha2
  simp only at hv h1 h2 h3 h4 h5 h6 h7
  subst h1 h2 h3 h4 h5 h6 h7
  simp only [hv]
  split_ifs <;>
    first
    | exact ha
    | exact agree_nplaced x z _ _ _ (agree_writeBiome x z y _ _ _ ha)
    | exact agree_writeBiome x z y _ _ _ (agree_reset x z _ _ _ ha)
    | exact agree_reset x z _ _ _ ha

theorem biomeColumn_vm (g : MapgenV7) (heat hum : Int → ℚ) (x z k : Int) (st : BiomeState) :
    (g.biomeColumn heat hum x z k st).vm
      = (forDown g.node_max.Y g.node_min.Y (g.biomeCell heat hum x z k)
          { vm := st.vm, biome := none, dfiller := 0, y0_top := 0, y0_filler := 0
            depth_water_top := 0, nplaced := 0
            have_air := decide (st.vm x (g.node_max.Y + 1) z = CONTENT_AIR)
            desert_stone := st.desert_stone, fault := st.fault }).vm := rfl

theorem biomeColumn_actsOn (g : MapgenV7) (heat hum : Int → ℚ) (x z k : Int) :
    ActsOn BiomeState.vm (fun a _ c => a = x ∧ c = z) (g.biomeColumn heat hum x z k) := by
  constructor
  · intro st a b c h
    rw [biomeColumn_vm]
    unfold forDown
    refine loopDown_preserve (fun s : BiomeScan => s.vm a b c = st.vm a b c) _ ?_ _ _ _ rfl
    intro y s hs
    rw [biomeCell_vm_other g heat hum x z k y s a b c (fun hc => h ⟨hc.1, hc.2.2⟩)]
    exact hs
  · intro st st1 hag a b c hc
    obtain ⟨rfl, rfl⟩ := hc
    rw [biomeColumn_vm, biomeColumn_vm]
    unfold forDown
    have h0 : BiomeScan.agree a c
        { vm := st.vm, biome := none, dfiller := 0, y0_top := 0, y0_filler := 0
          depth_water_top := 0, nplaced := 0
          have_air := decide (st.vm a (g.node_max.Y + 1) c = CONTENT_AIR)
          desert_stone := st.desert_stone, fault := st.fault }
        { vm := st1.vm, biome := none, dfiller := 0, y0_top := 0, y0_filler := 0
          depth_water_top := 0, nplaced := 0
          have_air := decide (st1.vm a (g.node_max.Y + 1) c = CONTENT_AIR)
          desert_stone := st1.desert_stone, fault := st1.fault } := by
      refine ⟨fun y => hag a y c ⟨rfl, rfl⟩, rfl, rfl, rfl, rfl, rfl, rfl, ?_⟩
      show decide (st.vm a (g.node_max.Y + 1) c = CONTENT_AIR)
        = decide (st1.vm a (g.node_max.Y + 1) c = CONTENT_AIR)
      rw [hag a (g.node_max.Y + 1) c ⟨rfl, rfl⟩]
    have hfin := loopDown_rel (BiomeScan.agree a c) (g.biomeCell heat hum a c k)
      (g.biomeCell heat hum a c k) (fun i s t hR => biomeCell_agree g heat hum a c k i s t hR)
      (g.node_max.Y + 1 - g.node_min.Y).toNat g.node_max.Y _ _ h0
    exact hfin.1 b

theorem biomeLoop_vm (g : MapgenV7) (heat hum : Int → ℚ) (st : BiomeState) (x y z : Int)
    (hx : g.node_min.X ≤ x ∧ x ≤ g.node_max.X) (hz : g.node_min.Z ≤ z ∧ z ≤ g.node_max.Z) :
    (g.biomeLoop heat hum (st, 0)).1.vm x y z
      = (g.biomeColumn heat hum x z (g.columnIndex x z) st).vm x y z := by
  unfold MapgenV7.biomeLoop
  rw [columnLoops_eq (fun x z k s => g.biomeColumn heat hum x z k s)]
  have h := columnLoops_cell BiomeState.vm
    (fun x z => g.biomeColumn heat hum x z
      ((st, (0 : Int)).2 + (z - g.node_min.Z) * ((g.node_max.X + 1 - g.node_min.X).toNat : Int)
        + (x - g.node_min.X)))
    (fun x z => biomeColumn_actsOn g heat hum x z _) g.node_min.X g.node_max.X
    g.node_min.Z g.node_max.Z st x y z
  have h1 := h.1 ⟨hx.1, hx.2, hz.1, hz.2⟩
  simp only at h1
  rw [h1]
  have e : (0 : Int) + (z - g.node_min.Z) * ((g.node_max.X + 1 - g.node_min.X).toNat : Int)
      + (x - g.node_min.X) = g.columnIndex x z := by
    simp [MapgenV7.columnIndex, MapgenV7.rowLen]
  rw [e]

theorem biomeCell_air (g : MapgenV7) (heat hum : Int → ℚ) (x z k y : Int) (s : BiomeScan)
    (hs1 : g.c_stone ≠ CONTENT_AIR) (hw1 : g.c_water_source ≠ CONTENT_AIR)
    (hc : s.vm x y z = CONTENT_AIR) :
    g.biomeCell heat hum x z k y s = { s with have_air := true, nplaced := 0 } := by
  unfold MapgenV7.biomeCell MapgenV7.biomeSample
  simp only [hc, ne_eq, not_true_eq_false, false_and, and_false, if_false]
  rw [if_neg (fun h => hs1 h.1.symm), if_neg (fun h => hs1 h.symm),
    if_neg (fun h => hw1 h.symm)]
  simp only [if_true]

/-- What `biomeSample` leaves at a cell of generic stone, when the lookup
returns `B` at every height. -/
theorem biomeSample_stone (g : MapgenV7) (heat hum : Int → ℚ) (k y : Int) (s : BiomeScan)
    (B : Biome) (hB : ∀ w, g.bmgr.getBiome (heat k) (hum k) w = B)
    (hs1 : g.c_stone ≠ CONTENT_AIR) (hs2 : g.c_stone ≠ CONTENT_IGNORE)
    (hvar : s.have_air = true ∨ (s.biome = some B ∧ s.y0_top = B.depth_top ∧
      s.y0_filler = s16 (B.depth_top
        + float_to_s16 (f32 ((B.depth_filler : ℚ)
          + g.noise_filler_depth.result k))))) :
    (g.biomeSample heat hum k y g.c_stone s).vm = s.vm ∧
    (g.biomeSample heat hum k y g.c_stone s).biome = some B ∧
    (g.biomeSample heat hum k y g.c_stone s).y0_top = B.depth_top ∧
    (g.biomeSample heat hum k y g.c_stone s).y0_filler = s16 (B.depth_top
        + float_to_s16 (f32 ((B.depth_filler : ℚ)
          + g.noise_filler_depth.result k))) ∧
    (g.biomeSample heat hum k y g.c_stone s).nplaced = s.nplaced ∧
    (g.biomeSample heat hum k y g.c_stone s).have_air = s.have_air ∧
    (g.biomeSample heat hum k y g.c_stone s).fault = s.fault := by
  unfold MapgenV7.biomeSample
  by_cases hc : g.c_stone ≠ CONTENT_IGNORE ∧ g.c_stone ≠ CONTENT_AIR ∧
      (y = g.node_max.Y ∨ s.have_air = true)
  · rw [if_pos hc]
    simp [hB]
  · rw [if_neg hc]
    have hna : ¬ s.have_air = true := fun h => hc ⟨hs2, hs1, Or.inr h⟩
    rcases hvar with h | h
    · exact absurd h hna
    · exact ⟨rfl, h.1, h.2.1, h.2.2, rfl, rfl, rfl⟩

/-- The step of the scan at a cell of generic stone, once the variables hold
the values of the biome `B`. -/
theorem biomeCell_stone (g : MapgenV7) (heat hum : Int → ℚ) (x z k y : Int) (s : BiomeScan)
    (B : Biome) (hB : ∀ w, g.bmgr.getBiome (heat k) (hum k) w = B)
    (hs1 : g.c_stone ≠ CONTENT_AIR) (hs2 : g.c_stone ≠ CONTENT_IGNORE)
    (hc : s.vm x y z = g.c_stone)
    (hvar : s.have_air = true ∨ (s.biome = some B ∧ s.y0_top = B.depth_top ∧
      s.y0_filler = s16 (B.depth_top
        + float_to_s16 (f32 ((B.depth_filler : ℚ)
          + g.noise_filler_depth.result k))))) :
    (g.biomeCell heat hum x z k y s).biome = some B ∧
    (g.biomeCell heat hum x z k y s).y0_top = B.depth_top ∧
    (g.biomeCell heat hum x z k y s).y0_filler = s16 (B.depth_top
        + float_to_s16 (f32 ((B.depth_filler : ℚ)
          + g.noise_filler_depth.result k))) ∧
    (g.biomeCell heat hum x z k y s).fault = s.fault ∧
    (g.biomeCell heat hum x z k y s).vm = setNode s.vm x y z
      (if s.have_air = true ∧ s.vm x (y - 1) z ≠ CONTENT_AIR ∧ s.nplaced < B.depth_top
        then B.c_top
      else if s.have_air = true ∧ s.vm x (y - 1) z ≠ CONTENT_AIR
          ∧ s.nplaced < s16 (B.depth_top
            + float_to_s16 (f32 ((B.depth_filler : ℚ)
          + g.noise_filler_depth.result k)))
          ∧ s.nplaced ≥ B.depth_top then B.c_filler
      else B.c_stone) ∧
    (g.biomeCell heat hum x z k y s).have_air
      = decide (s.have_air = true ∧ s.vm x (y - 1) z ≠ CONTENT_AIR ∧
          (s.nplaced < B.depth_top ∨ s.nplaced < s16 (B.depth_top
            + float_to_s16 (f32 ((B.depth_filler : ℚ)
          + g.noise_filler_depth.result k))))) ∧
    (g.biomeCell heat hum x z k y s).nplaced
      = (if s.have_air = true ∧ s.vm x (y - 1) z ≠ CONTENT_AIR ∧
          (s.nplaced < B.depth_top ∨ s.nplaced < s16 (B.depth_top
            + float_to_s16 (f32 ((B.depth_filler : ℚ)
          + g.noise_filler_depth.result k))))
        then s16 (s.nplaced + 1) else 0) := by
  have hsam := biomeSample_stone g heat hum k y s B hB hs1 hs2 hvar
  unfold MapgenV7.biomeCell
  dsimp only
  rw [hc]
  generalize g.biomeSample heat hum k y g.c_stone s = s1 at hsam ⊢
  obtain ⟨h1, h2, h3, h4, h5, h6, h7⟩ := hsam
  obtain ⟨vs, bs, dfs, yts, yfs, dws, nps, has, dss, fs⟩ := s1
  simp only at h1 h2 h3 h4 h5 h6 h7
  subst h1 h2 h3 h4 h5 h6 h7
  simp only [BiomeScan.writeBiome, true_and]
  by_cases ha : s.have_air = true
  · by_cases hb : s.vm x (y - 1) z = CONTENT_AIR
    · simp [ha, hb]
    · by_cases ht : s.nplaced < B.depth_top
      · simp [ha, hb, ht]
      · by_cases hf : s.nplaced < s16 (B.depth_top
            + float_to_s16 (f32 ((B.depth_filler : ℚ)
          + g.noise_filler_depth.result k)))
        · simp [ha, hb, ht, hf, not_lt.mp ht]
        · simp [ha, hb, ht, hf]
  · simp [ha]

/-- The step of the scan at any cell, once the variables hold the values of the
biome `B`: they keep them, and no null `biome` is dereferenced. -/
theorem biomeCell_keep (g : MapgenV7) (heat hum : Int → ℚ) (x z k y : Int) (s : BiomeScan)
    (B : Biome) (hB : ∀ w, g.bmgr.getBiome (heat k) (hum k) w = B)
    (hvar : s.biome = some B ∧ s.y0_top = B.depth_top ∧
      s.y0_filler = s16 (B.depth_top
        + float_to_s16 (f32 ((B.depth_filler : ℚ)
          + g.noise_filler_depth.result k)))) :
    (g.biomeCell heat hum x z k y s).biome = some B ∧
    (g.biomeCell heat hum x z k y s).y0_top = B.depth_top ∧
    (g.biomeCell heat hum x z k y s).y0_filler = s16 (B.depth_top
        + float_to_s16 (f32 ((B.depth_filler : ℚ)
          + g.noise_filler_depth.result k))) ∧
    (g.biomeCell heat hum x z k y s).fault = s.fault := by
  have hsam : (g.biomeSample heat hum k y (s.vm x y z) s).biome = some B ∧
      (g.biomeSample heat hum k y (s.vm x y z) s).y0_top = B.depth_top ∧
      (g.biomeSample heat hum k y (s.vm x y z) s).y0_filler = s16 (B.depth_top
        + float_to_s16 (f32 ((B.depth_filler : ℚ)
          + g.noise_filler_depth.result k))) ∧
      (g.biomeSample heat hum k y (s.vm x y z) s).fault = s.fault := by
    unfold MapgenV7.biomeSample
    split_ifs
    · simp [hB]
    · exact ⟨hvar.1, hvar.2.1, hvar.2.2, rfl⟩
  unfold MapgenV7.biomeCell
  dsimp only
  generalize g.biomeSample heat hum k y (s.vm x y z) s = s1 at hsam ⊢
  obtain ⟨h1, h2, h3, h4⟩ := hsam
  obtain ⟨vs, bs, dfs, yts, yfs, dws, nps, has, dss, fs⟩ := s1
  simp only at h1 h2 h3 h4
  subst h1 h2 h3 h4
  simp only [BiomeScan.writeBiome]
  split_ifs <;> exact ⟨rfl, rfl, rfl, rfl⟩

theorem biomeRun_init (g : MapgenV7) (x z : Int) (st : BiomeState) (B : Biome)
    (f h b yf : Int) (hf0 : 0 ≤ f) (ht : 0 ≤ B.depth_top) (hh : h ≤ g.node_max.Y)
    (hair : st.vm x (g.node_max.Y + 1) z = CONTENT_AIR) :
    BiomeRunInv x z st.vm st.fault B f h b yf g.node_max.Y
      { vm := st.vm, biome := none, dfiller := 0, y0_top := 0, y0_filler := 0
        depth_water_top := 0, nplaced := 0
        have_air := decide (st.vm x (g.node_max.Y + 1) z = CONTENT_AIR)
        desert_stone := st.desert_stone, fault := st.fault } := by
  constructor
  · intro w _; rfl
  · intro w h1 _ h3; omega
  · rfl
  · intro h1; omega
  · intro _
    simp only [hair, decide_True, true_iff]
    omega
  · intro _
    have : ¬ (g.node_max.Y < h ∧ g.node_max.Y ≥ h - B.depth_top - f) := fun hc => by omega
    simp only [this, if_false]

theorem biomeRun_step (g : MapgenV7) (heat hum : Int → ℚ) (x z k : Int) (vm0 : VoxelData)
    (fault0 : Bool) (B : Biome) (f h b d : Int)
    (hB : ∀ w, g.bmgr.getBiome (heat k) (hum k) w = B)
    (hs1 : g.c_stone ≠ CONTENT_AIR) (hs2 : g.c_stone ≠ CONTENT_IGNORE)
    (hw1 : g.c_water_source ≠ CONTENT_AIR)
    (hd : float_to_s16 (f32 ((B.depth_filler : ℚ)
          + g.noise_filler_depth.result k)) = d)
    (ht : 0 ≤ B.depth_top) (hf0 : 0 ≤ f) (hfd : d ≤ f) (hfc : f = d ∨ f = 0)
    (hr : B.depth_top + f ≤ 32767)
    (hbh : b ≤ h)
    (hair : ∀ w, h < w → w ≤ g.node_max.Y + 1 → vm0 x w z = CONTENT_AIR)
    (hst : ∀ w, b ≤ w → w ≤ h → vm0 x w z = g.c_stone)
    (y : Int) (s : BiomeScan) (hy : y ≤ g.node_max.Y)
    (hI : BiomeRunInv x z vm0 fault0 B f h b (s16 (B.depth_top + d)) y s) :
    BiomeRunInv x z vm0 fault0 B f h b (s16 (B.depth_top + d)) (y - 1)
      (g.biomeCell heat hum x z k y s) := by
  have hd1 : -32768 ≤ d := by
    rw [← hd]
    exact (float_to_s16_range (f32 ((B.depth_filler : ℚ) + g.noise_filler_depth.result k))).1
  have hyf : s16 (B.depth_top + d) = B.depth_top + d := s16_of_range _ (by omega) (by omega)
  have hcy : s.vm x y z = vm0 x y z := hI.below y (le_refl _)
  have hother : ∀ w, w ≠ y → (g.biomeCell heat hum x z k y s).vm x w z = s.vm x w z :=
    fun w hw => biomeCell_vm_other g heat hum x z k y s x w z (fun hc => hw hc.2.1)
  by_cases hA : h < y
  · -- a cell of air above the run
    have hc : s.vm x y z = CONTENT_AIR := by rw [hcy]; exact hair y hA (by omega)
    rw [biomeCell_air g heat hum x z k y s hs1 hw1 hc]
    constructor
    · intro w hw; exact hI.below w (by omega)
    · intro w h1 _ h3; omega
    · exact hI.fault
    · intro h1; omega
    · intro _
      simp only [true_iff]
      omega
    · intro _
      have : ¬ (y - 1 < h ∧ y - 1 ≥ h - B.depth_top - f) := fun hc => by omega
      simp only [this, if_false]
  · by_cases hC : y < b
    · -- a cell below the run
      have hv := hI.vars (by omega)
      have hk := biomeCell_keep g heat hum x z k y s B hB (by rw [hd]; exact hv)
      rw [hd] at hk
      constructor
      · intro w hw
        rw [hother w (by omega)]
        exact hI.below w (by omega)
      · intro w h1 h2 h3
        rw [hother w (by omega)]
        exact hI.layered w (by omega) h2 h3
      · rw [hk.2.2.2]; exact hI.fault
      · intro _; exact ⟨hk.1, hk.2.1, hk.2.2.1⟩
      · intro h1; omega
      · intro h1; omega
    · -- a cell of the run
      have hby : b ≤ y := not_lt.mp hC
      have hyh : y ≤ h := not_lt.mp hA
      have hc : s.vm x y z = g.c_stone := by rw [hcy]; exact hst y hby hyh
      have hairI := hI.air hby
      have hplI := hI.placed hby
      have hvar : s.have_air = true ∨ (s.biome = some B ∧ s.y0_top = B.depth_top ∧
          s.y0_filler = s16 (B.depth_top + d)) := by
        by_cases hyh2 : y < h
        · right
          exact hI.vars hyh2
        · left
          exact hairI.2 (by omega)
      have hcell := biomeCell_stone g heat hum x z k y s B hB hs1 hs2 hc
        (by rw [hd]; exact hvar)
      rw [hd] at hcell
      obtain ⟨c1, c2, c3, c4, c5, c6, c7⟩ := hcell
      rw [hyf] at c5 c6 c7
      have hcb : s.vm x (y - 1) z = vm0 x (y - 1) z := hI.below (y - 1) (by omega)
      have hn : s.have_air = true → s.nplaced = h - y := by
        intro ha
        have h1 := hairI.1 ha
        rw [hplI]
        by_cases hyh2 : y < h
        · rw [if_pos ⟨hyh2, h1⟩]
        · rw [if_neg (fun hc => hyh2 hc.1)]; omega
      constructor
      · intro w hw
        rw [hother w (by omega)]
        exact hI.below w (by omega)
      · intro w h1 h2 h3
        by_cases hwy : w = y
        · rw [hwy, c5, setNode_same]
          unfold Biome.runCell Biome.layer
          rw [hcb]
          by_cases hfl : y = b ∧ vm0 x (b - 1) z = CONTENT_AIR
          · rw [if_pos hfl]
            have hb0 : vm0 x (y - 1) z = CONTENT_AIR := by rw [hfl.1]; exact hfl.2
            simp only [hb0, ne_eq, not_true_eq_false, false_and, and_false, if_false]
          · rw [if_neg hfl]
            have hb0 : vm0 x (y - 1) z ≠ CONTENT_AIR := by
              by_cases hyb : y = b
              · rw [hyb]; exact fun hc => hfl ⟨hyb, hc⟩
              · rw [hst (y - 1) (by omega) (by omega)]; exact hs1
            by_cases ha : s.have_air = true
            · have hn1 := hn ha
              simp only [ha, hb0, hn1, ne_eq, not_false_eq_true, true_and]
              by_cases h4 : h - y < B.depth_top
              · simp only [h4, if_true]
              · simp only [h4, if_false]
                by_cases h5 : h - y < B.depth_top + f
                · have : h - y < B.depth_top + d ∧ h - y ≥ B.depth_top := by
                    constructor <;> omega
                  simp only [h5, this, and_self, if_true]
                · have : ¬ (h - y < B.depth_top + d ∧ h - y ≥ B.depth_top) := by
                    intro hc; omega
                  simp only [h5, this, if_false]
            · have h6 : ¬ (y ≥ h - B.depth_top - f) := fun hc => ha (hairI.2 hc)
              have h4 : ¬ (h - y < B.depth_top) := by omega
              have h5 : ¬ (h - y < B.depth_top + f) := by omega
              simp only [ha, Bool.false_eq_true, false_and, if_false, h4, h5]
        · rw [hother w hwy]
          exact hI.layered w (by omega) h2 h3
      · rw [c4]; exact hI.fault
      · intro _; exact ⟨c1, c2, c3⟩
      · intro hb1
        have hb0 : s.vm x (y - 1) z ≠ CONTENT_AIR := by
          rw [hcb, hst (y - 1) (by omega) (by omega)]; exact hs1
        rw [c6, decide_eq_true_iff]
        constructor
        · intro hc
          have hn1 := hn hc.1
          have h1 := hairI.1 hc.1
          rcases hc.2.2 with h4 | h4 <;> omega
        · intro hc
          have ha : s.have_air = true := hairI.2 (by omega)
          have hn1 := hn ha
          refine ⟨ha, hb0, ?_⟩
          rw [hn1]
          rcases hfc with h7 | h7
          · right; omega
          · left; omega
      · intro hb1
        have hb0 : s.vm x (y - 1) z ≠ CONTENT_AIR := by
          rw [hcb, hst (y - 1) (by omega) (by omega)]; exact hs1
        rw [c7]
        by_cases hc : y - 1 < h ∧ y - 1 ≥ h - B.depth_top - f
        · have ha : s.have_air = true := hairI.2 (by omega)
          have hn1 := hn ha
          have hcond : s.have_air = true ∧ s.vm x (y - 1) z ≠ CONTENT_AIR ∧
              (s.nplaced < B.depth_top ∨ s.nplaced < B.depth_top + d) := by
            refine ⟨ha, hb0, ?_⟩
            rw [hn1]
            rcases hfc with h7 | h7
            · right; omega
            · left; omega
          rw [if_pos hcond, if_pos hc, hn1, s16_of_range _ (by omega) (by omega)]
          ring
        · have hcond : ¬ (s.have_air = true ∧ s.vm x (y - 1) z ≠ CONTENT_AIR ∧
              (s.nplaced < B.depth_top ∨ s.nplaced < B.depth_top + d)) := by
            intro hcc
            have hn1 := hn hcc.1
            have h1 := hairI.1 hcc.1
            apply hc
            rcases hcc.2.2 with h4 | h4 <;> constructor <;> omega
          rw [if_neg hcond, if_neg hc]

/-- The column body of `generateBiomes` on a column whose top run of generic
stone is `b .. h` under air, for a lookup that returns `B` at every height:
the cells of the run inside the chunk get the content `runCell`, and no null
`biome` is dereferenced. -/
theorem biomeColumn_run (g : MapgenV7) (heat hum : Int → ℚ) (x z k : Int) (st : BiomeState)
    (B : Biome) (f h b d : Int)
    (hB : ∀ w, g.bmgr.getBiome (heat k) (hum k) w = B)
    (hs1 : g.c_stone ≠ CONTENT_AIR) (hs2 : g.c_stone ≠ CONTENT_IGNORE)
    (hw1 : g.c_water_source ≠ CONTENT_AIR)
    (hd : float_to_s16 (f32 ((B.depth_filler : ℚ)
          + g.noise_filler_depth.result k)) = d)
    (ht : 0 ≤ B.depth_top) (hf0 : 0 ≤ f) (hfd : d ≤ f) (hfc : f = d ∨ f = 0)
    (hr : B.depth_top + f ≤ 32767)
    (hbh : b ≤ h) (hh : g.node_min.Y ≤ h ∧ h ≤ g.node_max.Y)
    (hair : ∀ w, h < w → w ≤ g.node_max.Y + 1 → st.vm x w z = CONTENT_AIR)
    (hst : ∀ w, b ≤ w → w ≤ h → st.vm x w z = g.c_stone) :
    (g.biomeColumn heat hum x z k st).fault = st.fault ∧
    ∀ w, g.node_min.Y ≤ w → b ≤ w → w ≤ h →
      (g.biomeColumn heat hum x z k st).vm x w z = B.runCell f h b (st.vm x (b - 1) z) w := by
  have h0 := biomeRun_init g x z st B f h b (s16 (B.depth_top + d)) hf0 ht hh.2
    (hair (g.node_max.Y + 1) (by omega) (le_refl _))
  have hfin := loopDown_inv (g.biomeCell heat hum x z k)
    (BiomeRunInv x z st.vm st.fault B f h b (s16 (B.depth_top + d)))
    (g.node_max.Y + 1 - g.node_min.Y).toNat g.node_max.Y _ h0
    (fun y t _ hy2 hI => biomeRun_step g heat hum x z k st.vm st.fault B f h b d hB hs1 hs2
      hw1 hd ht hf0 hfd hfc hr hbh hair hst y t hy2 hI)
  have e : g.node_max.Y - ((g.node_max.Y + 1 - g.node_min.Y).toNat : Int) = g.node_min.Y - 1 := by
    omega
  rw [e] at hfin
  constructor
  · exact hfin.fault
  · intro w h1 h2 h3
    exact hfin.layered w (by omega) h2 h3

theorem generateBiomes_some (g : MapgenV7) (heat hum : Int → ℚ) (g1 : MapgenV7) (ds : Bool)
    (hw : g.node_max.Y ≥ g.water_level) (h : g.generateBiomes heat hum = some (g1, ds)) :
    g1.vm = (g.biomeLoop heat hum ({ vm := g.vm, desert_stone := false, fault := false }, 0)).1.vm
      := by
  unfold MapgenV7.generateBiomes at h
  rw [if_neg (not_lt.mpr hw)] at h
  dsimp only at h
  split_ifs at h
  simp only [Option.some.injEq, Prod.mk.injEq] at h
  rw [← h.1]

/-- The pass `generateBiomes` on a chunk column whose top run of generic stone is
`b .. h` under air, for a lookup that returns `B` at every height. -/
theorem generateBiomes_run (g : MapgenV7) (heat hum : Int → ℚ) (x z : Int)
    (B : Biome) (f h b d : Int)
    (hw : g.node_max.Y ≥ g.water_level)
    (hx : g.node_min.X ≤ x ∧ x ≤ g.node_max.X) (hz : g.node_min.Z ≤ z ∧ z ≤ g.node_max.Z)
    (hB : ∀ w, g.bmgr.getBiome (heat (g.columnIndex x z)) (hum (g.columnIndex x z)) w = B)
    (hs1 : g.c_stone ≠ CONTENT_AIR) (hs2 : g.c_stone ≠ CONTENT_IGNORE)
    (hw1 : g.c_water_source ≠ CONTENT_AIR)
    (hd : float_to_s16 (f32 ((B.depth_filler : ℚ)
          + g.noise_filler_depth.result (g.columnIndex x z))) = d)
    (ht : 0 ≤ B.depth_top) (hf0 : 0 ≤ f) (hfd : d ≤ f) (hfc : f = d ∨ f = 0)
    (hr : B.depth_top + f ≤ 32767)
    (hbh : b ≤ h) (hh : g.node_min.Y ≤ h ∧ h ≤ g.node_max.Y)
    (hair : ∀ w, h < w → w ≤ g.node_max.Y + 1 → g.vm x w z = CONTENT_AIR)
    (hst : ∀ w, b ≤ w → w ≤ h → g.vm x w z = g.c_stone) :
    (g.biomeColumn heat hum x z (g.columnIndex x z)
      { vm := g.vm, desert_stone := false, fault := false }).fault = false ∧
    ∀ (g1 : MapgenV7) (ds : Bool), g.generateBiomes heat hum = some (g1, ds) →
      ∀ w, g.node_min.Y ≤ w → b ≤ w → w ≤ h →
        g1.vm x w z = B.runCell f h b (g.vm x (b - 1) z) w := by
  have hc := biomeColumn_run g heat hum x z (g.columnIndex x z)
    { vm := g.vm, desert_stone := false, fault := false } B f h b d hB hs1 hs2 hw1 hd ht hf0
    hfd hfc hr hbh hh hair hst
  refine ⟨hc.1, ?_⟩
  intro g1 ds hgen w h1 h2 h3
  rw [generateBiomes_some g heat hum g1 ds hw hgen, biomeLoop_vm g heat hum _ x w z hx hz]
  exact hc.2 w h1 h2 h3

/-! ## Biome surface layers: no null dereference -/

/-- Two nested loops over `z` and `x` whose body acts on the column `(x, z)`:
a flag that no column body raises, when run on a state that agrees with the
initial state on its column, is not raised by the loops. -/
theorem columnLoops_flag {σ : Type} (proj : σ → VoxelData) (flag : σ → Bool)
    (col : Int → Int → σ → σ)
    (hact : ∀ x z, ActsOn proj (fun a _ c => a = x ∧ c = z) (col x z))
    (xlo xhi zlo zhi : Int) (s0 : σ)
    (H : ∀ x z, xlo ≤ x → x ≤ xhi → zlo ≤ z → z ≤ zhi → ∀ s,
      (∀ y, proj s x y z = proj s0 x y z) → flag s = false → flag (col x z s) = false)
    (h0 : flag s0 = false) :
    flag (forUp zlo zhi (fun z s => forUp xlo xhi (fun x s1 => col x z s1) s) s0) = false := by
  unfold forUp
  have hz := loopUp_inv (fun z s => loopUp (xhi + 1 - xlo).toNat xlo (fun x s1 => col x z s1) s)
    (fun k s => flag s = false ∧ ∀ a b c, c ≥ zlo + (k : Int) → proj s a b c = proj s0 a b c)
    (zhi + 1 - zlo).toNat zlo s0 ⟨h0, fun _ _ _ _ => rfl⟩ ?_
  · exact hz.1
  · intro k s hk hI
    have hx := loopUp_inv (fun x s1 => col x (zlo + (k : Int)) s1)
      (fun j t => flag t = false ∧
        (∀ a b c, c ≥ zlo + (k : Int) + 1 → proj t a b c = proj s0 a b c) ∧
        (∀ a b, a ≥ xlo + (j : Int) → proj t a b (zlo + (k : Int)) = proj s0 a b (zlo + (k : Int))))
      (xhi + 1 - xlo).toNat xlo s
      ⟨hI.1, fun a b c hc => hI.2 a b c (by omega), fun a b _ => hI.2 a b _ (le_refl _)⟩ ?_
    · refine ⟨hx.1, ?_⟩
      intro a b c hc
      exact hx.2.1 a b c (by push_cast at hc; omega)
    · intro j t hj hJ
      refine ⟨?_, ?_, ?_⟩
      · exact H (xlo + (j : Int)) (zlo + (k : Int)) (by omega) (by omega) (by omega) (by omega) t
          (fun y => hJ.2.2 _ y (le_refl _)) hJ.1
      · intro a b c hc
        rw [(hact (xlo + (j : Int)) (zlo + (k : Int))).frame t a b c (fun hh => by omega)]
        exact hJ.2.1 a b c hc
      · intro a b ha
        rw [(hact (xlo + (j : Int)) (zlo + (k : Int))).frame t a b _
          (fun hh => by have := hh.1; push_cast at ha; omega)]
        exact hJ.2.2 a b (by push_cast at ha; omega)

/-- The step of the scan at a cell that is not `IGNORE`, at `node_max.Y` or
with a biome already sampled or air above: no null `biome` is dereferenced, and
afterwards a biome has been sampled or `have_air` is set. -/
theorem biomeCell_noFault (g : MapgenV7) (heat hum : Int → ℚ) (x z k y : Int) (s : BiomeScan)
    (hs1 : g.c_stone ≠ CONTENT_AIR) (hw1 : g.c_water_source ≠ CONTENT_AIR)
    (hc : s.vm x y z ≠ CONTENT_IGNORE)
    (hpre : y = g.node_max.Y ∨ s.biome.isSome = true ∨ s.have_air = true) :
    (g.biomeCell heat hum x z k y s).fault = s.fault ∧
    ((g.biomeCell heat hum x z k y s).biome.isSome = true ∨
      (g.biomeCell heat hum x z k y s).have_air = true) := by
  by_cases ha : s.vm x y z = CONTENT_AIR
  · rw [biomeCell_air g heat hum x z k y s hs1 hw1 ha]
    exact ⟨rfl, Or.inr rfl⟩
  · have hsam : (g.biomeSample heat hum k y (s.vm x y z) s).biome.isSome = true ∧
        (g.biomeSample heat hum k y (s.vm x y z) s).fault = s.fault := by
      unfold MapgenV7.biomeSample
      by_cases hcond : s.vm x y z ≠ CONTENT_IGNORE ∧ s.vm x y z ≠ CONTENT_AIR ∧
          (y = g.node_max.Y ∨ s.have_air = true)
      · rw [if_pos hcond]
        exact ⟨rfl, rfl⟩
      · rw [if_neg hcond]
        refine ⟨?_, rfl⟩
        rcases hpre with h | h | h
        · exact absurd ⟨hc, ha, Or.inl h⟩ hcond
        · exact h
        · exact absurd ⟨hc, ha, Or.inr h⟩ hcond
    unfold MapgenV7.biomeCell
    dsimp only
    generalize g.biomeSample heat hum k y (s.vm x y z) s = s1 at hsam ⊢
    obtain ⟨h1, h2⟩ := hsam
    obtain ⟨vs, bs, dfs, yts, yfs, dws, nps, has, dss, fs⟩ := s1
    simp only at h1 h2
    subst h2
    cases bs with
    | none => exact absurd h1 (by decide)
    | some B1 =>
      simp only [BiomeScan.writeBiome]
      split_ifs <;> exact ⟨rfl, Or.inl rfl⟩

/-- The column body of `generateBiomes` on a column without `IGNORE` between
`node_min.Y` and `node_max.Y` dereferences no null `biome`. -/
theorem biomeColumn_noFault (g : MapgenV7) (heat hum : Int → ℚ) (x z k : Int) (st : BiomeState)
    (hs1 : g.c_stone ≠ CONTENT_AIR) (hw1 : g.c_water_source ≠ CONTENT_AIR)
    (hni : ∀ y, g.node_min.Y ≤ y → y ≤ g.node_max.Y → st.vm x y z ≠ CONTENT_IGNORE) :
    (g.biomeColumn heat hum x z k st).fault = st.fault := by
  have hfin := loopDown_inv (g.biomeCell heat hum x z k)
    (fun y s => s.fault = st.fault ∧ (∀ w, w ≤ y → s.vm x w z = st.vm x w z) ∧
      (y = g.node_max.Y ∨ s.biome.isSome = true ∨ s.have_air = true))
    (g.node_max.Y + 1 - g.node_min.Y).toNat g.node_max.Y
    { vm := st.vm, biome := none, dfiller := 0, y0_top := 0, y0_filler := 0
      depth_water_top := 0, nplaced := 0
      have_air := decide (st.vm x (g.node_max.Y + 1) z = CONTENT_AIR)
      desert_stone := st.desert_stone, fault := st.fault }
    ⟨rfl, fun _ _ => rfl, Or.inl rfl⟩ ?_
  · exact hfin.1
  · intro y s hy1 hy2 hI
    have hcy : s.vm x y z = st.vm x y z := hI.2.1 y (le_refl _)
    have hnf := biomeCell_noFault g heat hum x z k y s hs1 hw1
      (by rw [hcy]; exact hni y (by omega) hy2) hI.2.2
    refine ⟨by rw [hnf.1]; exact hI.1, ?_, Or.inr hnf.2⟩
    intro w hw
    rw [biomeCell_vm_other g heat hum x z k y s x w z (fun hc => by have := hc.2.1; omega)]
    exact hI.2.1 w (by omega)

/-- The pass `generateBiomes` returns when no cell of the chunk holds `IGNORE` and the
stone and water ids are not `AIR`. -/
theorem generateBiomes_returns (g : MapgenV7) (heat hum : Int → ℚ)
    (hs1 : g.c_stone ≠ CONTENT_AIR) (hw1 : g.c_water_source ≠ CONTENT_AIR)
    (hni : ∀ x y z, g.node_min.X ≤ x → x ≤ g.node_max.X → g.node_min.Y ≤ y →
      y ≤ g.node_max.Y → g.node_min.Z ≤ z → z ≤ g.node_max.Z → g.vm x y z ≠ CONTENT_IGNORE) :
    (g.generateBiomes heat hum).isSome = true := by
  unfold MapgenV7.generateBiomes
  by_cases hw : g.node_max.Y < g.water_level
  · rw [if_pos hw]; rfl
  · rw [if_neg hw]
    dsimp only
    have hf : (g.biomeLoop heat hum
        ({ vm := g.vm, desert_stone := false, fault := false }, 0)).1.fault = false := by
      unfold MapgenV7.biomeLoop
      rw [columnLoops_eq (fun x z k s => g.biomeColumn heat hum x z k s)]
      refine columnLoops_flag BiomeState.vm BiomeState.fault
        (fun x z => g.biomeColumn heat hum x z _)
        (fun x z => biomeColumn_actsOn g heat hum x z _) _ _ _ _ _ ?_ rfl
      intro x z hx1 hx2 hz1 hz2 s hag hfl
      rw [biomeColumn_noFault g heat hum x z _ s hs1 hw1
        (fun y hy1 hy2 => by rw [hag y]; exact hni x y z hx1 hx2 hy1 hy2 hz1 hz2)]
      exact hfl
    rw [if_neg (by rw [hf]; decide)]
    rfl

theorem groundProbe_run (nl : NoiseLib) (g : MapgenV7) (px pz : Int) :
    ∀ (n : Nat) (y : Int), -32768 ≤ y → y + n ≤ 32767 →
      y ≤ g.groundProbe nl px pz n y ∧ g.groundProbe nl px pz n y ≤ y + n ∧
      (∀ k, y ≤ k → k < g.groundProbe nl px pz n y →
        g.getMountainTerrainAtPoint nl px k pz = true) ∧
      (g.groundProbe nl px pz n y < y + n →
        g.getMountainTerrainAtPoint nl px (g.groundProbe nl px pz n y) pz = false) := by
  intro n
  induction n with
  | zero =>
    intro y _ _
    simp only [MapgenV7.groundProbe]
    refine ⟨le_refl _, by push_cast; omega, fun k h1 h2 => by omega, fun h => ?_⟩
    push_cast at h; omega
  | succ n ih =>
    intro y hy1 hy2
    push_cast at hy2
    have ihn := ih (y + 1) (by omega) (by omega)
    have e16 : s16 (y + 1) = y + 1 := s16_of_range _ (by omega) (by omega)
    unfold MapgenV7.groundProbe
    by_cases hs : g.getMountainTerrainAtPoint nl px y pz = true
    · simp only [hs, Bool.not_true, Bool.false_eq_true, if_false, e16]
      refine ⟨by omega, by push_cast; omega, fun k h1 h2 => ?_, fun h => ?_⟩
      · by_cases hk : k = y
        · rw [hk]; exact hs
        · exact ihn.2.2.1 k (by omega) h2
      · exact ihn.2.2.2 (by push_cast at h; omega)
    · have hs2 : g.getMountainTerrainAtPoint nl px y pz = false := by simpa using hs
      simp only [hs2, Bool.not_false, if_true]
      exact ⟨le_refl _, by push_cast; omega, fun k h1 h2 => by omega, fun _ => trivial⟩

theorem getGroundLevelAtPoint_mountain (nl : NoiseLib) (g : MapgenV7) (p : v2s16) (y : Int) :
    (g.baseTerrainLevelAtPoint nl p.X p.Y).2.getMountainTerrainAtPoint nl p.X y p.Y
      = g.getMountainTerrainAtPoint nl p.X y p.Y := by
  rw [baseTerrainLevelAtPoint_frame]
  rfl

theorem getGroundLevelAtPoint_fst (nl : NoiseLib) (g : MapgenV7) (p : v2s16) :
    (g.getGroundLevelAtPoint nl p).1 =
      if |f32 (nl.NoisePerlin2D g.noise_ridge_uwater.np p.X p.Y g.seed * 2)|
          ≤ f32 (f64 (2 / 10)) then
        g.water_level - 10
      else (g.baseTerrainLevelAtPoint nl p.X p.Y).2.groundProbe nl p.X p.Y 128
        (float_to_s16 (g.baseTerrainLevelAtPoint nl p.X p.Y).1) := by
  have hfr := baseTerrainLevelAtPoint_frame nl g p.X p.Y
  have e1 : (g.baseTerrainLevelAtPoint nl p.X p.Y).2.noise_ridge_uwater
      = g.noise_ridge_uwater := by rw [hfr]
  have e2 : (g.baseTerrainLevelAtPoint nl p.X p.Y).2.seed = g.seed := by rw [hfr]
  have e3 : (g.baseTerrainLevelAtPoint nl p.X p.Y).2.water_level = g.water_level := by
    rw [hfr]
  unfold MapgenV7.getGroundLevelAtPoint
  dsimp only
  rw [e1, e2, e3]
  split_ifs <;> rfl

theorem tdiv_num_den (q : ℚ) :
    Int.tdiv q.num (q.den : Int) = if 0 ≤ q then ⌊q⌋ else ⌈q⌉ := by
  have hd : (0 : Int) ≤ (q.den : Int) := Int.ofNat_nonneg _
  by_cases hq : 0 ≤ q
  · rw [if_pos hq, Rat.floor_def]
    exact Int.tdiv_eq_ediv (Rat.num_nonneg.mpr hq) hd
  · rw [if_neg hq]
    have hn : 0 ≤ (-q).num := Rat.num_nonneg.mpr (by linarith [not_le.mp hq])
    have h1 : ⌈q⌉ = -⌊-q⌋ := by rw [Int.floor_neg, neg_neg]
    rw [h1, Rat.floor_def, Rat.neg_den, Rat.neg_num]
    rw [Rat.neg_num] at hn
    rw [← Int.tdiv_eq_ediv hn hd, Int.neg_tdiv, neg_neg]

theorem float_to_s16_trunc (q : ℚ) (h1 : -32769 < q) (h2 : q < 32768) :
    float_to_s16 q = if 0 ≤ q then ⌊q⌋ else ⌈q⌉ := by
  have hlo : (-32769 : Int) < (if 0 ≤ q then ⌊q⌋ else ⌈q⌉) := by
    split_ifs with h
    · have : (0 : Int) ≤ ⌊q⌋ := Int.floor_nonneg.mpr h
      omega
    · exact Int.lt_ceil.mpr (by push_cast; exact h1)
  have hhi : (if 0 ≤ q then ⌊q⌋ else ⌈q⌉) < (32768 : Int) := by
    split_ifs with h
    · exact Int.floor_lt.mpr (by push_cast; exact h2)
    · have : ⌈q⌉ ≤ (0 : Int) := Int.ceil_le.mpr (by push_cast; linarith [not_le.mp h])
      omega
  unfold float_to_s16
  dsimp only
  rw [tdiv_num_den]
  rw [if_pos (by omega)]
  apply s16_of_range
  · split_ifs with h
    · have : (0 : Int) ≤ ⌊q⌋ := Int.floor_nonneg.mpr h
      omega
    · have : (-32769 : Int) < ⌈q⌉ := Int.lt_ceil.mpr (by push_cast; exact h1)
      omega
  · split_ifs with h
    · have : ⌊q⌋ < (32768 : Int) := Int.floor_lt.mpr (by push_cast; exact h2)
      omega
    · have : ⌈q⌉ ≤ (0 : Int) := Int.ceil_le.mpr (by push_cast; linarith [not_le.mp h])
      omega

theorem generateCavesNoise_blockseed (g : MapgenV7) (m : Int) :
    (g.generateCavesNoise m).blockseed = g.blockseed := by
  unfold MapgenV7.generateCavesNoise
  split_ifs <;> rfl

theorem ridgeCarves_depth (g : MapgenV7) (j k y : Int)
    (h : g.ridgeCarves j k y = true) : g.water_level - 9 ≤ y := by
  rw [ridgeCarves_iff] at h
  by_contra hlt
  have hy : y - g.water_level ≤ -10 := by omega
  have ha : ((y - g.water_level : Int) : ℚ) ≤ -10 := by exact_mod_cast hy
  obtain ⟨_, hu, hc⟩ := h
  have hA : f32 ((y - g.water_level : Int) : ℚ) ≤ f32 (-10) := f32_mono _ _ ha
  have hA0 : f32 ((y - g.water_level : Int) : ℚ) ≤ 0 :=
    le_trans hA (by decide!)
  have hm : max (f32 ((y - g.water_level : Int) : ℚ)) 0 = 0 := max_eq_right hA0
  rw [hm, mul_zero, f32_zero, zero_div, f64_zero, f32_zero] at hc
  have hd : (0 : ℚ) < f64 (25 / 10) := by decide!
  have hH : f32 (f64 (f32 (f32 ((y - g.water_level : Int) : ℚ) + 17) / f64 (25 / 10)))
      ≤ f32 (f64 (f32 (f32 (-10) + 17) / f64 (25 / 10))) :=
    f32_mono _ _ (f64_mono _ _ (div_le_div_of_nonneg_right
      (f32_mono _ _ (by linarith)) hd.le))
  have hH1 : (0 : ℚ) ≤ f32 (f64 (f32 (f32 (-10) + 17) / f64 (25 / 10))) := by decide!
  have hW0 : 0 ≤ f32 (f32 (f64 (2 / 10)) - |f32 (g.noise_ridge_uwater.result j * 2)|) := by
    have := f32_mono 0 (f32 (f64 (2 / 10)) - |f32 (g.noise_ridge_uwater.result j * 2)|)
      (by linarith)
    rwa [f32_zero] at this
  have hW1 : f32 (f32 (f64 (2 / 10)) - |f32 (g.noise_ridge_uwater.result j * 2)|)
      ≤ f32 (f32 (f64 (2 / 10))) :=
    f32_mono _ _ (by linarith [abs_nonneg (f32 (g.noise_ridge_uwater.result j * 2))])
  have hW2 : (0 : ℚ) ≤ f32 (f32 (f64 (2 / 10))) := by decide!
  have hp : f32 (f32 (f64 (2 / 10)) - |f32 (g.noise_ridge_uwater.result j * 2)|)
      * f32 (f64 (f32 (f32 ((y - g.water_level : Int) : ℚ) + 17) / f64 (25 / 10)))
      ≤ f32 (f32 (f64 (2 / 10))) * f32 (f64 (f32 (f32 (-10) + 17) / f64 (25 / 10))) := by
    rcases le_total 0
      (f32 (f64 (f32 (f32 ((y - g.water_level : Int) : ℚ) + 17) / f64 (25 / 10)))) with h0 | h0
    · exact mul_le_mul hW1 hH h0 hW2
    · exact le_trans (mul_nonpos_of_nonneg_of_nonpos hW0 h0) (mul_nonneg hW2 hH1)
  have hs := f32_mono _ _ (add_le_add_left (f32_mono _ _ hp) 0)
  have hfin : f32 (0 + f32 (f32 (f32 (f64 (2 / 10)))
      * f32 (f64 (f32 (f32 (-10) + 17) / f64 (25 / 10))))) < f64 (6 / 10) := by decide!
  linarith

theorem ridgeCell_snd_ge (g : MapgenV7) (z y x k : Int) (st : VoxelData × (Int → Int))
    (i b : Int) (hb : b ≤ g.water_level - 10) (h : b ≤ st.2 i) :
    b ≤ (g.ridgeCell z y x st k).2 i := by
  unfold MapgenV7.ridgeCell
  dsimp only
  by_cases hr : g.ridgeCarves ((z - g.node_min.Z) * g.csize.X + (x - g.node_min.X)) k y = true
  · rw [if_pos hr]
    have hd := ridgeCarves_depth g _ k y hr
    by_cases hy : y < st.2 ((z - g.node_min.Z) * g.csize.X + (x - g.node_min.X))
    · simp only [if_pos hy]
      by_cases hi : i = (z - g.node_min.Z) * g.csize.X + (x - g.node_min.X)
      · rw [hi, arraySet_same]; omega
      · rw [arraySet_other _ _ _ _ hi]; exact h
    · simp only [if_neg hy]
      exact h
  · rw [if_neg hr]
    exact h

theorem ridgeLoop_snd_ge (g : MapgenV7) (st : (VoxelData × (Int → Int)) × Int) (i b : Int)
    (hb : b ≤ g.water_level - 10) (h : b ≤ st.1.2 i) : b ≤ (g.ridgeLoop st).1.2 i := by
  unfold MapgenV7.ridgeLoop
  refine forUp_preserve (fun p : (VoxelData × (Int → Int)) × Int => b ≤ p.1.2 i) _ ?_
    _ _ st h
  intro z s hs
  refine forUp_preserve (fun p : (VoxelData × (Int → Int)) × Int => b ≤ p.1.2 i) _ ?_
    _ _ s hs
  intro y s1 hs1
  refine forUp_preserve (fun p : (VoxelData × (Int → Int)) × Int => b ≤ p.1.2 i) _ ?_
    _ _ s1 hs1
  intro a s2 hs2
  exact ridgeCell_snd_ge g z y a s2.2 s2.1 i b hb hs2

theorem generateRidgeTerrain_snd_ge (g : MapgenV7) (i : Int) :
    min (g.ridge_heightmap i) (g.water_level - 10) ≤ (g.generateRidgeTerrain).ridge_heightmap i := by
  unfold MapgenV7.generateRidgeTerrain
  by_cases hw : g.node_max.Y < g.water_level
  · rw [if_pos hw]
    exact min_le_left _ _
  · rw [if_neg hw]
    exact ridgeLoop_snd_ge g ((g.vm, g.ridge_heightmap), 0) i _ (min_le_right _ _)
      (min_le_left _ _)

theorem generateRidgeTerrain_writes (g : MapgenV7) (x y z : Int) :
    (g.generateRidgeTerrain).vm x y z =
      if g.ridgeWrites x y z then
        (if y > g.water_level then CONTENT_AIR else g.c_water_source)
      else g.vm x y z := by
  unfold MapgenV7.generateRidgeTerrain MapgenV7.ridgeWrites
  by_cases hw : g.node_max.Y < g.water_level
  · rw [if_pos hw, if_neg (fun hh => absurd hh.1 (not_le.mpr hw))]
  · rw [if_neg hw]
    simp only [ridgeLoop_vm]
    have hw2 : g.node_max.Y ≥ g.water_level := not_lt.mp hw
    simp only [hw2, true_and]

theorem generateTerrain_ridge_heightmap (g : MapgenV7) (i : Int) :
    (g.generateTerrain).1.ridge_heightmap i
      = if g.spflags &&& MGV7_RIDGES ≠ 0 then g.beforeRidge.generateRidgeTerrain.ridge_heightmap i
        else (g.generateBaseTerrain).1.ridge_heightmap i := by
  by_cases hf : g.spflags &&& MGV7_RIDGES ≠ 0
  · rw [if_pos hf, generateTerrain_ridges g hf]
  · rw [if_neg hf]
    have e : g.beforeRidge.spflags = g.spflags := by rw [beforeRidge_frame]
    have hf2 : ¬ g.beforeRidge.spflags &&& MGV7_RIDGES ≠ 0 := by rw [e]; exact hf
    have e2 : g.beforeRidge.ridge_heightmap = (g.generateBaseTerrain).1.ridge_heightmap := by
      rw [beforeRidge_frame]
    rw [← e2]
    unfold MapgenV7.generateTerrain
    unfold MapgenV7.beforeRidge at hf2 ⊢
    dsimp only at hf2 ⊢
    rw [if_neg hf2]

theorem baseTerrainLevelAtPoint_snd (nl : NoiseLib) (g : MapgenV7) (x z : Int) :
    (g.baseTerrainLevelAtPoint nl x z).2
      = g.withPersist (nl.NoisePerlin2D g.noise_terrain_persist.np x z g.seed)
          (nl.NoisePerlin2D g.noise_terrain_persist.np x z g.seed) := by
  unfold MapgenV7.baseTerrainLevelAtPoint MapgenV7.withPersist
  dsimp only
  split_ifs <;> rfl

theorem baseTerrainLevelAtPoint_withPersist (nl : NoiseLib) (g : MapgenV7) (x z : Int)
    (a b : ℚ) :
    (g.withPersist a b).baseTerrainLevelAtPoint nl x z = g.baseTerrainLevelAtPoint nl x z := by
  unfold MapgenV7.baseTerrainLevelAtPoint MapgenV7.withPersist
  rfl

theorem getGroundLevelAtPoint_withPersist (nl : NoiseLib) (g : MapgenV7) (p : v2s16)
    (a b : ℚ) :
    (g.withPersist a b).getGroundLevelAtPoint nl p = g.getGroundLevelAtPoint nl p := by
  unfold MapgenV7.getGroundLevelAtPoint
  rw [baseTerrainLevelAtPoint_withPersist]

theorem getBiomeAtPoint_withPersist (nl : NoiseLib) (g : MapgenV7) (p : v3s16)
    (a b : ℚ) :
    (g.withPersist a b).getBiomeAtPoint nl p = g.getBiomeAtPoint nl p := by
  unfold MapgenV7.getBiomeAtPoint
  rw [baseTerrainLevelAtPoint_withPersist]
  rfl

/-! ## Projection of a loop on one component of its state -/

theorem loopUp_proj {σ τ : Type} (e : σ → τ) (body : Int → σ → σ) (F : Int → τ → τ)
    (h : ∀ i s, e (body i s) = F i (e s)) :
    ∀ (n : Nat) (lo : Int) (s : σ), e (loopUp n lo body s) = loopUp n lo F (e s) := by
  intro n
  induction n with
  | zero => intro lo s; rfl
  | succ n ih =>
    intro lo s
    rw [loopUp_succ, loopUp_succ, ih, h]

theorem forUp_proj {σ τ : Type} (e : σ → τ) (body : Int → σ → σ) (F : Int → τ → τ)
    (h : ∀ i s, e (body i s) = F i (e s)) (lo hi : Int) (s : σ) :
    e (forUp lo hi body s) = forUp lo hi F (e s) :=
  loopUp_proj e body F h _ lo s

theorem loopUp_single {σ : Type} (body : Int → σ → σ) (i0 : Int) :
    ∀ (n : Nat) (lo : Int) (s : σ),
      (∀ i t, lo ≤ i → i < lo + n → i ≠ i0 → body i t = t) →
      loopUp n lo body s = if lo ≤ i0 ∧ i0 < lo + n then body i0 s else s := by
  intro n
  induction n with
  | zero =>
    intro lo s _
    rw [if_neg (by push_cast; omega)]
    rfl
  | succ n ih =>
    intro lo s h
    rw [loopUp_succ, ih (lo + 1) _ (fun i t h1 h2 h3 => h i t (by omega)
      (by push_cast; omega) h3)]
    by_cases h0 : lo = i0
    · rw [if_neg (by omega), if_pos (by push_cast; omega), h0]
    · rw [h lo s (le_refl _) (by push_cast; omega) h0]
      by_cases hr : lo + 1 ≤ i0 ∧ i0 < lo + 1 + n
      · rw [if_pos hr, if_pos (by push_cast; omega)]
      · rw [if_neg hr, if_neg (by push_cast; omega)]

theorem forUp_single {σ : Type} (body : Int → σ → σ) (i0 lo hi : Int) (s : σ)
    (h : ∀ i t, lo ≤ i → i ≤ hi → i ≠ i0 → body i t = t) :
    forUp lo hi body s = if lo ≤ i0 ∧ i0 ≤ hi then body i0 s else s := by
  unfold forUp
  rw [loopUp_single body i0 _ lo s (fun i t h1 h2 h3 => h i t h1 (by omega) h3)]
  by_cases hr : lo ≤ i0 ∧ i0 ≤ hi
  · rw [if_pos hr, if_pos (by omega)]
  · rw [if_neg hr, if_neg (by omega)]

/-! ## The entry of `ridge_heightmap` for one column -/

theorem ridgeCell_snd (g : MapgenV7) (z y x : Int) (st : VoxelData × (Int → Int)) (k : Int) :
    (g.ridgeCell z y x st k).2 =
      if g.ridgeCarves (g.columnIndexC x z) k y = true then
        (if y < st.2 (g.columnIndexC x z) then arraySet st.2 (g.columnIndexC x z) (y - 1)
          else st.2)
      else st.2 := by
  unfold MapgenV7.ridgeCell MapgenV7.columnIndexC
  dsimp only
  by_cases hr : g.ridgeCarves ((z - g.node_min.Z) * g.csize.X + (x - g.node_min.X)) k y = true
  · rw [if_pos hr, if_pos hr]
  · rw [if_neg hr, if_neg hr]

theorem ridgeCell_entry (g : MapgenV7) (z y x k : Int) (st : VoxelData × (Int → Int))
    (j : Int) :
    (g.ridgeCell z y x st k).2 j =
      if g.columnIndexC x z = j ∧ g.ridgeCarves j k y = true then ridgeLower y (st.2 j)
      else st.2 j := by
  rw [ridgeCell_snd]
  unfold ridgeLower
  by_cases hj : g.columnIndexC x z = j
  · rw [hj]
    by_cases hr : g.ridgeCarves j k y = true
    · have hc : j = j ∧ g.ridgeCarves j k y = true := ⟨rfl, hr⟩
      rw [if_pos hr, if_pos hc]
      by_cases hy : y < st.2 j
      · rw [if_pos hy, if_pos hy, arraySet_same]
      · rw [if_neg hy, if_neg hy]
    · have hn : ¬ (j = j ∧ g.ridgeCarves j k y = true) := fun h => hr h.2
      rw [if_neg hr, if_neg hn]
  · have hn : ¬ (g.columnIndexC x z = j ∧ g.ridgeCarves j k y = true) := fun h => hj h.1
    rw [if_neg hn]
    by_cases hr : g.ridgeCarves (g.columnIndexC x z) k y = true
    · rw [if_pos hr]
      by_cases hy : y < st.2 (g.columnIndexC x z)
      · rw [if_pos hy, arraySet_other _ _ _ _ (fun h => hj h.symm)]
      · rw [if_neg hy]
    · rw [if_neg hr]

theorem columnIndexC_inj (g : MapgenV7) (hc : g.csize.X = g.rowLen) (x z x0 z0 : Int)
    (hx : g.node_min.X ≤ x ∧ x ≤ g.node_max.X) (hx0 : g.node_min.X ≤ x0 ∧ x0 ≤ g.node_max.X) :
    g.columnIndexC x z = g.columnIndexC x0 z0 ↔ x = x0 ∧ z = z0 := by
  unfold MapgenV7.columnIndexC
  rw [hc]
  unfold MapgenV7.rowLen
  have hL : ((g.node_max.X + 1 - g.node_min.X).toNat : Int) = g.node_max.X + 1 - g.node_min.X := by
    omega
  rw [hL]
  constructor
  · intro h
    have hz : z = z0 := by
      by_contra hne
      rcases lt_or_gt_of_ne hne with hlt | hgt
      · have h1 : (z0 - z) * (g.node_max.X + 1 - g.node_min.X)
            ≥ 1 * (g.node_max.X + 1 - g.node_min.X) :=
          mul_le_mul_of_nonneg_right (by omega) (by omega)
        nlinarith
      · have h1 : (z - z0) * (g.node_max.X + 1 - g.node_min.X)
            ≥ 1 * (g.node_max.X + 1 - g.node_min.X) :=
          mul_le_mul_of_nonneg_right (by omega) (by omega)
        nlinarith
    subst hz
    exact ⟨by omega, rfl⟩
  · rintro ⟨rfl, rfl⟩
    rfl

theorem ridgeLoop_entry (g : MapgenV7) (hc : g.csize.X = g.rowLen)
    (st : VoxelData × (Int → Int)) (x0 z0 : Int)
    (hx0 : g.node_min.X ≤ x0 ∧ x0 ≤ g.node_max.X)
    (hz0 : g.node_min.Z ≤ z0 ∧ z0 ≤ g.node_max.Z) :
    (g.ridgeLoop (st, 0)).1.2 (g.columnIndexC x0 z0)
      = forUp (g.node_min.Y - 1) (g.node_max.Y + 1) (fun y r =>
          if g.ridgeCarves (g.columnIndexC x0 z0) (g.cellIndex x0 y z0) y = true then
            ridgeLower y r else r) (st.2 (g.columnIndexC x0 z0)) := by
  unfold MapgenV7.ridgeLoop
  rw [cellLoops_eq (fun z y x s k => g.ridgeCell z y x s k)]
  have hidx : ∀ x y z, (0 : Int)
      + (z - g.node_min.Z) * ((((g.node_max.Y + 1) + 1 - (g.node_min.Y - 1)).toNat : Int)
        * ((g.node_max.X + 1 - g.node_min.X).toNat : Int))
      + (y - (g.node_min.Y - 1)) * ((g.node_max.X + 1 - g.node_min.X).toNat : Int)
      + (x - g.node_min.X) = g.cellIndex x y z := by
    intro x y z
    simp [MapgenV7.cellIndex, MapgenV7.rowLen, MapgenV7.slabRows]
  simp only [hidx]
  -- the row loop
  have hrow : ∀ z y (s : VoxelData × (Int → Int)),
      (forUp g.node_min.X g.node_max.X (fun x s2 => g.ridgeCell z y x s2 (g.cellIndex x y z))
        s).2 (g.columnIndexC x0 z0)
      = if z = z0 ∧ g.ridgeCarves (g.columnIndexC x0 z0) (g.cellIndex x0 y z0) y = true then
          ridgeLower y (s.2 (g.columnIndexC x0 z0)) else s.2 (g.columnIndexC x0 z0) := by
    intro z y s
    rw [forUp_proj (fun s : VoxelData × (Int → Int) => s.2 (g.columnIndexC x0 z0))
      (fun x s2 => g.ridgeCell z y x s2 (g.cellIndex x y z))
      (fun x r => if g.columnIndexC x z = g.columnIndexC x0 z0 ∧
          g.ridgeCarves (g.columnIndexC x0 z0) (g.cellIndex x y z) y = true then
        ridgeLower y r else r)
      (fun x s2 => ridgeCell_entry g z y x _ s2 _)]
    rw [forUp_single _ x0 _ _ _ (fun i t h1 h2 h3 => by
      have hn : ¬ (g.columnIndexC i z = g.columnIndexC x0 z0 ∧
          g.ridgeCarves (g.columnIndexC x0 z0) (g.cellIndex i y z) y = true) := fun h =>
        h3 ((columnIndexC_inj g hc i z x0 z0 ⟨h1, h2⟩ hx0).1 h.1).1
      simp only [if_neg hn])]
    rw [if_pos hx0]
    by_cases hz : z = z0
    · subst hz
      simp only [true_and]
    · have hn : ¬ (g.columnIndexC x0 z = g.columnIndexC x0 z0 ∧
          g.ridgeCarves (g.columnIndexC x0 z0) (g.cellIndex x0 y z) y = true) := fun h =>
        hz ((columnIndexC_inj g hc x0 z x0 z0 hx0 hx0).1 h.1).2
      rw [if_neg hn, if_neg (fun h => hz h.1)]
  -- the slab loop
  have hslab : ∀ z (s : VoxelData × (Int → Int)),
      (forUp (g.node_min.Y - 1) (g.node_max.Y + 1) (fun y s1 =>
        forUp g.node_min.X g.node_max.X
          (fun x s2 => g.ridgeCell z y x s2 (g.cellIndex x y z)) s1) s).2 (g.columnIndexC x0 z0)
      = forUp (g.node_min.Y - 1) (g.node_max.Y + 1) (fun y r =>
          if z = z0 ∧ g.ridgeCarves (g.columnIndexC x0 z0) (g.cellIndex x0 y z0) y = true then
            ridgeLower y r else r) (s.2 (g.columnIndexC x0 z0)) := by
    intro z s
    exact forUp_proj (fun s : VoxelData × (Int → Int) => s.2 (g.columnIndexC x0 z0)) _ _
      (fun y s1 => hrow z y s1) _ _ s
  rw [forUp_proj (fun s : VoxelData × (Int → Int) => s.2 (g.columnIndexC x0 z0)) _ _
    (fun z s => hslab z s)]
  rw [forUp_single _ z0 _ _ _ (fun i t h1 h2 h3 => by
    refine forUp_preserve (fun r => r = t) _ (fun y r hr => ?_) _ _ t rfl
    show (if i = z0 ∧ g.ridgeCarves (g.columnIndexC x0 z0) (g.cellIndex x0 y z0) y = true
      then ridgeLower y r else r) = t
    rw [if_neg (fun h => h3 h.1), hr])]
  rw [if_pos hz0]
  simp only [true_and]

theorem ridgeLower_stable (c : Int → Bool) :
    ∀ (n : Nat) (lo r : Int), r ≤ lo →
      loopUp n lo (fun y r => if c y = true then ridgeLower y r else r) r = r := by
  intro n
  induction n with
  | zero => intro lo r _; rfl
  | succ n ih =>
    intro lo r h
    rw [loopUp_succ]
    have e : (if c lo = true then ridgeLower lo r else r) = r := by
      unfold ridgeLower
      split_ifs
      · omega
      · rfl
      · rfl
    rw [e]
    exact ih (lo + 1) r (by omega)

theorem ridgeLower_loop (c : Int → Bool) (s : Int) :
    ∀ (n : Nat) (lo : Int),
      ((∀ y, lo ≤ y → y < lo + n → c y = false) →
        loopUp n lo (fun y r => if c y = true then ridgeLower y r else r) s = s) ∧
      (∀ yl, lo ≤ yl → yl < lo + n → c yl = true → (∀ y, lo ≤ y → y < yl → c y = false) →
        loopUp n lo (fun y r => if c y = true then ridgeLower y r else r) s
          = if yl < s then yl - 1 else s) := by
  intro n
  induction n with
  | zero =>
    intro lo
    refine ⟨fun _ => rfl, fun yl h1 h2 => ?_⟩
    push_cast at h2; omega
  | succ n ih =>
    intro lo
    have ihn := ih (lo + 1)
    constructor
    · intro hall
      rw [loopUp_succ]
      have h0 := hall lo (le_refl _) (by push_cast; omega)
      simp only [h0, Bool.false_eq_true, if_false]
      exact ihn.1 (fun y h1 h2 => hall y (by omega) (by push_cast; omega))
    · intro yl h1 h2 hyl hbelow
      rw [loopUp_succ]
      by_cases h0 : yl = lo
      · subst h0
        simp only [hyl, if_true]
        rw [ridgeLower_stable c n (yl + 1) (ridgeLower yl s) (by
          unfold ridgeLower; split_ifs <;> omega)]
        rfl
      · have hc0 := hbelow lo (le_refl _) (by omega)
        simp only [hc0, Bool.false_eq_true, if_false]
        exact ihn.2 yl (by omega) (by push_cast at h2; omega) hyl
          (fun y h3 h4 => hbelow y (by omega) h4)

theorem generateRidgeTerrain_entry (g : MapgenV7) (hc : g.csize.X = g.rowLen) (x z : Int)
    (hx : g.node_min.X ≤ x ∧ x ≤ g.node_max.X) (hz : g.node_min.Z ≤ z ∧ z ≤ g.node_max.Z) :
    ((∀ y, ¬ g.ridgeWrites x y z) →
      (g.generateRidgeTerrain).ridge_heightmap (g.columnIndexC x z)
        = g.ridge_heightmap (g.columnIndexC x z)) ∧
    (∀ yl, g.ridgeWrites x yl z → (∀ y, y < yl → ¬ g.ridgeWrites x y z) →
      (g.generateRidgeTerrain).ridge_heightmap (g.columnIndexC x z)
        = if yl < g.ridge_heightmap (g.columnIndexC x z) then yl - 1
          else g.ridge_heightmap (g.columnIndexC x z)) := by
  unfold MapgenV7.generateRidgeTerrain
  by_cases hw : g.node_max.Y < g.water_level
  · rw [if_pos hw]
    refine ⟨fun _ => rfl, fun yl hyl _ => ?_⟩
    exact absurd hyl.1 (not_le.mpr hw)
  · rw [if_neg hw]
    have hw2 : g.node_max.Y ≥ g.water_level := not_lt.mp hw
    show ((∀ y, ¬ g.ridgeWrites x y z) →
      (g.ridgeLoop ((g.vm, g.ridge_heightmap), 0)).1.2 (g.columnIndexC x z)
        = g.ridge_heightmap (g.columnIndexC x z)) ∧
      (∀ yl, g.ridgeWrites x yl z → (∀ y, y < yl → ¬ g.ridgeWrites x y z) →
        (g.ridgeLoop ((g.vm, g.ridge_heightmap), 0)).1.2 (g.columnIndexC x z)
          = if yl < g.ridge_heightmap (g.columnIndexC x z) then yl - 1
            else g.ridge_heightmap (g.columnIndexC x z))
    rw [ridgeLoop_entry g hc (g.vm, g.ridge_heightmap) x z hx hz]
    have hl := ridgeLower_loop
      (fun y => g.ridgeCarves (g.columnIndexC x z) (g.cellIndex x y z) y)
      (g.ridge_heightmap (g.columnIndexC x z))
      ((g.node_max.Y + 1) + 1 - (g.node_min.Y - 1)).toNat (g.node_min.Y - 1)
    have hwr : ∀ y, g.node_min.Y - 1 ≤ y → y ≤ g.node_max.Y + 1 → ¬ g.ridgeWrites x y z →
        g.ridgeCarves (g.columnIndexC x z) (g.cellIndex x y z) y = false := by
      intro y h1 h2 hn
      cases hcv : g.ridgeCarves (g.columnIndexC x z) (g.cellIndex x y z) y
      · rfl
      · exact absurd ⟨hw2, ⟨hx.1, hx.2, h1, h2, hz.1, hz.2⟩, hcv⟩ hn
    constructor
    · intro hall
      exact hl.1 (fun y h1 h2 => hwr y h1 (by omega) (hall y))
    · intro yl hyl hbelow
      have hin := hyl.2.1
      exact hl.2 yl hin.2.2.1 (by have := hin.2.2.2.1; omega) hyl.2.2
        (fun y h1 h2 => hwr y h1 (by have := hin.2.2.2.1; omega) (hbelow y h2))

theorem beforeRidge_rowLen (g : MapgenV7) :
    g.beforeRidge.csize = g.csize ∧ g.beforeRidge.rowLen = g.rowLen ∧
    (∀ x z, g.beforeRidge.columnIndexC x z = g.columnIndexC x z) := by
  have e1 : g.beforeRidge.csize = g.csize := by rw [beforeRidge_frame]
  have e2 : g.beforeRidge.node_min = g.node_min := by rw [beforeRidge_frame]
  have e3 : g.beforeRidge.node_max = g.node_max := by rw [beforeRidge_frame]
  refine ⟨e1, ?_, fun x z => ?_⟩
  · unfold MapgenV7.rowLen; rw [e2, e3]
  · unfold MapgenV7.columnIndexC; rw [e1, e2]

theorem dustScan_above (vm : VoxelData) (x z : Int) :
    ∀ (n : Nat) (y : Int), dustScan vm x z n y ≤ y ∧
      (∀ k, dustScan vm x z n y < k → k ≤ y → vm x k z = CONTENT_AIR) := by
  intro n
  induction n with
  | zero =>
    intro y
    exact ⟨le_refl _, fun k h1 h2 => by simp only [dustScan] at h1; omega⟩
  | succ n ih =>
    intro y
    unfold dustScan
    by_cases hy : vm x y z ≠ CONTENT_AIR
    · rw [if_pos hy]
      exact ⟨le_refl _, fun k h1 h2 => by omega⟩
    · rw [if_neg hy]
      have ha : vm x y z = CONTENT_AIR := not_not.mp hy
      have := ih (y - 1)
      refine ⟨by omega, fun k h1 h2 => ?_⟩
      by_cases hk : k = y
      · rw [hk]; exact ha
      · exact this.2 k h1 (by omega)

/-- A cell that the tail of the column body of `dustTopNodes` changes is the
cell one above the end of the scan; it held `AIR`, it ends holding the dust
block, and the cell below it passes the three tests. -/
theorem dustFrom_change (g : MapgenV7) (x z : Int) (B : Biome) (vm : VoxelData) (ys : Int)
    (hair : vm x (ys + 1) z = CONTENT_AIR) :
    ∃ p, ∀ a b c, g.dustFrom x z B vm ys a b c ≠ vm a b c →
      (a = x ∧ b = p ∧ c = z) ∧ vm x p z = CONTENT_AIR ∧
      g.dustFrom x z B vm ys x p z = B.c_dust ∧ vm x (p - 1) z ≠ CONTENT_IGNORE ∧
      g.ndef.buildable_to (vm x (p - 1) z) = false ∧ vm x (p - 1) z ≠ B.c_dust := by
  refine ⟨dustScan vm x z (ys + 1 - (g.node_min.Y - 1)).toNat ys + 1, ?_⟩
  intro a b c hne
  have hs := dustScan_above vm x z (ys + 1 - (g.node_min.Y - 1)).toNat ys
  unfold MapgenV7.dustFrom at hne ⊢
  generalize dustScan vm x z (ys + 1 - (g.node_min.Y - 1)).toNat ys = yv at hs hne ⊢
  by_cases hcnd : g.ndef.buildable_to (vm x yv z) = false ∧ vm x yv z ≠ CONTENT_IGNORE ∧
      vm x yv z ≠ B.c_dust
  · rw [if_pos hcnd] at hne ⊢
    have hpos : a = x ∧ b = yv + 1 ∧ c = z := by
      by_contra hn
      exact hne (setNode_other vm x (yv + 1) z B.c_dust a b c hn)
    have hA : vm x (yv + 1) z = CONTENT_AIR := by
      by_cases he : yv = ys
      · rw [he]; exact hair
      · exact hs.2 (yv + 1) (by omega) (by have := hs.1; omega)
    have e : yv + 1 - 1 = yv := by omega
    rw [e]
    exact ⟨hpos, hA, setNode_same _ _ _ _ _, hcnd.2.1, hcnd.1, hcnd.2.2⟩
  · rw [if_neg hcnd] at hne
    exact absurd rfl hne

theorem dustColumn_change (g : MapgenV7) (x z k : Int) (vm : VoxelData) :
    ∃ p, ∀ a b c, g.dustColumn x z k vm a b c ≠ vm a b c →
      (a = x ∧ b = p ∧ c = z) ∧ vm x p z = CONTENT_AIR ∧
      g.dustColumn x z k vm x p z = (g.bmgr.get (g.biomemap k)).c_dust ∧
      vm x (p - 1) z ≠ CONTENT_IGNORE ∧
      g.ndef.buildable_to (vm x (p - 1) z) = false ∧
      vm x (p - 1) z ≠ (g.bmgr.get (g.biomemap k)).c_dust := by
  unfold MapgenV7.dustColumn
  dsimp only
  by_cases hd : (g.bmgr.get (g.biomemap k)).c_dust = CONTENT_IGNORE
  · simp only [if_pos hd]
    exact ⟨0, fun a b c hne => absurd rfl hne⟩
  · simp only [if_neg hd]
    by_cases h1 : vm x g.full_node_max.Y z = CONTENT_AIR
    · simp only [if_pos h1]
      exact dustFrom_change g x z _ vm (g.full_node_max.Y - 1) (by
        have e : g.full_node_max.Y - 1 + 1 = g.full_node_max.Y := by omega
        rw [e]; exact h1)
    · simp only [if_neg h1]
      by_cases h2 : vm x g.full_node_max.Y z = CONTENT_IGNORE
      · simp only [if_pos h2]
        by_cases h3 : vm x (g.node_max.Y + 1) z = CONTENT_AIR
        · simp only [if_pos h3]
          exact dustFrom_change g x z _ vm g.node_max.Y h3
        · simp only [if_neg h3]
          exact ⟨0, fun a b c hne => absurd rfl hne⟩
      · simp only [if_neg h2]
        exact ⟨0, fun a b c hne => absurd rfl hne⟩

theorem dustColumn_skip (g : MapgenV7) (x z k : Int) (vm : VoxelData)
    (h : (vm x g.full_node_max.Y z ≠ CONTENT_AIR ∧ vm x g.full_node_max.Y z ≠ CONTENT_IGNORE) ∨
      (vm x g.full_node_max.Y z = CONTENT_IGNORE ∧ vm x (g.node_max.Y + 1) z ≠ CONTENT_AIR)) :
    g.dustColumn x z k vm = vm := by
  have hai : CONTENT_IGNORE ≠ CONTENT_AIR := by decide
  unfold MapgenV7.dustColumn
  dsimp only
  by_cases hd : (g.bmgr.get (g.biomemap k)).c_dust = CONTENT_IGNORE
  · rw [if_pos hd]
  · rw [if_neg hd]
    rcases h with ⟨h1, h2⟩ | ⟨h1, h2⟩
    · rw [if_neg h1, if_neg h2]
    · rw [if_neg (by rw [h1]; exact hai), if_pos h1, if_neg h2]

theorem dustLoop_out (g : MapgenV7) (vm : VoxelData) (x y z : Int)
    (h : ¬ (g.node_min.X ≤ x ∧ x ≤ g.node_max.X ∧ g.node_min.Z ≤ z ∧ z ≤ g.node_max.Z)) :
    (g.dustLoop (vm, 0)).1 x y z = vm x y z := by
  unfold MapgenV7.dustLoop
  rw [columnLoops_eq (fun x z k s => g.dustColumn x z k s)]
  have h0 := columnLoops_cell (fun v : VoxelData => v)
    (fun x z => g.dustColumn x z
      ((vm, (0 : Int)).2 + (z - g.node_min.Z) * ((g.node_max.X + 1 - g.node_min.X).toNat : Int)
        + (x - g.node_min.X)))
    (fun x z => dustColumn_actsOn g x z _) g.node_min.X g.node_max.X g.node_min.Z g.node_max.Z
    vm x y z
  exact h0.2 h

/-- What `dustTopNodes` leaves in a cell: the result of the column body on the
buffer the pass started from, for a column of the chunk when the pass is not
skipped; the content it had, otherwise. -/
theorem dustTopNodes_vm (g : MapgenV7) (x y z : Int) :
    (g.dustTopNodes).vm x y z =
      if g.node_max.Y ≥ g.water_level ∧
          (g.node_min.X ≤ x ∧ x ≤ g.node_max.X ∧ g.node_min.Z ≤ z ∧ z ≤ g.node_max.Z) then
        g.dustColumn x z (g.columnIndex x z) g.vm x y z
      else g.vm x y z := by
  unfold MapgenV7.dustTopNodes
  by_cases hw : g.node_max.Y < g.water_level
  · rw [if_pos hw, if_neg (fun h => absurd h.1 (not_le.mpr hw))]
  · rw [if_neg hw]
    show (g.dustLoop (g.vm, 0)).1 x y z = _
    by_cases hc : g.node_min.X ≤ x ∧ x ≤ g.node_max.X ∧ g.node_min.Z ≤ z ∧ z ≤ g.node_max.Z
    · rw [if_pos ⟨not_lt.mp hw, hc⟩, dustLoop_vm g g.vm x y z ⟨hc.1, hc.2.1⟩ hc.2.2]
    · rw [if_neg (fun h => hc h.2), dustLoop_out g g.vm x y z hc]

theorem biomeColumn_scanAfter (g : MapgenV7) (heat hum : Int → ℚ) (x z k : Int)
    (st : BiomeState) :
    g.biomeColumn heat hum x z k st =
      { vm := (g.biomeScanAfter heat hum x z k st (g.node_max.Y + 1 - g.node_min.Y).toNat).vm
        desert_stone :=
          (g.biomeScanAfter heat hum x z k st
            (g.node_max.Y + 1 - g.node_min.Y).toNat).desert_stone
        fault :=
          (g.biomeScanAfter heat hum x z k st (g.node_max.Y + 1 - g.node_min.Y).toNat).fault } :=
  rfl

theorem biomeScanAfter_noFault (g : MapgenV7) (heat hum : Int → ℚ) (x z k : Int)
    (st : BiomeState)
    (hs1 : g.c_stone ≠ CONTENT_AIR) (hw1 : g.c_water_source ≠ CONTENT_AIR)
    (hni : ∀ y, g.node_min.Y ≤ y → y ≤ g.node_max.Y → st.vm x y z ≠ CONTENT_IGNORE)
    (n : Nat) (hn : (n : Int) ≤ g.node_max.Y + 1 - g.node_min.Y) :
    (g.biomeScanAfter heat hum x z k st n).fault = st.fault ∧
    (1 ≤ n → (g.biomeScanAfter heat hum x z k st n).biome.isSome = true ∨
      (g.biomeScanAfter heat hum x z k st n).have_air = true) := by
  have hfin := loopDown_inv (g.biomeCell heat hum x z k)
    (fun y s => s.fault = st.fault ∧ (∀ w, w ≤ y → s.vm x w z = st.vm x w z) ∧
      (y = g.node_max.Y ∨ s.biome.isSome = true ∨ s.have_air = true))
    n g.node_max.Y
    { vm := st.vm, biome := none, dfiller := 0, y0_top := 0, y0_filler := 0
      depth_water_top := 0, nplaced := 0
      have_air := decide (st.vm x (g.node_max.Y + 1) z = CONTENT_AIR)
      desert_stone := st.desert_stone, fault := st.fault }
    ⟨rfl, fun _ _ => rfl, Or.inl rfl⟩ ?_
  · refine ⟨hfin.1, fun h1 => ?_⟩
    rcases hfin.2.2 with h | h
    · omega
    · exact h
  · intro y s hy1 hy2 hI
    have hcy : s.vm x y z = st.vm x y z := hI.2.1 y (le_refl _)
    have hnf := biomeCell_noFault g heat hum x z k y s hs1 hw1
      (by rw [hcy]; exact hni y (by omega) hy2) hI.2.2
    refine ⟨by rw [hnf.1]; exact hI.1, ?_, Or.inr hnf.2⟩
    intro w hw
    rw [biomeCell_vm_other g heat hum x z k y s x w z (fun hc => by have := hc.2.1; omega)]
    exact hI.2.1 w (by omega)

theorem generateBaseTerrain_noIgnore (g : MapgenV7)
    (hs2 : g.c_stone ≠ CONTENT_IGNORE) (hw2 : g.c_water_source ≠ CONTENT_IGNORE)
    (x y z : Int) (hin : g.inChunk x y z) :
    (g.generateBaseTerrain).1.vm x y z ≠ CONTENT_IGNORE := by
  have hai : CONTENT_AIR ≠ CONTENT_IGNORE := by decide
  unfold MapgenV7.generateBaseTerrain
  dsimp only
  rw [baseLoop_vm]
  split_ifs with h1 h2 h3
  · exact hs2
  · exact hw2
  · exact hai
  · exact fun hc => h1 ⟨hin, hc⟩

theorem generateMountainTerrain_noIgnore (g : MapgenV7) (ymax : Int)
    (hs2 : g.c_stone ≠ CONTENT_IGNORE) (x y z : Int) (h : g.vm x y z ≠ CONTENT_IGNORE) :
    (g.generateMountainTerrain ymax).1.vm x y z ≠ CONTENT_IGNORE := by
  by_cases hw : g.node_max.Y < 0
  · rw [generateMountainTerrain_skip g ymax hw]
    exact h
  · rw [generateMountainTerrain_vm g ymax hw, mountainLoop_vm]
    split_ifs
    · exact hs2
    · exact h

theorem generateRidgeTerrain_noIgnore (g : MapgenV7)
    (hw2 : g.c_water_source ≠ CONTENT_IGNORE) (x y z : Int) (h : g.vm x y z ≠ CONTENT_IGNORE) :
    (g.generateRidgeTerrain).vm x y z ≠ CONTENT_IGNORE := by
  have hai : CONTENT_AIR ≠ CONTENT_IGNORE := by decide
  rw [generateRidgeTerrain_writes]
  split_ifs
  · exact hai
  · exact hw2
  · exact h

/-- After `generateTerrain` no cell that the loops visit holds `IGNORE`, when
the stone and water ids are not `IGNORE`. -/
theorem generateTerrain_noIgnore (g : MapgenV7)
    (hs2 : g.c_stone ≠ CONTENT_IGNORE) (hw2 : g.c_water_source ≠ CONTENT_IGNORE)
    (x y z : Int) (hin : g.inChunk x y z) :
    (g.generateTerrain).1.vm x y z ≠ CONTENT_IGNORE := by
  have hb := generateBaseTerrain_noIgnore g hs2 hw2 x y z hin
  have hbr : g.beforeRidge.vm x y z ≠ CONTENT_IGNORE := by
    unfold MapgenV7.beforeRidge
    dsimp only
    split_ifs
    · exact generateMountainTerrain_noIgnore (g.generateBaseTerrain).1 _ hs2 x y z hb
    · exact hb
  have e1 : g.beforeRidge.c_water_source = g.c_water_source := by rw [beforeRidge_frame]
  have e2 : g.beforeRidge.spflags = g.spflags := by rw [beforeRidge_frame]
  by_cases hf : g.spflags &&& MGV7_RIDGES ≠ 0
  · rw [generateTerrain_ridges g hf]
    exact generateRidgeTerrain_noIgnore _ (by rw [e1]; exact hw2) x y z hbr
  · have hf2 : ¬ g.beforeRidge.spflags &&& MGV7_RIDGES ≠ 0 := by rw [e2]; exact hf
    have e : (g.generateTerrain).1 = g.beforeRidge := by
      unfold MapgenV7.generateTerrain
      unfold MapgenV7.beforeRidge at hf2 ⊢
      dsimp only at hf2 ⊢
      rw [if_neg hf2]
    rw [e]
    exact hbr

theorem vmOnly_refl (g : MapgenV7) : g.vmOnly g := ⟨g.vm, rfl⟩

theorem vmOnly_trans {g g1 g2 : MapgenV7} (h1 : g.vmOnly g1) (h2 : g1.vmOnly g2) :
    g.vmOnly g2 := by
  obtain ⟨v1, rfl⟩ := h1
  obtain ⟨v2, rfl⟩ := h2
  exact ⟨v2, rfl⟩

theorem vmOnly_set (g : MapgenV7) (v : VoxelData) : g.vmOnly { g with vm := v } := ⟨v, rfl⟩

theorem generateCavesNoise_vmOnly (g : MapgenV7) (m : Int) :
    g.vmOnly (g.generateCavesNoise m) := by
  unfold MapgenV7.generateCavesNoise
  split_ifs
  · exact vmOnly_set g _
  · exact vmOnly_refl g

theorem bruiseLoop_vmOnly {ρ : Type} (cl : CaveLib ρ) (m : Int) :
    ∀ (n : Nat) (s : MapgenV7 × ρ), s.1.vmOnly (MapgenV7.bruiseLoop cl m n s).1 := by
  intro n
  induction n with
  | zero => intro s; exact vmOnly_refl s.1
  | succ n ih =>
    intro s
    unfold MapgenV7.bruiseLoop
    exact vmOnly_trans (vmOnly_set s.1 _) (ih _)

theorem generateCaves_vmOnly {ρ : Type} (cl : CaveLib ρ) (g : MapgenV7) (m : Int) :
    g.vmOnly (g.generateCaves cl m) := by
  unfold MapgenV7.generateCaves MapgenV7.bruiseCaves
  exact vmOnly_trans (generateCavesNoise_vmOnly g m) (bruiseLoop_vmOnly cl m _ _)

theorem dustTopNodes_vmOnly (g : MapgenV7) : g.vmOnly g.dustTopNodes := by
  unfold MapgenV7.dustTopNodes
  split_ifs
  · exact vmOnly_refl g
  · exact vmOnly_set g _

theorem makeChunkFinish_vmOnly {ρ : Type} (lib : ChunkLib ρ) (g : MapgenV7) (m : Int)
    (ds : Bool) : g.vmOnly (g.makeChunkFinish lib m ds) := by
  have h1 : ∀ g0 : MapgenV7, g0.vmOnly (g0.chunkCaves lib m) := by
    intro g0
    unfold MapgenV7.chunkCaves
    split_ifs
    · exact generateCaves_vmOnly lib.caves g0 m
    · exact vmOnly_refl g0
  have h2 : ∀ g0 : MapgenV7, g0.vmOnly (g0.chunkDungeons lib m ds) := by
    intro g0
    unfold MapgenV7.chunkDungeons
    split_ifs
    · exact vmOnly_set g0 _
    · exact vmOnly_refl g0
  have h3 : ∀ g0 : MapgenV7, g0.vmOnly (g0.chunkDecos lib) := fun g0 => vmOnly_set g0 _
  have h4 : ∀ g0 : MapgenV7, g0.vmOnly (g0.chunkOres lib) := fun g0 => vmOnly_set g0 _
  unfold MapgenV7.makeChunkFinish
  exact vmOnly_trans (vmOnly_trans (vmOnly_trans (vmOnly_trans (h1 g) (h2 _)) (h3 _)) (h4 _))
    (dustTopNodes_vmOnly _)

theorem generateBiomes_vmOnly (g : MapgenV7) (heat hum : Int → ℚ) (b : MapgenV7 × Bool)
    (h : g.generateBiomes heat hum = some b) : g.vmOnly b.1 := by
  unfold MapgenV7.generateBiomes at h
  by_cases h1 : g.node_max.Y < g.water_level
  · rw [if_pos h1] at h
    simp only [Option.some.injEq] at h
    rw [← h]
    exact vmOnly_refl g
  · rw [if_neg h1] at h
    dsimp only at h
    by_cases h2 : (g.biomeLoop heat hum
        ({ vm := g.vm, desert_stone := false, fault := false }, 0)).1.fault = true
    · rw [if_pos h2] at h
      exact Option.noConfusion h
    · rw [if_neg h2] at h
      simp only [Option.some.injEq] at h
      rw [← h]
      exact vmOnly_set g _

/-! ## The heightmap refresh -/

theorem groundScan_spec (vm : VoxelData) (x z : Int) :
    ∀ (n : Nat) (y : Int), y - n ≤ groundScan vm x z n y ∧ groundScan vm x z n y ≤ y ∧
      (∀ k, groundScan vm x z n y < k → k ≤ y →
        vm x k z = CONTENT_AIR ∨ vm x k z = CONTENT_IGNORE) ∧
      (y - n < groundScan vm x z n y →
        vm x (groundScan vm x z n y) z ≠ CONTENT_AIR ∧
        vm x (groundScan vm x z n y) z ≠ CONTENT_IGNORE) := by
  intro n
  induction n with
  | zero =>
    intro y
    simp only [groundScan]
    refine ⟨by push_cast; omega, le_refl _, fun k h1 h2 => by omega, fun h => ?_⟩
    push_cast at h; omega
  | succ n ih =>
    intro y
    unfold groundScan
    by_cases hc : vm x y z ≠ CONTENT_AIR ∧ vm x y z ≠ CONTENT_IGNORE
    · rw [if_pos hc]
      exact ⟨by push_cast; omega, le_refl _, fun k h1 h2 => by omega, fun _ => hc⟩
    · rw [if_neg hc]
      have h := ih (y - 1)
      refine ⟨by push_cast; omega, by omega, fun k h1 h2 => ?_, fun h3 => ?_⟩
      · by_cases hk : k = y
        · rw [hk]
          by_contra hn
          push_neg at hn
          exact hc hn
        · exact h.2.2.1 k h1 (by omega)
      · exact h.2.2.2 (by push_cast at h3; omega)

theorem updateHeightmap_entry (g : MapgenV7) (x z : Int)
    (hx : g.node_min.X ≤ x ∧ x ≤ g.node_max.X) (hz : g.node_min.Z ≤ z ∧ z ≤ g.node_max.Z) :
    (g.updateHeightmap g.node_min g.node_max).heightmap (g.columnIndex x z)
      = groundScan g.vm x z (g.node_max.Y + 1 - g.node_min.Y).toNat g.node_max.Y := by
  unfold MapgenV7.updateHeightmap
  show (forUp g.node_min.Z g.node_max.Z (fun z =>
      forUp g.node_min.X g.node_max.X (fun x (p : (Int → Int) × Int) =>
        (arraySet p.1 p.2 (groundScan g.vm x z (g.node_max.Y + 1 - g.node_min.Y).toNat
          g.node_max.Y), p.2 + 1))) (g.heightmap, 0)).1 (g.columnIndex x z) = _
  rw [columnLoops_eq (fun x z k (s : Int → Int) =>
    arraySet s k (groundScan g.vm x z (g.node_max.Y + 1 - g.node_min.Y).toNat g.node_max.Y))]
  have hinj : ∀ a c, g.node_min.X ≤ a → a ≤ g.node_max.X →
      (0 : Int) + (c - g.node_min.Z) * ((g.node_max.X + 1 - g.node_min.X).toNat : Int)
        + (a - g.node_min.X) = g.columnIndex x z → a = x ∧ c = z := by
    intro a c ha1 ha2 he
    unfold MapgenV7.columnIndex MapgenV7.rowLen at he
    have hL : ((g.node_max.X + 1 - g.node_min.X).toNat : Int)
        = g.node_max.X + 1 - g.node_min.X := by omega
    rw [hL] at he
    have hcz : c = z := by
      by_contra hne
      rcases lt_or_gt_of_ne hne with hlt | hgt
      · have h1 : (z - c) * (g.node_max.X + 1 - g.node_min.X)
            ≥ 1 * (g.node_max.X + 1 - g.node_min.X) :=
          mul_le_mul_of_nonneg_right (by omega) (by omega)
        nlinarith
      · have h1 : (c - z) * (g.node_max.X + 1 - g.node_min.X)
            ≥ 1 * (g.node_max.X + 1 - g.node_min.X) :=
          mul_le_mul_of_nonneg_right (by omega) (by omega)
        nlinarith
    subst hcz
    exact ⟨by omega, rfl⟩
  have hidx : (0 : Int) + (z - g.node_min.Z) * ((g.node_max.X + 1 - g.node_min.X).toNat : Int)
      + (x - g.node_min.X) = g.columnIndex x z := by
    simp [MapgenV7.columnIndex, MapgenV7.rowLen]
  have hrow : ∀ c (s : Int → Int),
      (forUp g.node_min.X g.node_max.X (fun a s1 =>
        arraySet s1 ((g.heightmap, (0 : Int)).2
          + (c - g.node_min.Z) * ((g.node_max.X + 1 - g.node_min.X).toNat : Int)
          + (a - g.node_min.X))
          (groundScan g.vm a c (g.node_max.Y + 1 - g.node_min.Y).toNat g.node_max.Y)) s)
        (g.columnIndex x z)
      = if c = z then groundScan g.vm x z (g.node_max.Y + 1 - g.node_min.Y).toNat g.node_max.Y
        else s (g.columnIndex x z) := by
    intro c s
    rw [forUp_proj (fun s : Int → Int => s (g.columnIndex x z))
      (fun a s1 => arraySet s1 ((g.heightmap, (0 : Int)).2
        + (c - g.node_min.Z) * ((g.node_max.X + 1 - g.node_min.X).toNat : Int)
        + (a - g.node_min.X))
        (groundScan g.vm a c (g.node_max.Y + 1 - g.node_min.Y).toNat g.node_max.Y))
      (fun a r => if (0 : Int)
          + (c - g.node_min.Z) * ((g.node_max.X + 1 - g.node_min.X).toNat : Int)
          + (a - g.node_min.X) = g.columnIndex x z then
          groundScan g.vm a c (g.node_max.Y + 1 - g.node_min.Y).toNat g.node_max.Y else r)
      (fun a s1 => by
        dsimp only
        by_cases he : (0 : Int)
            + (c - g.node_min.Z) * ((g.node_max.X + 1 - g.node_min.X).toNat : Int)
            + (a - g.node_min.X) = g.columnIndex x z
        · rw [if_pos he, he, arraySet_same]
        · rw [if_neg he]
          exact arraySet_other _ _ _ _ (fun h => he h.symm))]
    rw [forUp_single _ x _ _ _ (fun i t h1 h2 h3 => by
      show (if _ then _ else t) = t
      rw [if_neg (fun he => h3 (hinj i c h1 h2 he).1)])]
    rw [if_pos hx]
    by_cases hc : c = z
    · subst hc
      rw [if_pos rfl]
      show (if _ then _ else _) = _
      rw [if_pos hidx]
    · rw [if_neg hc]
      show (if _ then _ else _) = _
      rw [if_neg (fun he => hc (hinj x c hx.1 hx.2 he).2)]
  rw [forUp_proj (fun s : Int → Int => s (g.columnIndex x z)) _ _ (fun c s => hrow c s)]
  rw [forUp_single _ z _ _ _ (fun i t h1 h2 h3 => by
    show (if i = z then _ else t) = t
    rw [if_neg h3])]
  rw [if_pos hz]
  show (if z = z then _ else _) = _
  rw [if_pos rfl]

/-! ## Frames of the chunk pipeline -/

theorem generateRidgeTerrain_frame (g : MapgenV7) :
    g.generateRidgeTerrain = { g with
      vm := g.generateRidgeTerrain.vm
      ridge_heightmap := g.generateRidgeTerrain.ridge_heightmap } := by
  unfold MapgenV7.generateRidgeTerrain
  split_ifs <;> rfl

theorem generateTerrain_frame (g : MapgenV7) :
    (g.generateTerrain).1 = { g with
      vm := (g.generateTerrain).1.vm
      heightmap := (g.generateTerrain).1.heightmap
      ridge_heightmap := (g.generateTerrain).1.ridge_heightmap } := by
  have hb := beforeRidge_frame g
  by_cases hf : g.spflags &&& MGV7_RIDGES ≠ 0
  · rw [generateTerrain_ridges g hf]
    have hr := generateRidgeTerrain_frame g.beforeRidge
    generalize g.beforeRidge.generateRidgeTerrain = g2 at hr ⊢
    generalize g.beforeRidge = g1 at hb hr
    rw [hr, hb]
  · have e2 : g.beforeRidge.spflags = g.spflags := by rw [beforeRidge_frame]
    have hf2 : ¬ g.beforeRidge.spflags &&& MGV7_RIDGES ≠ 0 := by rw [e2]; exact hf
    have e : (g.generateTerrain).1 = g.beforeRidge := by
      unfold MapgenV7.generateTerrain
      unfold MapgenV7.beforeRidge at hf2 ⊢
      dsimp only at hf2 ⊢
      rw [if_neg hf2]
    rw [e]
    generalize g.beforeRidge = g1 at hb
    rw [hb]

theorem calculateNoise_frame {ρ : Type} (lib : ChunkLib ρ) (g : MapgenV7) :
    (g.calculateNoise lib).node_min = g.node_min ∧ (g.calculateNoise lib).node_max = g.node_max ∧
    (g.calculateNoise lib).c_stone = g.c_stone ∧
    (g.calculateNoise lib).c_water_source = g.c_water_source := by
  unfold MapgenV7.calculateNoise MapgenV7.noiseBiomes MapgenV7.noiseMountains
    MapgenV7.noiseRidges MapgenV7.noiseCaves MapgenV7.noiseTerrain
  dsimp only
  split_ifs <;> exact ⟨rfl, rfl, rfl, rfl⟩

theorem makeChunkInit_frame {ρ : Type} (lib : ChunkLib ρ) (g : MapgenV7) (data : BlockMakeData) :
    (g.makeChunkInit lib data).node_min
      = ⟨data.blockpos_min.X * lib.MAP_BLOCKSIZE, data.blockpos_min.Y * lib.MAP_BLOCKSIZE,
          data.blockpos_min.Z * lib.MAP_BLOCKSIZE⟩ ∧
    (g.makeChunkInit lib data).node_max
      = ⟨(data.blockpos_max.X + 1) * lib.MAP_BLOCKSIZE - 1,
          (data.blockpos_max.Y + 1) * lib.MAP_BLOCKSIZE - 1,
          (data.blockpos_max.Z + 1) * lib.MAP_BLOCKSIZE - 1⟩ ∧
    (g.makeChunkInit lib data).c_stone = g.c_stone ∧
    (g.makeChunkInit lib data).c_water_source = g.c_water_source := by
  unfold MapgenV7.makeChunkInit
  dsimp only
  have h := calculateNoise_frame lib
  refine ⟨by rw [(h _).1], by rw [(h _).2.1], by rw [(h _).2.2.1], by rw [(h _).2.2.2]⟩

theorem afterTerrain_frame {ρ : Type} (lib : ChunkLib ρ) (g : MapgenV7) (data : BlockMakeData) :
    (g.afterTerrain lib data).node_min = (g.makeChunkInit lib data).node_min ∧
    (g.afterTerrain lib data).node_max = (g.makeChunkInit lib data).node_max ∧
    (g.afterTerrain lib data).c_stone = g.c_stone ∧
    (g.afterTerrain lib data).c_water_source = g.c_water_source := by
  unfold MapgenV7.afterTerrain
  have h := generateTerrain_frame (g.makeChunkInit lib data)
  have hi := makeChunkInit_frame lib g data
  refine ⟨by rw [h], by rw [h], ?_, ?_⟩
  · rw [h]; exact hi.2.2.1
  · rw [h]; exact hi.2.2.2

theorem makeChunk_some {ρ : Type} (lib : ChunkLib ρ) (g : MapgenV7) (data : BlockMakeData)
    (g1 : MapgenV7) (h : g.makeChunk lib data = some g1) :
    ((g.afterTerrain lib data).makeChunkMaps lib).vmOnly g1 ∧
    (data.blockpos_min.X ≤ data.blockpos_max.X ∧ data.blockpos_min.Y ≤ data.blockpos_max.Y ∧
      data.blockpos_min.Z ≤ data.blockpos_max.Z) := by
  unfold MapgenV7.makeChunk at h
  by_cases ha : (data.blockpos_requested.X ≥ data.blockpos_min.X ∧
      data.blockpos_requested.Y ≥ data.blockpos_min.Y ∧
      data.blockpos_requested.Z ≥ data.blockpos_min.Z) ∧
     (data.blockpos_requested.X ≤ data.blockpos_max.X ∧
      data.blockpos_requested.Y ≤ data.blockpos_max.Y ∧
      data.blockpos_requested.Z ≤ data.blockpos_max.Z)
  · rw [if_pos ha] at h
    dsimp only at h
    rw [Option.map_eq_some'] at h
    obtain ⟨b, hb, hfin⟩ := h
    refine ⟨?_, by omega, by omega, by omega⟩
    rw [← hfin]
    exact vmOnly_trans (generateBiomes_vmOnly _ _ _ b hb) (makeChunkFinish_vmOnly lib b.1 _ b.2)
  · rw [if_neg ha] at h
    exact Option.noConfusion h

theorem makeChunk_returns {ρ : Type} (lib : ChunkLib ρ) (g : MapgenV7) (data : BlockMakeData)
    (ha : (data.blockpos_requested.X ≥ data.blockpos_min.X ∧
      data.blockpos_requested.Y ≥ data.blockpos_min.Y ∧
      data.blockpos_requested.Z ≥ data.blockpos_min.Z) ∧
     (data.blockpos_requested.X ≤ data.blockpos_max.X ∧
      data.blockpos_requested.Y ≤ data.blockpos_max.Y ∧
      data.blockpos_requested.Z ≤ data.blockpos_max.Z))
    (hs1 : g.c_stone ≠ CONTENT_AIR) (hs2 : g.c_stone ≠ CONTENT_IGNORE)
    (hw1 : g.c_water_source ≠ CONTENT_AIR) (hw2 : g.c_water_source ≠ CONTENT_IGNORE) :
    (g.makeChunk lib data).isSome = true := by
  unfold MapgenV7.makeChunk
  rw [if_pos ha]
  dsimp only
  rw [Option.isSome_map']
  have hi := makeChunkInit_frame lib g data
  have hf := generateTerrain_frame (g.makeChunkInit lib data)
  have hni := generateTerrain_noIgnore (g.makeChunkInit lib data) (by rw [hi.2.2.1]; exact hs2)
    (by rw [hi.2.2.2]; exact hw2)
  generalize (g.makeChunkInit lib data).generateTerrain = r at hf hni ⊢
  have e1 : (r.1.makeChunkMaps lib).c_stone = g.c_stone := by
    show r.1.c_stone = _
    rw [hf]; exact hi.2.2.1
  have e2 : (r.1.makeChunkMaps lib).c_water_source = g.c_water_source := by
    show r.1.c_water_source = _
    rw [hf]; exact hi.2.2.2
  have e3 : (r.1.makeChunkMaps lib).node_min = (g.makeChunkInit lib data).node_min := by
    show r.1.node_min = _
    rw [hf]
  have e4 : (r.1.makeChunkMaps lib).node_max = (g.makeChunkInit lib data).node_max := by
    show r.1.node_max = _
    rw [hf]
  refine generateBiomes_returns (r.1.makeChunkMaps lib) _ _ (by rw [e1]; exact hs1)
    (by rw [e2]; exact hw1) ?_
  intro a b c h1 h2 h3 h4 h5 h6
  rw [e3] at h1 h3 h5
  rw [e4] at h2 h4 h6
  show r.1.vm a b c ≠ CONTENT_IGNORE
  exact hni a b c ⟨h1, h2, by omega, by omega, h5, h6⟩

theorem cstr_get (buf : List Nat) :
    ∀ j : Nat, j < (cstr buf).length → buf.getD j 0 = (cstr buf).getD j 0 ∧ buf.getD j 0 ≠ 0 := by
  induction buf with
  | nil => intro j hj; simp [cstr] at hj
  | cons a t ih =>
    intro j hj
    unfold cstr at hj ⊢
    by_cases ha : a ≠ 0
    · rw [List.takeWhile_cons_of_pos (by simpa using ha)] at hj ⊢
      cases j with
      | zero => exact ⟨rfl, ha⟩
      | succ j =>
        simp only [List.length_cons, Nat.add_lt_add_iff_right] at hj
        have h := ih j hj
        unfold cstr at h
        simpa using h
    · rw [List.takeWhile_cons_of_neg (by simpa using ha)] at hj
      simp at hj

theorem cstr_lt_of_mem (buf : List Nat) (h : 0 ∈ buf) : (cstr buf).length < buf.length := by
  induction buf with
  | nil => simp at h
  | cons a t ih =>
    unfold cstr
    by_cases ha : a ≠ 0
    · rw [List.takeWhile_cons_of_pos (by simpa using ha)]
      have h2 : 0 ∈ t := by
        rcases List.mem_cons.mp h with h1 | h1
        · exact absurd h1.symm ha
        · exact h1
      have := ih h2
      unfold cstr at this
      simp only [List.length_cons]
      omega
    · rw [List.takeWhile_cons_of_neg (by simpa using ha)]
      simp

theorem cstr_set (buf : List Nat) :
    ∀ k : Nat, k < (cstr buf).length → cstr (buf.set k 0) = (cstr buf).take k := by
  induction buf with
  | nil => intro k hk; simp [cstr] at hk
  | cons a t ih =>
    intro k hk
    unfold cstr at hk ⊢
    by_cases ha : a ≠ 0
    · rw [List.takeWhile_cons_of_pos (by simpa using ha)] at hk ⊢
      cases k with
      | zero => simp
      | succ k =>
        simp only [List.length_cons, Nat.add_lt_add_iff_right] at hk
        rw [List.set_cons_succ, List.takeWhile_cons_of_pos (by simpa using ha), List.take_succ_cons]
        have := ih k hk
        unfold cstr at this
        rw [this]
    · rw [List.takeWhile_cons_of_neg (by simpa using ha)] at hk
      simp at hk

theorem pathRemoveFile_scan_spec (path : List Nat) (delim : Nat) :
    ∀ (n : Nat) (i : Int), i = (n : Int) - 1 →
      -1 ≤ pathRemoveFile_scan path delim n i ∧ pathRemoveFile_scan path delim n i ≤ i ∧
      (∀ j : Int, pathRemoveFile_scan path delim n i < j → j ≤ i →
        path.getD j.toNat 0 ≠ delim) ∧
      (0 ≤ pathRemoveFile_scan path delim n i →
        path.getD (pathRemoveFile_scan path delim n i).toNat 0 = delim) := by
  intro n
  induction n with
  | zero =>
    intro i hi
    simp only [pathRemoveFile_scan]
    push_cast at hi
    exact ⟨by omega, le_refl _, fun j h1 h2 => by omega, fun h => by omega⟩
  | succ n ih =>
    intro i hi
    push_cast at hi
    unfold pathRemoveFile_scan
    by_cases hc : path.getD i.toNat 0 = delim
    · rw [if_pos hc]
      exact ⟨by omega, le_refl _, fun j h1 h2 => by omega, fun _ => hc⟩
    · rw [if_neg hc]
      have h := ih (i - 1) (by omega)
      refine ⟨h.1, by omega, fun j h1 h2 => ?_, h.2.2.2⟩
      by_cases hj : j = i
      · rw [hj]; exact hc
      · exact h.2.2.1 j h1 (by omega)

theorem mem_iff_getD (l : List Nat) (a : Nat) :
    a ∈ l ↔ ∃ j : Nat, j < l.length ∧ l.getD j 0 = a := by
  rw [List.mem_iff_getElem]
  constructor
  · rintro ⟨j, hj, he⟩
    exact ⟨j, hj, by rw [List.getD_eq_getElem _ _ hj]; exact he⟩
  · rintro ⟨j, hj, he⟩
    exact ⟨j, hj, by rw [List.getD_eq_getElem _ _ hj] at he; exact he⟩

/-! ## Claims -/

/-- C1. `generateBaseTerrain`, per cell: a cell of a chunk column with
`node_min.Y - 1 ≤ y ≤ node_max.Y + 1` that held `IGNORE` holds `STONE`
afterwards if `y ≤ surface_y`, otherwise `WATER` if `y ≤ water_level`,
otherwise `AIR`; every other cell, in particular every cell that did not hold
`IGNORE`, has the content it had before the pass. -/
theorem generateBaseTerrain_cell (g : MapgenV7) (x y z : Int) :
    (g.generateBaseTerrain).1.vm x y z =
      if g.inChunk x y z ∧ g.vm x y z = CONTENT_IGNORE then
        (if y ≤ g.surfaceY x z then g.c_stone
          else if y ≤ g.water_level then g.c_water_source else CONTENT_AIR)
      else g.vm x y z := by
  unfold MapgenV7.generateBaseTerrain
  exact baseLoop_vm g _ x y z

/-- C3. `generateRidgeTerrain`, per cell, in the `float` arithmetic of the
source (`f32` rounds to `float`, `f64` to `double`): with `width` the `float`
nearest `0.2`, `uwatern = f32 (ridge_uwater_map[i] * 2)`, `altitude = f32 (y -
water_level)`, `height_mod = f32 (f64 (f32 (altitude + 17) / 2.5))`, `width_mod
= f32 (width - |uwatern|)` and `nridge = f32 (f64 (f32 (ridge_map[xyz] *
max(altitude, 0)) / 7))`, the cell is overwritten exactly when `node_max.Y ≥
water_level`, it is visited by the loops, `heightmap[i] ≥ water_level - 16`,
`|uwatern| ≤ width` and `f32 (nridge + f32 (width_mod * height_mod))` is at
least the `double` `0.6`; an overwritten cell holds `AIR` above `water_level`
and `WATER` otherwise, every other cell is unchanged (so the pass changes
nothing when `node_max.Y < water_level`). -/
theorem generateRidgeTerrain_cell (g : MapgenV7) (x y z : Int) :
    (g.generateRidgeTerrain).vm x y z =
      if g.node_max.Y ≥ g.water_level ∧ g.inChunk x y z ∧
          (g.heightmap (g.columnIndexC x z) ≥ g.water_level - 16 ∧
            |f32 (g.noise_ridge_uwater.result (g.columnIndexC x z) * 2)|
              ≤ f32 (f64 (2 / 10)) ∧
            f32 (f32 (f64 (f32 (g.noise_ridge.result (g.cellIndex x y z)
                    * max (f32 ((y - g.water_level : Int) : ℚ)) 0) / f64 7))
              + f32 (f32 (f32 (f64 (2 / 10))
                      - |f32 (g.noise_ridge_uwater.result (g.columnIndexC x z) * 2)|)
                * f32 (f64 (f32 (f32 ((y - g.water_level : Int) : ℚ) + 17)
                      / f64 (25 / 10)))))
              ≥ f64 (6 / 10)) then
        (if y > g.water_level then CONTENT_AIR else g.c_water_source)
      else g.vm x y z := by
  unfold MapgenV7.generateRidgeTerrain
  by_cases hw : g.node_max.Y < g.water_level
  · rw [if_pos hw, if_neg (fun hh => absurd hh.1 (not_le.mpr hw))]
  · rw [if_neg hw]
    simp only [ridgeLoop_vm, ridgeCarves_iff]
    have hw2 : g.node_max.Y ≥ g.water_level := not_lt.mp hw
    simp only [hw2, true_and]

/-- C4. `generateMountainTerrain`: a cell is changed exactly when `node_max.Y ≥
0`, it is visited by the loops, `mountain_map[xyz] * mount_height_map[xz] ≥ y`
in the `float` arithmetic of the source (the product rounded to `float`,
`f32`, against `(float)y`) and it held `AIR` or `WATER`; a changed cell holds
`STONE` and every other cell is unchanged; the value returned is the maximum of
the `ymax` argument and of the `y` of every changed cell.  When `node_max.Y <
0` the voxel buffer is unchanged and `ymax` is returned. -/
theorem generateMountainTerrain_post (g : MapgenV7) (ymax : Int) :
    (∀ x y z, (g.generateMountainTerrain ymax).1.vm x y z =
      if g.node_max.Y ≥ 0 ∧ g.inChunk x y z ∧
          (f32 (g.noise_mountain.result (g.cellIndex x y z)
                * g.noise_mount_height.result (g.columnIndexC x z)) ≥ f32 (y : ℚ)
            ∧ (g.vm x y z = CONTENT_AIR ∨ g.vm x y z = g.c_water_source)) then g.c_stone
      else g.vm x y z) ∧
    ymax ≤ (g.generateMountainTerrain ymax).2 ∧
    (∀ x y z, (g.node_max.Y ≥ 0 ∧ g.inChunk x y z ∧
          (f32 (g.noise_mountain.result (g.cellIndex x y z)
                * g.noise_mount_height.result (g.columnIndexC x z)) ≥ f32 (y : ℚ)
            ∧ (g.vm x y z = CONTENT_AIR ∨ g.vm x y z = g.c_water_source))) →
        y ≤ (g.generateMountainTerrain ymax).2) ∧
    ((g.generateMountainTerrain ymax).2 = ymax ∨
      ∃ x z, g.node_max.Y ≥ 0 ∧ g.inChunk x (g.generateMountainTerrain ymax).2 z ∧
          (f32 (g.noise_mountain.result (g.cellIndex x (g.generateMountainTerrain ymax).2 z)
                * g.noise_mount_height.result (g.columnIndexC x z))
              ≥ f32 (((g.generateMountainTerrain ymax).2 : Int) : ℚ)
            ∧ (g.vm x (g.generateMountainTerrain ymax).2 z = CONTENT_AIR
              ∨ g.vm x (g.generateMountainTerrain ymax).2 z = g.c_water_source))) ∧
    (g.node_max.Y < 0 → (g.generateMountainTerrain ymax).1.vm = g.vm ∧
      (g.generateMountainTerrain ymax).2 = ymax) := by
  by_cases hw : g.node_max.Y < 0
  · rw [generateMountainTerrain_skip g ymax hw]
    have hn : ¬ g.node_max.Y ≥ 0 := not_le.mpr hw
    refine ⟨fun x y z => by rw [if_neg (fun hh => hn hh.1)], le_refl _,
      fun x y z hh => absurd hh.1 hn, Or.inl rfl, fun _ => ⟨rfl, rfl⟩⟩
  · rw [generateMountainTerrain_vm g ymax hw, generateMountainTerrain_ret g ymax hw]
    have hp : g.node_max.Y ≥ 0 := not_lt.mp hw
    obtain ⟨m1, m2, m3⟩ := mountainLoop_ymax g (g.vm, ymax)
    refine ⟨fun x y z => ?_, m1, fun x y z hh => m2 y ⟨x, z, hh.2⟩, ?_,
      fun hh => absurd hh hw⟩
    · rw [mountainLoop_vm]
      simp only [hp, true_and]
    · rcases m3 with m3 | ⟨x, z, m3⟩
      · exact Or.inl m3
      · exact Or.inr ⟨x, z, hp, m3⟩

/-- Witness for C4: in a buffer of air with `mountain * mount_height = 3` the
cell `(0, 3, 0)` becomes `STONE`, and from `ymax = 0` the value returned is
`3`. -/
theorem generateMountainTerrain_post_witness :
    (exGenMount.generateMountainTerrain 0).1.vm 0 3 0 = exGenMount.c_stone ∧
      (exGenMount.generateMountainTerrain 0).2 = 3 := by
  obtain ⟨h1, _, h3, h4, _⟩ := generateMountainTerrain_post exGenMount 0
  constructor
  · rw [h1 0 3 0, if_pos (by decide!)]
  · have a : (3 : Int) ≤ (exGenMount.generateMountainTerrain 0).2 := h3 0 3 0 (by decide!)
    rcases h4 with h | ⟨x, z, _, _, hs, _⟩
    · omega
    · have e : f32 (exGenMount.noise_mountain.result
            (exGenMount.cellIndex x (exGenMount.generateMountainTerrain 0).2 z)
            * exGenMount.noise_mount_height.result (exGenMount.columnIndexC x z)) = 3 := by
        show f32 ((3 : ℚ) * 1) = 3
        decide!
      rw [e] at hs
      have hs3 : (exGenMount.generateMountainTerrain 0).2 ≤ 3 := by
        by_contra hc
        have h4 : (4 : ℚ) ≤ (((exGenMount.generateMountainTerrain 0).2 : Int) : ℚ) := by
          have : (4 : Int) ≤ (exGenMount.generateMountainTerrain 0).2 := by omega
          exact_mod_cast this
        have h5 := f32_mono _ _ h4
        have h6 : f32 4 = 4 := by decide!
        rw [h6] at h5
        linarith
      omega

/-- C8. Ridge invariant: for every column `i` of the chunk,
`ridge_heightmap[i] ≤ heightmap[i]` holds when `generateBaseTerrain` returns
(both entries are `surface_y`); `generateMountainTerrain` and
`generateRidgeTerrain` preserve it at every index; so it holds for every column
when `generateTerrain` returns, whatever the `mountains` and `ridges` flags. -/
theorem ridge_invariant (g : MapgenV7) (x z : Int)
    (hx : g.node_min.X ≤ x ∧ x ≤ g.node_max.X) (hz : g.node_min.Z ≤ z ∧ z ≤ g.node_max.Z) :
    (g.generateBaseTerrain).1.ridge_heightmap (g.columnIndex x z)
        ≤ (g.generateBaseTerrain).1.heightmap (g.columnIndex x z) ∧
    (∀ (g1 : MapgenV7) (ymax i : Int), g1.ridge_heightmap i ≤ g1.heightmap i →
      (g1.generateMountainTerrain ymax).1.ridge_heightmap i
        ≤ (g1.generateMountainTerrain ymax).1.heightmap i) ∧
    (∀ (g1 : MapgenV7) (i : Int), g1.ridge_heightmap i ≤ g1.heightmap i →
      (g1.generateRidgeTerrain).ridge_heightmap i ≤ (g1.generateRidgeTerrain).heightmap i) ∧
    (g.generateTerrain).1.ridge_heightmap (g.columnIndex x z)
        ≤ (g.generateTerrain).1.heightmap (g.columnIndex x z) := by
  have hb : (g.generateBaseTerrain).1.ridge_heightmap (g.columnIndex x z)
      ≤ (g.generateBaseTerrain).1.heightmap (g.columnIndex x z) := by
    rw [(generateBaseTerrain_maps g x z hx hz).1, (generateBaseTerrain_maps g x z hx hz).2]
  refine ⟨hb, ?_, ?_, generateTerrain_maps g _ hb⟩
  · intro g1 ymax i h
    rw [(generateMountainTerrain_maps g1 ymax).1, (generateMountainTerrain_maps g1 ymax).2]
    exact h
  · intro g1 i h
    rw [(generateRidgeTerrain_maps g1 i).1]
    exact le_trans (generateRidgeTerrain_maps g1 i).2 h

/-- Witness for C8 on the example generator, column `(0, 0)`. -/
theorem ridge_invariant_witness :
    (exGen.generateTerrain).1.ridge_heightmap (exGen.columnIndex 0 0)
      ≤ (exGen.generateTerrain).1.heightmap (exGen.columnIndex 0 0) :=
  (ridge_invariant exGen 0 0 (by decide) (by decide)).2.2.2

/-- C9, counterexample.  On the example generator (ridges enabled, chunk
`y = 0 .. 7` around `water_level = 1`, base level 20, `2 * ridge_uwater = 0.15`)
the column `(0, 0)` satisfies the hypotheses of the river depth rule, and the
cell at `(0, water_level, 0)` holds `STONE` after `generateTerrain`, neither
`AIR` nor `WATER`. -/
theorem riverDepth_counterexample :
    exGen.spflags &&& MGV7_RIDGES ≠ 0 ∧
    exGen.node_min.Y ≤ exGen.water_level ∧ exGen.water_level ≤ exGen.node_max.Y ∧
    |2 * exGen.noise_ridge_uwater.result (exGen.columnIndex 0 0)| ≤ 2 / 10 ∧
    exGen.surfaceY 0 0 > exGen.water_level - 16 ∧
    (exGen.generateTerrain).1.vm 0 exGen.water_level 0 = exGen.c_stone ∧
    ¬ ((exGen.generateTerrain).1.vm 0 exGen.water_level 0 = CONTENT_AIR ∨
      (exGen.generateTerrain).1.vm 0 exGen.water_level 0 = exGen.c_water_source) := by
  decide!

/-- C9, amended.  With ridges enabled, `water_level` inside the vertical range
of the chunk and `csize.X` the width of the chunk: for every chunk column with
`|2 * ridge_uwater_map[i]| ≤ 19/170` (that is `0.2 - 0.6 * 2.5 / 17`) and base
surface height at least `water_level - 16`, the cell at `(x, water_level, z)`
holds `WATER` after `generateTerrain`. -/
theorem riverDepth_amended (g : MapgenV7) (x z : Int)
    (hf : g.spflags &&& MGV7_RIDGES ≠ 0)
    (hcs : g.csize.X = g.rowLen)
    (hy : g.node_min.Y ≤ g.water_level ∧ g.water_level ≤ g.node_max.Y)
    (hx : g.node_min.X ≤ x ∧ x ≤ g.node_max.X) (hz : g.node_min.Z ≤ z ∧ z ≤ g.node_max.Z)
    (hu : |2 * g.noise_ridge_uwater.result (g.columnIndex x z)| ≤ 19 / 170)
    (hs : g.surfaceY x z ≥ g.water_level - 16) :
    (g.generateTerrain).1.vm x g.water_level z = g.c_water_source := by
  rw [generateTerrain_ridges g hf]
  unfold MapgenV7.generateRidgeTerrain
  have hfr := beforeRidge_frame g
  have e1 : g.beforeRidge.node_max = g.node_max := by rw [hfr]
  have e2 : g.beforeRidge.water_level = g.water_level := by rw [hfr]
  have e3 : g.beforeRidge.node_min = g.node_min := by rw [hfr]
  have e4 : g.beforeRidge.csize = g.csize := by rw [hfr]
  have e5 : g.beforeRidge.noise_ridge_uwater = g.noise_ridge_uwater := by rw [hfr]
  have e6 : g.beforeRidge.heightmap = (g.generateBaseTerrain).1.heightmap := by rw [hfr]
  have e7 : g.beforeRidge.c_water_source = g.c_water_source := by rw [hfr]
  have hw : ¬ g.beforeRidge.node_max.Y < g.beforeRidge.water_level := by
    rw [e1, e2]; omega
  rw [if_neg hw]
  show (g.beforeRidge.ridgeLoop ((g.beforeRidge.vm, g.beforeRidge.ridge_heightmap), 0)).1.1
    x g.water_level z = g.c_water_source
  rw [ridgeLoop_vm]
  have hin : g.beforeRidge.inChunk x g.water_level z := by
    unfold MapgenV7.inChunk
    rw [e1, e3]
    exact ⟨hx.1, hx.2, by omega, by omega, hz.1, hz.2⟩
  have hidx : g.beforeRidge.columnIndexC x z = g.columnIndex x z := by
    unfold MapgenV7.columnIndexC MapgenV7.columnIndex
    rw [e3, e4, hcs]
  have hc : g.beforeRidge.ridgeCarves (g.beforeRidge.columnIndexC x z)
      (g.beforeRidge.cellIndex x g.water_level z) g.water_level = true := by
    have := ridgeCarves_waterLevel g.beforeRidge (g.beforeRidge.columnIndexC x z)
      (g.beforeRidge.cellIndex x g.water_level z)
    rw [e2] at this
    refine this ?_ ?_
    · rw [hidx, e6, (generateBaseTerrain_maps g x z hx hz).1]
      exact hs
    · rw [hidx, e5]
      exact hu
  have hcc : g.beforeRidge.inChunk x g.water_level z ∧
      g.beforeRidge.ridgeCarves (g.beforeRidge.columnIndexC x z)
        (g.beforeRidge.cellIndex x g.water_level z) g.water_level = true := ⟨hin, hc⟩
  rw [if_pos hcc, e2, e7, if_neg (lt_irrefl _)]

/-- Witness for the amended C9 on the example generator with
`2 * ridge_uwater = 0.05`. -/
theorem riverDepth_amended_witness :
    (|2 * exGenRiver.noise_ridge_uwater.result (exGenRiver.columnIndex 0 0)| ≤ 19 / 170 ∧
      exGenRiver.surfaceY 0 0 ≥ exGenRiver.water_level - 16) ∧
    (exGenRiver.generateTerrain).1.vm 0 exGenRiver.water_level 0
      = exGenRiver.c_water_source :=
  ⟨by decide!, riverDepth_amended exGenRiver 0 0 (by decide) (by decide) (by decide)
    (by decide) (by decide) (by decide!) (by decide!)⟩

/-- C7. `getGroundLevelAtPoint`, with `y0` the base terrain level at `(x, z)`
converted to `s16`, in the `float` arithmetic of the source (`f32` rounds to
`float`, `f64` to `double`): if `|f32 (ridge_uwater_noise(x, z) * 2)|` is at
most the `float` nearest `0.2` the result is `water_level - 10`; otherwise (for
`y0 + 128` inside the 16-bit range of the variable `y`) the result is the least
`y` with `y0 ≤ y ≤ y0 + 127` for which `f32 (mountain_noise_3d(x, y, z) *
mount_height_noise(x, z)) ≥ (float)y` is false, and `y0 + 128` if there is no
such `y`. -/
theorem getGroundLevelAtPoint_spec (nl : NoiseLib) (g : MapgenV7) (p : v2s16) :
    (|f32 (nl.NoisePerlin2D g.noise_ridge_uwater.np p.X p.Y g.seed * 2)|
        ≤ f32 (f64 (2 / 10)) →
      (g.getGroundLevelAtPoint nl p).1 = g.water_level - 10) ∧
    (¬ |f32 (nl.NoisePerlin2D g.noise_ridge_uwater.np p.X p.Y g.seed * 2)|
        ≤ f32 (f64 (2 / 10)) →
      float_to_s16 (g.baseTerrainLevelAtPoint nl p.X p.Y).1 + 128 ≤ 32767 →
      (∀ y, float_to_s16 (g.baseTerrainLevelAtPoint nl p.X p.Y).1 ≤ y →
        y ≤ float_to_s16 (g.baseTerrainLevelAtPoint nl p.X p.Y).1 + 127 →
        ¬ (f32 (nl.NoisePerlin3D g.noise_mountain.np p.X y p.Y g.seed
            * nl.NoisePerlin2D g.noise_mount_height.np p.X p.Y g.seed) ≥ f32 (y : ℚ)) →
        (∀ k, float_to_s16 (g.baseTerrainLevelAtPoint nl p.X p.Y).1 ≤ k → k < y →
          f32 (nl.NoisePerlin3D g.noise_mountain.np p.X k p.Y g.seed
            * nl.NoisePerlin2D g.noise_mount_height.np p.X p.Y g.seed) ≥ f32 (k : ℚ)) →
        (g.getGroundLevelAtPoint nl p).1 = y) ∧
      ((∀ y, float_to_s16 (g.baseTerrainLevelAtPoint nl p.X p.Y).1 ≤ y →
        y ≤ float_to_s16 (g.baseTerrainLevelAtPoint nl p.X p.Y).1 + 127 →
        f32 (nl.NoisePerlin3D g.noise_mountain.np p.X y p.Y g.seed
            * nl.NoisePerlin2D g.noise_mount_height.np p.X p.Y g.seed) ≥ f32 (y : ℚ)) →
        (g.getGroundLevelAtPoint nl p).1
          = float_to_s16 (g.baseTerrainLevelAtPoint nl p.X p.Y).1 + 128)) := by
  have hfr := baseTerrainLevelAtPoint_frame nl g p.X p.Y
  have e1 : (g.baseTerrainLevelAtPoint nl p.X p.Y).2.noise_ridge_uwater
      = g.noise_ridge_uwater := by rw [hfr]
  have e2 : (g.baseTerrainLevelAtPoint nl p.X p.Y).2.seed = g.seed := by rw [hfr]
  have e3 : (g.baseTerrainLevelAtPoint nl p.X p.Y).2.water_level = g.water_level := by
    rw [hfr]
  have e4 : (g.baseTerrainLevelAtPoint nl p.X p.Y).2.noise_mountain = g.noise_mountain := by
    rw [hfr]
  have e5 : (g.baseTerrainLevelAtPoint nl p.X p.Y).2.noise_mount_height
      = g.noise_mount_height := by rw [hfr]
  have hm : ∀ y, (g.baseTerrainLevelAtPoint nl p.X p.Y).2.getMountainTerrainAtPoint nl p.X y p.Y
      = true ↔ f32 (nl.NoisePerlin3D g.noise_mountain.np p.X y p.Y g.seed
            * nl.NoisePerlin2D g.noise_mount_height.np p.X p.Y g.seed) ≥ f32 (y : ℚ) := by
    intro y
    rw [getMountainTerrainAtPoint_iff, e2, e4, e5]
  unfold MapgenV7.getGroundLevelAtPoint
  dsimp only
  rw [e1, e2, e3]
  constructor
  · intro hu
    rw [if_pos hu]
  · intro hu hr
    rw [if_neg hu]
    have hp := groundProbe_spec nl (g.baseTerrainLevelAtPoint nl p.X p.Y).2 p.X p.Y 128
      (float_to_s16 (g.baseTerrainLevelAtPoint nl p.X p.Y).1)
      (float_to_s16_range _).1 (by push_cast; omega)
    constructor
    · intro y h1 h2 hns hall
      refine hp.1 y h1 (by push_cast; omega) ?_ ?_
      · cases hb : (g.baseTerrainLevelAtPoint nl p.X p.Y).2.getMountainTerrainAtPoint nl p.X y p.Y
        · rfl
        · exact absurd ((hm y).1 hb) hns
      · intro k hk1 hk2
        exact (hm k).2 (hall k hk1 hk2)
    · intro hall
      have := hp.2 (fun k hk1 hk2 => (hm k).2 (hall k hk1 (by push_cast at hk2; omega)))
      rw [this]
      push_cast; ring

/-- Witness for C7: on the example generator the point `(0, 0)` is in a river
channel and the result is `water_level - 10`; with a ridge noise of `1` the
probe starts at `y0 = 0`, finds `y = 0` mountain-solid and returns `1`. -/
theorem getGroundLevelAtPoint_spec_witness :
    (exGen.getGroundLevelAtPoint exNoiseLib ⟨0, 0⟩).1 = exGen.water_level - 10 ∧
    (exGenPoint.getGroundLevelAtPoint exNoiseLib ⟨0, 0⟩).1 = 1 := by
  have e0 : float_to_s16 (exGenPoint.baseTerrainLevelAtPoint exNoiseLib 0 0).1 = 0 := by
    decide!
  refine ⟨(getGroundLevelAtPoint_spec exNoiseLib exGen ⟨0, 0⟩).1 (by decide!), ?_⟩
  refine ((getGroundLevelAtPoint_spec exNoiseLib exGenPoint ⟨0, 0⟩).2 (by decide!)
    (by decide!)).1 1 (by decide!) (by decide!) (by decide!) ?_
  intro k hk1 hk2
  have hk : k = 0 := by
    simp only [e0] at hk1
    omega
  subst hk
  decide!

/-- C5. Noise-cave block of `generateCaves` when `max_stone_y ≥ node_min.Y`
(with `ystride` the width of the chunk, so that `index2d` is the column index):
a cell becomes `AIR` exactly when it is visited by the loops, is not `AIR`,
`contour(cave1_map[xyz]) * contour(cave2_map[xyz]) > 0.3` in the `float`
arithmetic of the source (both contours and their product rounded to `float`,
`f32`, against the `double` `0.3`), and either
`y > water_level` or its content is generic `STONE` or the `stone` of the biome
of the column; every other cell is unchanged.  In particular a visited generic
`STONE` cell above `water_level` with contour product above `0.3` is `AIR`
afterwards. -/
theorem generateCavesNoise_cell (g : MapgenV7) (max_stone_y : Int)
    (hys : g.ystride = g.rowLen) (hmax : max_stone_y ≥ g.node_min.Y) :
    (∀ x y z, (g.generateCavesNoise max_stone_y).vm x y z =
      if g.inChunk x y z ∧ g.vm x y z ≠ CONTENT_AIR ∧
          f32 (f32 (contour (g.noise_cave1.result (g.cellIndex x y z)))
            * f32 (contour (g.noise_cave2.result (g.cellIndex x y z)))) > f64 (3 / 10) ∧
          (y > g.water_level ∨ g.vm x y z = g.c_stone
            ∨ g.vm x y z = (g.bmgr.get (g.biomemap (g.columnIndex x z))).c_stone)
      then CONTENT_AIR else g.vm x y z) ∧
    (∀ x y z, g.inChunk x y z → g.vm x y z = g.c_stone → y > g.water_level →
      f32 (f32 (contour (g.noise_cave1.result (g.cellIndex x y z)))
            * f32 (contour (g.noise_cave2.result (g.cellIndex x y z)))) > f64 (3 / 10) →
      (g.generateCavesNoise max_stone_y).vm x y z = CONTENT_AIR) := by
  have hvm : ∀ x y z, (g.generateCavesNoise max_stone_y).vm x y z
      = (g.caveLoop ((g.vm, 0), 0)).1.1 x y z := by
    intro x y z
    unfold MapgenV7.generateCavesNoise
    rw [if_pos hmax]
  constructor
  · intro x y z
    rw [hvm, caveLoop_vm g hys]
  · intro x y z hin hst hy hd
    rw [hvm, caveLoop_vm g hys]
    by_cases ha : g.vm x y z = CONTENT_AIR
    · rw [if_neg (fun hh => hh.2.1 ha)]
      exact ha
    · have hall : g.inChunk x y z ∧ g.vm x y z ≠ CONTENT_AIR ∧
          f32 (f32 (contour (g.noise_cave1.result (g.cellIndex x y z)))
            * f32 (contour (g.noise_cave2.result (g.cellIndex x y z)))) > f64 (3 / 10) ∧
          (y > g.water_level ∨ g.vm x y z = g.c_stone
            ∨ g.vm x y z = (g.bmgr.get (g.biomemap (g.columnIndex x z))).c_stone) :=
        ⟨hin, ha, hd, Or.inl hy⟩
      rw [if_pos hall]

/-- Witness for C5: on the example generator filled with generic stone the
cell `(0, 5, 0)`, above `water_level = 1`, is `AIR` after the noise caves. -/
theorem generateCavesNoise_cell_witness :
    (exGenStone.ystride = exGenStone.rowLen ∧ (20 : Int) ≥ exGenStone.node_min.Y) ∧
    (exGenStone.generateCavesNoise 20).vm 0 5 0 = CONTENT_AIR :=
  ⟨by decide, (generateCavesNoise_cell exGenStone 20 (by decide) (by decide)).2 0 5 0
    (by decide) (by decide) (by decide) (by decide!)⟩

/-- C6. `dustTopNodes` when `node_max.Y ≥ water_level`: in a chunk column whose
biome has a dust block `D` (not `IGNORE`), whose cell at `full_node_max.Y` is
`AIR`, and in which the first cell that is not `AIR` on the way down from
`full_node_max.Y - 1` lies at a height `h ≥ node_min.Y - 1` and is neither
`buildable_to`, nor `IGNORE`, nor `D`: afterwards the cell at `(x, h + 1, z)`
holds `D` and the cell at `(x, h, z)` is unchanged. -/
theorem dustTopNodes_place (g : MapgenV7) (x z h : Int)
    (hw : g.node_max.Y ≥ g.water_level)
    (hx : g.node_min.X ≤ x ∧ x ≤ g.node_max.X) (hz : g.node_min.Z ≤ z ∧ z ≤ g.node_max.Z)
    (hd : (g.bmgr.get (g.biomemap (g.columnIndex x z))).c_dust ≠ CONTENT_IGNORE)
    (htop : g.vm x g.full_node_max.Y z = CONTENT_AIR)
    (hh1 : g.node_min.Y - 1 ≤ h) (hh2 : h ≤ g.full_node_max.Y - 1)
    (hair : ∀ y, h < y → y ≤ g.full_node_max.Y - 1 → g.vm x y z = CONTENT_AIR)
    (hna : g.vm x h z ≠ CONTENT_AIR)
    (hb : g.ndef.buildable_to (g.vm x h z) = false)
    (hi : g.vm x h z ≠ CONTENT_IGNORE)
    (hnd : g.vm x h z ≠ (g.bmgr.get (g.biomemap (g.columnIndex x z))).c_dust) :
    (g.dustTopNodes).vm x (h + 1) z = (g.bmgr.get (g.biomemap (g.columnIndex x z))).c_dust ∧
      (g.dustTopNodes).vm x h z = g.vm x h z := by
  have hvm : ∀ y, (g.dustTopNodes).vm x y z
      = setNode g.vm x (h + 1) z (g.bmgr.get (g.biomemap (g.columnIndex x z))).c_dust x y z := by
    intro y
    unfold MapgenV7.dustTopNodes
    rw [if_neg (not_lt.mpr hw)]
    show (g.dustLoop (g.vm, 0)).1 x y z = _
    rw [dustLoop_vm g g.vm x y z hx hz,
      dustColumn_place g x z _ g.vm h hd htop hh1 hh2 hair hna hb hi hnd]
  constructor
  · rw [hvm, setNode_same]
  · rw [hvm, setNode_other]
    intro hc
    have := hc.2.1
    omega

/-- Witness for C6 (the spec instance scaled down): snow biome, stone up to
`h = 3` under air; afterwards snow at `y = 4` and the stone at `y = 3`
unchanged. -/
theorem dustTopNodes_place_witness :
    (exGenSnow.dustTopNodes).vm 0 (3 + 1) 0 = 20 ∧
      (exGenSnow.dustTopNodes).vm 0 3 0 = exGenSnow.vm 0 3 0 :=
  dustTopNodes_place exGenSnow 0 0 3 (by decide) (by decide) (by decide) (by decide)
    (by decide) (by decide) (by decide)
    (fun y h1 h2 => by
      show (if y ≤ 3 then 1 else CONTENT_AIR) = CONTENT_AIR
      rw [if_neg (by omega)])
    (by decide) (by decide) (by decide) (by decide)

/-- C2. `generateBiomes` top-cap, for a chunk with `node_max.Y ≥ water_level`
and stone and water ids that are not sentinels: in a chunk column in which the
cells with `h < y ≤ node_max.Y + 1` are `AIR` and the cells with
`node_min.Y - 1 ≤ y ≤ h` are generic `STONE` (`node_min.Y ≤ h ≤ node_max.Y`),
and for which the lookup returns one biome `B` at every height, with
`t = B.depth_top ≥ 0` and filler depth `d = (s16)(B.depth_filler +
filler_depth_map[i]) ≥ 0`, where the sum is the `float` addition of the source
(rounded to `float`, `f32`) and the conversion discards the fraction (`t + d`
inside the 16-bit range of `y0_filler`): the
scan of the column dereferences no null biome; in the buffer that the pass
returns the cells with `h - t < y ≤ h` hold `B.top`, the cells with
`h - t - d < y ≤ h - t` hold `B.filler`, and the cells with
`node_min.Y ≤ y ≤ h - t - d` hold `B.stone`; and the pass does return when no
cell of the chunk holds `IGNORE`. -/
theorem generateBiomes_topCap (g : MapgenV7) (heat hum : Int → ℚ) (x z h : Int) (B : Biome)
    (hw : g.node_max.Y ≥ g.water_level)
    (hx : g.node_min.X ≤ x ∧ x ≤ g.node_max.X) (hz : g.node_min.Z ≤ z ∧ z ≤ g.node_max.Z)
    (hs1 : g.c_stone ≠ CONTENT_AIR) (hs2 : g.c_stone ≠ CONTENT_IGNORE)
    (hw1 : g.c_water_source ≠ CONTENT_AIR)
    (hh : g.node_min.Y ≤ h ∧ h ≤ g.node_max.Y)
    (hair : ∀ y, h < y → y ≤ g.node_max.Y + 1 → g.vm x y z = CONTENT_AIR)
    (hst : ∀ y, g.node_min.Y - 1 ≤ y → y ≤ h → g.vm x y z = g.c_stone)
    (hB : ∀ y, g.bmgr.getBiome (heat (g.columnIndex x z)) (hum (g.columnIndex x z)) y = B)
    (ht : 0 ≤ B.depth_top)
    (hd : 0 ≤ float_to_s16 (f32 ((B.depth_filler : ℚ)
          + g.noise_filler_depth.result (g.columnIndex x z))))
    (hr : B.depth_top + float_to_s16 (f32 ((B.depth_filler : ℚ)
          + g.noise_filler_depth.result (g.columnIndex x z))) ≤ 32767) :
    (g.biomeColumn heat hum x z (g.columnIndex x z)
      { vm := g.vm, desert_stone := false, fault := false }).fault = false ∧
    (∀ (g1 : MapgenV7) (ds : Bool), g.generateBiomes heat hum = some (g1, ds) →
      ∀ y, g.node_min.Y ≤ y → y ≤ h →
        (h - B.depth_top < y → g1.vm x y z = B.c_top) ∧
        (h - B.depth_top - float_to_s16 (f32 ((B.depth_filler : ℚ)
          + g.noise_filler_depth.result (g.columnIndex x z))) < y →
          y ≤ h - B.depth_top → g1.vm x y z = B.c_filler) ∧
        (y ≤ h - B.depth_top - float_to_s16 (f32 ((B.depth_filler : ℚ)
          + g.noise_filler_depth.result (g.columnIndex x z))) → g1.vm x y z = B.c_stone)) ∧
    ((∀ a b c, g.node_min.X ≤ a → a ≤ g.node_max.X → g.node_min.Y ≤ b → b ≤ g.node_max.Y →
        g.node_min.Z ≤ c → c ≤ g.node_max.Z → g.vm a b c ≠ CONTENT_IGNORE) →
      (g.generateBiomes heat hum).isSome = true) := by
  have hrun := generateBiomes_run g heat hum x z B
    (float_to_s16 (f32 ((B.depth_filler : ℚ)
          + g.noise_filler_depth.result (g.columnIndex x z))))
    h (g.node_min.Y - 1)
    (float_to_s16 (f32 ((B.depth_filler : ℚ)
          + g.noise_filler_depth.result (g.columnIndex x z))))
    hw hx hz hB hs1 hs2 hw1 rfl ht hd (le_refl _) (Or.inl rfl) hr (by omega) hh hair hst
  refine ⟨hrun.1, ?_, generateBiomes_returns g heat hum hs1 hw1⟩
  intro g1 ds hgen y hy1 hy2
  have hcell := hrun.2 g1 ds hgen y hy1 (by omega) hy2
  unfold Biome.runCell Biome.layer at hcell
  rw [if_neg (fun hc => by have := hc.1; omega)] at hcell
  refine ⟨fun h1 => ?_, fun h1 h2 => ?_, fun h1 => ?_⟩
  · rw [hcell, if_pos (by omega)]
  · rw [hcell, if_neg (by omega), if_pos (by omega)]
  · rw [hcell, if_neg (by omega), if_neg (by omega)]

/-- Witness for C2 (the spec instance scaled down): `t = 1`, `d = 3`, `h = 5`
on the chunk `y = 0 .. 7`; the pass returns, with top at `5`, filler at `4` and
`2`, stone at `1`. -/
theorem generateBiomes_topCap_witness :
    (exGenFlat.generateBiomes exHeat exHeat).map
        (fun r => (r.1.vm 0 5 0, r.1.vm 0 4 0, r.1.vm 0 2 0, r.1.vm 0 1 0))
      = some (exBiome.c_top, exBiome.c_filler, exBiome.c_filler, exBiome.c_stone) := by
  have hair : ∀ y : Int, 5 < y → y ≤ exGenFlat.node_max.Y + 1 →
      exGenFlat.vm 0 y 0 = CONTENT_AIR := by
    intro y h1 _
    show (if y ≤ 5 then 1 else CONTENT_AIR) = CONTENT_AIR
    rw [if_neg (by omega)]
  have hst : ∀ y : Int, exGenFlat.node_min.Y - 1 ≤ y → y ≤ 5 →
      exGenFlat.vm 0 y 0 = exGenFlat.c_stone := by
    intro y _ h2
    show (if y ≤ 5 then 1 else CONTENT_AIR) = 1
    rw [if_pos h2]
  have hthm := generateBiomes_topCap exGenFlat exHeat exHeat 0 0 5 exBiome (by decide)
    (by decide) (by decide) (by decide) (by decide) (by decide) (by decide) hair hst
    (fun _ => rfl) (by decide) (by decide!) (by decide!)
  have hsome : (exGenFlat.generateBiomes exHeat exHeat).isSome = true := by
    refine hthm.2.2 ?_
    intro a b c _ _ _ _ _ _
    show (if b ≤ 5 then 1 else CONTENT_AIR) ≠ CONTENT_IGNORE
    split_ifs <;> decide
  have e : float_to_s16 (f32 ((exBiome.depth_filler : ℚ)
          + exGenFlat.noise_filler_depth.result (exGenFlat.columnIndex 0 0))) = 3 := by decide!
  cases hgen : exGenFlat.generateBiomes exHeat exHeat with
  | none => rw [hgen] at hsome; exact absurd hsome (by decide)
  | some r =>
    have h5 := hthm.2.1 r.1 r.2 hgen 5 (by decide) (by decide)
    have h4 := hthm.2.1 r.1 r.2 hgen 4 (by decide) (by decide)
    have h2 := hthm.2.1 r.1 r.2 hgen 2 (by decide) (by decide)
    have h1 := hthm.2.1 r.1 r.2 hgen 1 (by decide) (by decide)
    rw [e] at h5 h4 h2 h1
    show some (r.1.vm 0 5 0, r.1.vm 0 4 0, r.1.vm 0 2 0, r.1.vm 0 1 0) = _
    rw [h5.1 (by decide), h4.2.1 (by decide) (by decide), h2.2.1 (by decide) (by decide),
      h1.2.2 (by decide)]

/-- C10, counterexample.  In the example column with a single cell of generic
stone at `y = 5`, `AIR` above and below it, and a biome with `depth_top = 1`,
the run gets no `top` cell: after `generateBiomes` the cell holds the biome
`stone`. -/
theorem biomeLayering_counterexample :
    exGenOverhang.vm 0 6 0 = CONTENT_AIR ∧ exGenOverhang.vm 0 5 0 = exGenOverhang.c_stone ∧
    exGenOverhang.vm 0 4 0 = CONTENT_AIR ∧
    (exGenOverhang.bmgr.getBiome (exHeat 0) (exHeat 0) 5).depth_top = 1 ∧
    (exGenOverhang.generateBiomes exHeat exHeat).map (fun r => r.1.vm 0 5 0)
      = some exBiome.c_stone ∧
    exBiome.c_stone ≠ exBiome.c_top := by
  decide!

/-- C10, amended.  For a chunk with `node_max.Y ≥ water_level` and stone and
water ids that are not sentinels: in a chunk column whose highest run of
generic `STONE` is `b .. h` (`node_min.Y ≤ b ≤ h ≤ node_max.Y`, `AIR` from
`h + 1` to `node_max.Y + 1`), with one biome `B` at every height,
`t = B.depth_top ≥ 0`, `d = (s16)(B.depth_filler + filler_depth_map[i])` (the
sum is the `float` addition of the source, rounded to `float` by `f32`, and the
conversion discards the fraction) and
`t + max(d, 0)` inside the 16-bit range: the scan of the column dereferences
no null biome; in the buffer that the pass returns, the cell at depth
`k = h - y` of the run holds `B.top` for `k < t`, `B.filler` for
`t ≤ k < t + max(d, 0)` and `B.stone` below, except that the lowest cell of the
run holds `B.stone` whenever `AIR` lies directly below it; and the pass does
return when no cell of the chunk holds `IGNORE`. -/
theorem biomeLayering_amended (g : MapgenV7) (heat hum : Int → ℚ) (x z h b : Int) (B : Biome)
    (hw : g.node_max.Y ≥ g.water_level)
    (hx : g.node_min.X ≤ x ∧ x ≤ g.node_max.X) (hz : g.node_min.Z ≤ z ∧ z ≤ g.node_max.Z)
    (hs1 : g.c_stone ≠ CONTENT_AIR) (hs2 : g.c_stone ≠ CONTENT_IGNORE)
    (hw1 : g.c_water_source ≠ CONTENT_AIR)
    (hb : g.node_min.Y ≤ b ∧ b ≤ h) (hh : h ≤ g.node_max.Y)
    (hair : ∀ y, h < y → y ≤ g.node_max.Y + 1 → g.vm x y z = CONTENT_AIR)
    (hst : ∀ y, b ≤ y → y ≤ h → g.vm x y z = g.c_stone)
    (hB : ∀ y, g.bmgr.getBiome (heat (g.columnIndex x z)) (hum (g.columnIndex x z)) y = B)
    (ht : 0 ≤ B.depth_top)
    (hr : B.depth_top + max (float_to_s16 (f32 ((B.depth_filler : ℚ)
          + g.noise_filler_depth.result (g.columnIndex x z)))) 0 ≤ 32767) :
    (g.biomeColumn heat hum x z (g.columnIndex x z)
      { vm := g.vm, desert_stone := false, fault := false }).fault = false ∧
    (∀ (g1 : MapgenV7) (ds : Bool), g.generateBiomes heat hum = some (g1, ds) →
      ∀ y, b ≤ y → y ≤ h →
        g1.vm x y z =
          if y = b ∧ g.vm x (b - 1) z = CONTENT_AIR then B.c_stone
          else if h - y < B.depth_top then B.c_top
          else if h - y < B.depth_top + max (float_to_s16 (f32 ((B.depth_filler : ℚ)
          + g.noise_filler_depth.result (g.columnIndex x z)))) 0 then B.c_filler
          else B.c_stone) ∧
    ((∀ a b c, g.node_min.X ≤ a → a ≤ g.node_max.X → g.node_min.Y ≤ b → b ≤ g.node_max.Y →
        g.node_min.Z ≤ c → c ≤ g.node_max.Z → g.vm a b c ≠ CONTENT_IGNORE) →
      (g.generateBiomes heat hum).isSome = true) := by
  have hrun := generateBiomes_run g heat hum x z B
    (max (float_to_s16 (f32 ((B.depth_filler : ℚ)
          + g.noise_filler_depth.result (g.columnIndex x z)))) 0)
    h b
    (float_to_s16 (f32 ((B.depth_filler : ℚ)
          + g.noise_filler_depth.result (g.columnIndex x z))))
    hw hx hz hB hs1 hs2 hw1 rfl ht (le_max_right _ _) (le_max_left _ _)
    (max_choice _ _) hr hb.2 ⟨by omega, hh⟩ hair hst
  refine ⟨hrun.1, ?_, generateBiomes_returns g heat hum hs1 hw1⟩
  intro g1 ds hgen y hy1 hy2
  have hcell := hrun.2 g1 ds hgen y (by omega) hy1 hy2
  unfold Biome.runCell Biome.layer at hcell
  exact hcell

/-- Witness for the amended C10: a shelf of generic stone at `y = 3 .. 5` with
air below; the pass returns with `top` at `5`, `filler` at `4`, and the biome
`stone` at the floor cell `3`. -/
theorem biomeLayering_amended_witness :
    (exGenShelf.generateBiomes exHeat exHeat).map
        (fun r => (r.1.vm 0 5 0, r.1.vm 0 4 0, r.1.vm 0 3 0))
      = some (exBiome.c_top, exBiome.c_filler, exBiome.c_stone) := by
  have hair : ∀ y : Int, 5 < y → y ≤ exGenShelf.node_max.Y + 1 →
      exGenShelf.vm 0 y 0 = CONTENT_AIR := by
    intro y h1 _
    show (if 3 ≤ y ∧ y ≤ 5 then 1 else CONTENT_AIR) = CONTENT_AIR
    rw [if_neg (by omega)]
  have hst : ∀ y : Int, 3 ≤ y → y ≤ 5 → exGenShelf.vm 0 y 0 = exGenShelf.c_stone := by
    intro y h1 h2
    show (if 3 ≤ y ∧ y ≤ 5 then 1 else CONTENT_AIR) = 1
    rw [if_pos ⟨h1, h2⟩]
  have hthm := biomeLayering_amended exGenShelf exHeat exHeat 0 0 5 3 exBiome (by decide)
    (by decide) (by decide) (by decide) (by decide) (by decide) (by decide) (by decide)
    hair hst (fun _ => rfl) (by decide) (by decide!)
  have hsome : (exGenShelf.generateBiomes exHeat exHeat).isSome = true := by
    refine hthm.2.2 ?_
    intro a b c _ _ _ _ _ _
    show (if 3 ≤ b ∧ b ≤ 5 then 1 else CONTENT_AIR) ≠ CONTENT_IGNORE
    split_ifs <;> decide
  have e : max (float_to_s16 (f32 ((exBiome.depth_filler : ℚ)
          + exGenShelf.noise_filler_depth.result (exGenShelf.columnIndex 0 0)))) 0 = 3 := by
    decide!
  have a0 : exGenShelf.vm 0 (3 - 1) 0 = CONTENT_AIR := by decide
  cases hgen : exGenShelf.generateBiomes exHeat exHeat with
  | none => rw [hgen] at hsome; exact absurd hsome (by decide)
  | some r =>
    have h5 := hthm.2.1 r.1 r.2 hgen 5 (by decide) (by decide)
    have h4 := hthm.2.1 r.1 r.2 hgen 4 (by decide) (by decide)
    have h3 := hthm.2.1 r.1 r.2 hgen 3 (by decide) (by decide)
    rw [e, a0] at h5 h4 h3
    have h5a : r.1.vm 0 5 0 = exBiome.c_top := by simpa using h5
    have h4a : r.1.vm 0 4 0 = exBiome.c_filler := by simpa using h4
    have h3a : r.1.vm 0 3 0 = exBiome.c_stone := by simpa using h3
    show some (r.1.vm 0 5 0, r.1.vm 0 4 0, r.1.vm 0 3 0) = _
    rw [h5a, h4a, h3a]

/-! ## Claims C11 to C21 -/

/-- C11, counterexample.  On the example request (one-column chunk `y = 0 .. 7`,
base level 3, snow biome, mountains, ridges, caves and dungeons off) `makeChunk`
returns with `heightmap[0] = 3`, the surface found by the refresh, while the
buffer it returns holds the dust block at `(0, 4, 0)`, placed by `dustTopNodes`
after the refresh, and `AIR` above it: the greatest `y` in `[node_min.Y,
node_max.Y]` whose cell is neither `AIR` nor `IGNORE` is 4, not 3. -/
theorem heightmapEnd_counterexample :
    (exGenChunk.makeChunk exLib exData).map (fun g => g.node_min.Y) = some 0 ∧
    (exGenChunk.makeChunk exLib exData).map (fun g => g.node_max.Y) = some 7 ∧
    (exGenChunk.makeChunk exLib exData).map (fun g => g.heightmap (g.columnIndex 0 0))
      = some 3 ∧
    (exGenChunk.makeChunk exLib exData).map (fun g => g.vm 0 4 0) = some exBiomeSnow.c_dust ∧
    (exGenChunk.makeChunk exLib exData).map (fun g => g.vm 0 5 0) = some CONTENT_AIR ∧
    (exGenChunk.makeChunk exLib exData).map (fun g => g.vm 0 6 0) = some CONTENT_AIR ∧
    (exGenChunk.makeChunk exLib exData).map (fun g => g.vm 0 7 0) = some CONTENT_AIR ∧
    exBiomeSnow.c_dust ≠ CONTENT_AIR ∧ exBiomeSnow.c_dust ≠ CONTENT_IGNORE := by
  decide!

/-- C11, amended.  The refresh `updateHeightmap` is modelled from the
specification.  When `makeChunk` returns, for every column of the chunk
`heightmap[i]` is the greatest `y` in `[node_min.Y, node_max.Y]` whose cell is
neither `AIR` nor `IGNORE` in the voxel buffer as `generateTerrain` left it (the
buffer at the refresh), or `node_min.Y - 1` if the column has no such cell; the
passes that run afterwards leave `heightmap` as it is.  And `makeChunk` does
return when the assertions on the block positions hold and the stone and water
ids are not sentinels. -/
theorem heightmapEnd_amended {ρ : Type} (lib : ChunkLib ρ) (g : MapgenV7) (data : BlockMakeData)
    (hB : 0 < lib.MAP_BLOCKSIZE) :
    (∀ g1, g.makeChunk lib data = some g1 →
      g1.node_min = (g.afterTerrain lib data).node_min ∧
      g1.node_max = (g.afterTerrain lib data).node_max ∧
      g1.node_min.Y ≤ g1.node_max.Y ∧
      ∀ x z, g1.node_min.X ≤ x → x ≤ g1.node_max.X → g1.node_min.Z ≤ z → z ≤ g1.node_max.Z →
        g1.node_min.Y - 1 ≤ g1.heightmap (g1.columnIndex x z) ∧
        g1.heightmap (g1.columnIndex x z) ≤ g1.node_max.Y ∧
        (∀ y, g1.heightmap (g1.columnIndex x z) < y → y ≤ g1.node_max.Y →
          (g.afterTerrain lib data).vm x y z = CONTENT_AIR ∨
          (g.afterTerrain lib data).vm x y z = CONTENT_IGNORE) ∧
        (g1.node_min.Y ≤ g1.heightmap (g1.columnIndex x z) →
          (g.afterTerrain lib data).vm x (g1.heightmap (g1.columnIndex x z)) z ≠ CONTENT_AIR ∧
          (g.afterTerrain lib data).vm x (g1.heightmap (g1.columnIndex x z)) z
            ≠ CONTENT_IGNORE)) ∧
    (((data.blockpos_requested.X ≥ data.blockpos_min.X ∧
        data.blockpos_requested.Y ≥ data.blockpos_min.Y ∧
        data.blockpos_requested.Z ≥ data.blockpos_min.Z) ∧
       (data.blockpos_requested.X ≤ data.blockpos_max.X ∧
        data.blockpos_requested.Y ≤ data.blockpos_max.Y ∧
        data.blockpos_requested.Z ≤ data.blockpos_max.Z)) →
      g.c_stone ≠ CONTENT_AIR → g.c_stone ≠ CONTENT_IGNORE →
      g.c_water_source ≠ CONTENT_AIR → g.c_water_source ≠ CONTENT_IGNORE →
      (g.makeChunk lib data).isSome = true) := by
  refine ⟨?_, makeChunk_returns lib g data⟩
  intro g1 hsome
  obtain ⟨⟨v, hv⟩, hbp⟩ := makeChunk_some lib g data g1 hsome
  have hfr := afterTerrain_frame lib g data
  have hi := makeChunkInit_frame lib g data
  have n1 : g1.node_min = (g.afterTerrain lib data).node_min := by rw [hv]; rfl
  have n2 : g1.node_max = (g.afterTerrain lib data).node_max := by rw [hv]; rfl
  have hh : g1.heightmap
      = ((g.afterTerrain lib data).updateHeightmap (g.afterTerrain lib data).node_min
          (g.afterTerrain lib data).node_max).heightmap := by rw [hv]; rfl
  have hci : ∀ x z, g1.columnIndex x z = (g.afterTerrain lib data).columnIndex x z := by
    intro x z
    unfold MapgenV7.columnIndex MapgenV7.rowLen
    rw [n1, n2]
  have hY : g1.node_min.Y ≤ g1.node_max.Y := by
    rw [n1, n2, hfr.1, hfr.2.1, hi.1, hi.2.1]
    show data.blockpos_min.Y * lib.MAP_BLOCKSIZE
      ≤ (data.blockpos_max.Y + 1) * lib.MAP_BLOCKSIZE - 1
    have h1 : data.blockpos_min.Y * lib.MAP_BLOCKSIZE
        ≤ data.blockpos_max.Y * lib.MAP_BLOCKSIZE :=
      mul_le_mul_of_nonneg_right hbp.2.1 (le_of_lt hB)
    nlinarith
  refine ⟨n1, n2, hY, ?_⟩
  intro x z hx1 hx2 hz1 hz2
  rw [hh, hci, n1, n2]
  rw [n1, n2] at hY
  rw [n1] at hx1 hz1
  rw [n2] at hx2 hz2
  rw [updateHeightmap_entry (g.afterTerrain lib data) x z ⟨hx1, hx2⟩ ⟨hz1, hz2⟩]
  have hs := groundScan_spec (g.afterTerrain lib data).vm x z
    ((g.afterTerrain lib data).node_max.Y + 1 - (g.afterTerrain lib data).node_min.Y).toNat
    (g.afterTerrain lib data).node_max.Y
  have hn : (((g.afterTerrain lib data).node_max.Y + 1
      - (g.afterTerrain lib data).node_min.Y).toNat : Int)
      = (g.afterTerrain lib data).node_max.Y + 1 - (g.afterTerrain lib data).node_min.Y := by
    omega
  rw [hn] at hs
  refine ⟨by have := hs.1; omega, hs.2.1, hs.2.2.1, fun h => hs.2.2.2 (by omega)⟩

/-- Witness for the amended C11 on the example request: `makeChunk` returns and
the entry of column `(0, 0)` is at most `node_max.Y`. -/
theorem heightmapEnd_amended_witness :
    (exGenChunk.makeChunk exLib exData).isSome = true ∧
    (exGenChunk.makeChunk exLib exData).map
        (fun g1 => decide (g1.heightmap (g1.columnIndex 0 0) ≤ g1.node_max.Y)) = some true := by
  have hsome := (heightmapEnd_amended exLib exGenChunk exData (by decide)).2 (by decide)
    (by decide) (by decide) (by decide) (by decide)
  refine ⟨hsome, ?_⟩
  cases hgen : exGenChunk.makeChunk exLib exData with
  | none => rw [hgen] at hsome; exact absurd hsome (by decide)
  | some g1 =>
    have h := (heightmapEnd_amended exLib exGenChunk exData (by decide)).1 g1 hgen
    have hc := (h.2.2.2 0 0 (by rw [h.1]; decide) (by rw [h.2.1]; decide)
      (by rw [h.1]; decide) (by rw [h.2.1]; decide)).2.1
    show some (decide (g1.heightmap (g1.columnIndex 0 0) ≤ g1.node_max.Y)) = some true
    rw [decide_eq_true hc]

/-- C12, counterexample.  At a point outside every river channel (`2 *
ridge_uwater_noise = 2`, above `0.2` exactly and for the rounded test of the
source) with base
level 0 and `mountain_noise_3d * mount_height_noise = 1/2` at every height, the
cell at `y = 0` is solid (base and mountain) and no cell with `y ≥ 1` is solid,
so the topmost solid cell is at `y = 0`; `getGroundLevelAtPoint` returns 1, the
first cell that is not mountain-solid. -/
theorem groundLevel_counterexample :
    ¬ |2 * exNoiseLib.NoisePerlin2D exGenHill.noise_ridge_uwater.np 0 0 exGenHill.seed|
        ≤ 2 / 10 ∧
    ¬ |f32 (exNoiseLib.NoisePerlin2D exGenHill.noise_ridge_uwater.np 0 0 exGenHill.seed * 2)|
        ≤ f32 (f64 (2 / 10)) ∧
    (exGenHill.baseTerrainLevelAtPoint exNoiseLib 0 0).1 = 0 ∧
    (exGenHill.getGroundLevelAtPoint exNoiseLib ⟨0, 0⟩).1 = 1 ∧
    exGenHill.getMountainTerrainAtPoint exNoiseLib 0 0 0 = true ∧
    exGenHill.getMountainTerrainAtPoint exNoiseLib 0 1 0 = false ∧
    ¬ ((1 : ℚ) ≤ (exGenHill.baseTerrainLevelAtPoint exNoiseLib 0 0).1) ∧
    (∀ y : Int, 1 ≤ y → exGenHill.getMountainTerrainAtPoint exNoiseLib 0 y 0 = false ∧
      ¬ ((y : ℚ) ≤ (exGenHill.baseTerrainLevelAtPoint exNoiseLib 0 0).1)) := by
  refine ⟨by decide!, by decide!, by decide!, by decide!, by decide!, by decide!, by decide!,
    ?_⟩
  intro y hy
  have hb : (exGenHill.baseTerrainLevelAtPoint exNoiseLib 0 0).1 = 0 := by decide!
  have hq : (1 : ℚ) ≤ (y : ℚ) := by exact_mod_cast hy
  constructor
  · cases h : exGenHill.getMountainTerrainAtPoint exNoiseLib 0 y 0
    · rfl
    · have h2 := (getMountainTerrainAtPoint_iff exNoiseLib exGenHill 0 y 0).1 h
      have e : exNoiseLib.NoisePerlin3D exGenHill.noise_mountain.np 0 y 0 exGenHill.seed
          * exNoiseLib.NoisePerlin2D exGenHill.noise_mount_height.np 0 0 exGenHill.seed
          = 1 / 2 := by
        show (1 / 2 : ℚ) * 1 = 1 / 2
        norm_num
      rw [e] at h2
      have h3 := f32_mono _ _ hq
      have h4 : f32 1 = 1 := by decide!
      have h5 : f32 (1 / 2) = 1 / 2 := by decide!
      rw [h4] at h3
      rw [h5] at h2
      linarith
  · rw [hb]
    linarith

/-- C12, amended.  For a point that is not in a river channel (the test of the
source, `|f32 (ridge_uwater_noise * 2)| ≤ width` with `width` the `float`
nearest `0.2`, fails), with `y0` the base level converted to `s16` and `y0 +
128` inside the 16-bit range: the value `r` returned satisfies `y0 ≤ r ≤ y0 +
128`, every cell with `y0 ≤ y < r` is mountain-solid (`f32 (mountain_noise_3d *
mount_height_noise) ≥ (float)y`, the product rounded to `float` as in the
source), and the cell at `r` is not mountain-solid when `r < y0 + 128`: `r` is
the first cell at or above `y0` that is not mountain-solid (one above the run
of mountain-solid cells that starts at `y0`), and it is `y0` itself when the
cell at `y0` is not mountain-solid. -/
theorem groundLevel_amended (nl : NoiseLib) (g : MapgenV7) (p : v2s16)
    (hu : ¬ |f32 (nl.NoisePerlin2D g.noise_ridge_uwater.np p.X p.Y g.seed * 2)|
      ≤ f32 (f64 (2 / 10)))
    (hr : float_to_s16 (g.baseTerrainLevelAtPoint nl p.X p.Y).1 + 128 ≤ 32767) :
    float_to_s16 (g.baseTerrainLevelAtPoint nl p.X p.Y).1 ≤ (g.getGroundLevelAtPoint nl p).1 ∧
    (g.getGroundLevelAtPoint nl p).1
      ≤ float_to_s16 (g.baseTerrainLevelAtPoint nl p.X p.Y).1 + 128 ∧
    (∀ k, float_to_s16 (g.baseTerrainLevelAtPoint nl p.X p.Y).1 ≤ k →
      k < (g.getGroundLevelAtPoint nl p).1 →
      f32 (nl.NoisePerlin3D g.noise_mountain.np p.X k p.Y g.seed
        * nl.NoisePerlin2D g.noise_mount_height.np p.X p.Y g.seed)
          ≥ f32 (k : ℚ)) ∧
    ((g.getGroundLevelAtPoint nl p).1
        < float_to_s16 (g.baseTerrainLevelAtPoint nl p.X p.Y).1 + 128 →
      ¬ (f32 (nl.NoisePerlin3D g.noise_mountain.np p.X (g.getGroundLevelAtPoint nl p).1 p.Y
            g.seed
          * nl.NoisePerlin2D g.noise_mount_height.np p.X p.Y g.seed)
          ≥ f32 (((g.getGroundLevelAtPoint nl p).1 : Int) : ℚ))) ∧
    (¬ (f32 (nl.NoisePerlin3D g.noise_mountain.np p.X
            (float_to_s16 (g.baseTerrainLevelAtPoint nl p.X p.Y).1) p.Y g.seed
          * nl.NoisePerlin2D g.noise_mount_height.np p.X p.Y g.seed)
          ≥ f32 ((float_to_s16 (g.baseTerrainLevelAtPoint nl p.X p.Y).1 : Int) : ℚ)) →
      (g.getGroundLevelAtPoint nl p).1
        = float_to_s16 (g.baseTerrainLevelAtPoint nl p.X p.Y).1) := by
  have hp := groundProbe_run nl (g.baseTerrainLevelAtPoint nl p.X p.Y).2 p.X p.Y 128
    (float_to_s16 (g.baseTerrainLevelAtPoint nl p.X p.Y).1)
    (float_to_s16_range _).1 (by push_cast; omega)
  rw [getGroundLevelAtPoint_fst, if_neg hu]
  refine ⟨hp.1, by have := hp.2.1; push_cast at this; exact this, fun k h1 h2 => ?_,
    fun h => ?_, fun h => ?_⟩
  · have := hp.2.2.1 k h1 h2
    rw [getGroundLevelAtPoint_mountain] at this
    exact (getMountainTerrainAtPoint_iff nl g p.X k p.Y).1 this
  · have := hp.2.2.2 (by push_cast; exact h)
    rw [getGroundLevelAtPoint_mountain] at this
    intro hc
    rw [(getMountainTerrainAtPoint_iff nl g p.X _ p.Y).2 hc] at this
    exact Bool.noConfusion this
  · by_contra hne
    have hlt := lt_of_le_of_ne hp.1 (fun e => hne e.symm)
    have := hp.2.2.1 _ (le_refl _) hlt
    rw [getGroundLevelAtPoint_mountain] at this
    exact h ((getMountainTerrainAtPoint_iff nl g p.X _ p.Y).1 this)

/-- Witness for the amended C12 on the example point. -/
theorem groundLevel_amended_witness :
    float_to_s16 (exGenHill.baseTerrainLevelAtPoint exNoiseLib 0 0).1
      ≤ (exGenHill.getGroundLevelAtPoint exNoiseLib ⟨0, 0⟩).1 ∧
    (exGenHill.getGroundLevelAtPoint exNoiseLib ⟨0, 0⟩).1
      ≤ float_to_s16 (exGenHill.baseTerrainLevelAtPoint exNoiseLib 0 0).1 + 128 :=
  ⟨(groundLevel_amended exNoiseLib exGenHill ⟨0, 0⟩ (by decide!) (by decide!)).1,
    (groundLevel_amended exNoiseLib exGenHill ⟨0, 0⟩ (by decide!) (by decide!)).2.1⟩

/-- C13, counterexample.  With a base level of `-1/2` in the column,
`generateBaseTerrain` writes `heightmap[0] = ridge_heightmap[0] = 0`, while the
floor of the base level is `-1`. -/
theorem surfaceFloor_counterexample :
    exGenNeg.baseTerrainLevelFromMap (exGenNeg.columnIndex 0 0) = -1 / 2 ∧
    ⌊exGenNeg.baseTerrainLevelFromMap (exGenNeg.columnIndex 0 0)⌋ = -1 ∧
    (exGenNeg.generateBaseTerrain).1.heightmap (exGenNeg.columnIndex 0 0) = 0 ∧
    (exGenNeg.generateBaseTerrain).1.ridge_heightmap (exGenNeg.columnIndex 0 0) = 0 := by
  decide!

/-- C13, amended.  For every column of the chunk whose base level `L` converts
into the 16-bit range (`-32769 < L < 32768`), `generateBaseTerrain` writes
`heightmap[i] = ridge_heightmap[i] = L` truncated toward zero (the conversion
`(s16)surface_height`): the floor of `L` when `L ≥ 0` or `L` is an integer, and
the floor plus one when `L` is negative and not an integer. -/
theorem surfaceTrunc_amended (g : MapgenV7) (x z : Int)
    (hx : g.node_min.X ≤ x ∧ x ≤ g.node_max.X) (hz : g.node_min.Z ≤ z ∧ z ≤ g.node_max.Z)
    (h1 : -32769 < g.baseTerrainLevelFromMap (g.columnIndex x z))
    (h2 : g.baseTerrainLevelFromMap (g.columnIndex x z) < 32768) :
    (g.generateBaseTerrain).1.heightmap (g.columnIndex x z)
      = (g.generateBaseTerrain).1.ridge_heightmap (g.columnIndex x z) ∧
    (g.generateBaseTerrain).1.heightmap (g.columnIndex x z)
      = (if 0 ≤ g.baseTerrainLevelFromMap (g.columnIndex x z)
          then ⌊g.baseTerrainLevelFromMap (g.columnIndex x z)⌋
          else ⌈g.baseTerrainLevelFromMap (g.columnIndex x z)⌉) ∧
    ((0 ≤ g.baseTerrainLevelFromMap (g.columnIndex x z) ∨
        ((⌊g.baseTerrainLevelFromMap (g.columnIndex x z)⌋ : Int) : ℚ)
          = g.baseTerrainLevelFromMap (g.columnIndex x z)) →
      (g.generateBaseTerrain).1.heightmap (g.columnIndex x z)
        = ⌊g.baseTerrainLevelFromMap (g.columnIndex x z)⌋) ∧
    (g.baseTerrainLevelFromMap (g.columnIndex x z) < 0 →
      ((⌊g.baseTerrainLevelFromMap (g.columnIndex x z)⌋ : Int) : ℚ)
          ≠ g.baseTerrainLevelFromMap (g.columnIndex x z) →
      (g.generateBaseTerrain).1.heightmap (g.columnIndex x z)
        = ⌊g.baseTerrainLevelFromMap (g.columnIndex x z)⌋ + 1) := by
  have hm := generateBaseTerrain_maps g x z hx hz
  have ht : g.surfaceY x z = _ := float_to_s16_trunc _ h1 h2
  generalize g.baseTerrainLevelFromMap (g.columnIndex x z) = L at *
  refine ⟨by rw [hm.1, hm.2], by rw [hm.1, ht], ?_, ?_⟩
  · intro h
    rw [hm.1, ht]
    rcases h with h | h
    · rw [if_pos h]
    · split_ifs
      · rfl
      · rw [← h, Int.ceil_intCast, Int.floor_intCast]
  · intro hneg hni
    rw [hm.1, ht, if_neg (not_le.mpr hneg)]
    exact Int.ceil_eq_iff.mpr ⟨by
      push_cast
      have := Int.floor_le L
      have h3 : ((⌊L⌋ : Int) : ℚ) < L := lt_of_le_of_ne this hni
      linarith, by
      push_cast
      have := Int.lt_floor_add_one L
      linarith⟩

/-- Witness for the amended C13: a base level of `-1/2` gives the floor plus one. -/
theorem surfaceTrunc_amended_witness :
    (exGenNeg.generateBaseTerrain).1.heightmap (exGenNeg.columnIndex 0 0)
      = ⌊exGenNeg.baseTerrainLevelFromMap (exGenNeg.columnIndex 0 0)⌋ + 1 :=
  (surfaceTrunc_amended exGenNeg 0 0 (by decide) (by decide) (by decide!) (by decide!)).2.2.2
    (by decide!) (by decide!)

/-- C14.  Block-id fallbacks of the constructor: `c_mossycobble` is the id of
`mapgen_mossycobble`, or `c_cobble` when that lookup gives `IGNORE`;
`c_sandbrick` is the id of `mapgen_sandstonebrick` or `c_desert_stone`;
`c_stair_cobble` is its id or `c_cobble`; `c_stair_sandstone` is its id or the
already substituted `c_sandbrick`; `c_ice` is its id or `AIR`.  Hence, when
`mapgen_cobble` and `mapgen_desert_stone` are registered, none of the five ids
is `IGNORE`. -/
theorem resolveNodes_fallbacks (getId : String → content_t) :
    (MapgenV7.resolveNodes getId).c_cobble = getId "mapgen_cobble" ∧
    (MapgenV7.resolveNodes getId).c_desert_stone = getId "mapgen_desert_stone" ∧
    (MapgenV7.resolveNodes getId).c_mossycobble
      = (if getId "mapgen_mossycobble" = CONTENT_IGNORE then
          (MapgenV7.resolveNodes getId).c_cobble else getId "mapgen_mossycobble") ∧
    (MapgenV7.resolveNodes getId).c_sandbrick
      = (if getId "mapgen_sandstonebrick" = CONTENT_IGNORE then
          (MapgenV7.resolveNodes getId).c_desert_stone else getId "mapgen_sandstonebrick") ∧
    (MapgenV7.resolveNodes getId).c_stair_cobble
      = (if getId "mapgen_stair_cobble" = CONTENT_IGNORE then
          (MapgenV7.resolveNodes getId).c_cobble else getId "mapgen_stair_cobble") ∧
    (MapgenV7.resolveNodes getId).c_stair_sandstone
      = (if getId "mapgen_stair_sandstone" = CONTENT_IGNORE then
          (MapgenV7.resolveNodes getId).c_sandbrick else getId "mapgen_stair_sandstone") ∧
    (MapgenV7.resolveNodes getId).c_ice
      = (if getId "default:ice" = CONTENT_IGNORE then CONTENT_AIR else getId "default:ice") ∧
    (getId "mapgen_cobble" ≠ CONTENT_IGNORE → getId "mapgen_desert_stone" ≠ CONTENT_IGNORE →
      (MapgenV7.resolveNodes getId).c_mossycobble ≠ CONTENT_IGNORE ∧
      (MapgenV7.resolveNodes getId).c_sandbrick ≠ CONTENT_IGNORE ∧
      (MapgenV7.resolveNodes getId).c_stair_cobble ≠ CONTENT_IGNORE ∧
      (MapgenV7.resolveNodes getId).c_stair_sandstone ≠ CONTENT_IGNORE ∧
      (MapgenV7.resolveNodes getId).c_ice ≠ CONTENT_IGNORE) := by
  refine ⟨rfl, rfl, rfl, rfl, rfl, rfl, rfl, ?_⟩
  intro hc hd
  have hair : CONTENT_AIR ≠ CONTENT_IGNORE := by decide
  unfold MapgenV7.resolveNodes
  dsimp only
  refine ⟨?_, ?_, ?_, ?_, ?_⟩
  · split_ifs with h
    · exact hc
    · exact h
  · split_ifs with h
    · exact hd
    · exact h
  · split_ifs with h
    · exact hc
    · exact h
  · split_ifs with h1 h2
    · exact hd
    · exact h2
    · exact h1
  · split_ifs with h
    · exact hair
    · exact h

/-- Witness for C14: a registry that knows only `mapgen_cobble` (5) and
`mapgen_desert_stone` (3). -/
theorem resolveNodes_fallbacks_witness :
    (MapgenV7.resolveNodes exGetId).c_mossycobble = 5 ∧
    (MapgenV7.resolveNodes exGetId).c_sandbrick = 3 ∧
    (MapgenV7.resolveNodes exGetId).c_stair_cobble = 5 ∧
    (MapgenV7.resolveNodes exGetId).c_stair_sandstone = 3 ∧
    (MapgenV7.resolveNodes exGetId).c_ice = CONTENT_AIR ∧
    ((MapgenV7.resolveNodes exGetId).c_mossycobble ≠ CONTENT_IGNORE ∧
      (MapgenV7.resolveNodes exGetId).c_sandbrick ≠ CONTENT_IGNORE ∧
      (MapgenV7.resolveNodes exGetId).c_stair_cobble ≠ CONTENT_IGNORE ∧
      (MapgenV7.resolveNodes exGetId).c_stair_sandstone ≠ CONTENT_IGNORE ∧
      (MapgenV7.resolveNodes exGetId).c_ice ≠ CONTENT_IGNORE) :=
  ⟨by decide, by decide, by decide, by decide, by decide,
    (resolveNodes_fallbacks exGetId).2.2.2.2.2.2.2 (by decide) (by decide)⟩

/-- C15.  In every column `dustTopNodes` changes at most one cell; a changed
cell held `AIR` before the pass and ends holding the dust block of the biome of
the column, and the cell directly below it is not `IGNORE`, not `buildable_to`
and not the dust block; a column whose cell at `full_node_max.Y` is neither
`AIR` nor `IGNORE`, and a column with `IGNORE` there whose cell at `node_max.Y +
1` is not `AIR`, is left unchanged. -/
theorem dustTopNodes_oneCell (g : MapgenV7) (x z : Int) :
    (∀ y, (g.dustTopNodes).vm x y z ≠ g.vm x y z →
      g.vm x y z = CONTENT_AIR ∧
      (g.dustTopNodes).vm x y z = (g.bmgr.get (g.biomemap (g.columnIndex x z))).c_dust ∧
      g.vm x (y - 1) z ≠ CONTENT_IGNORE ∧
      g.ndef.buildable_to (g.vm x (y - 1) z) = false ∧
      g.vm x (y - 1) z ≠ (g.bmgr.get (g.biomemap (g.columnIndex x z))).c_dust) ∧
    (∀ y1 y2, (g.dustTopNodes).vm x y1 z ≠ g.vm x y1 z →
      (g.dustTopNodes).vm x y2 z ≠ g.vm x y2 z → y1 = y2) ∧
    ((g.vm x g.full_node_max.Y z ≠ CONTENT_AIR ∧ g.vm x g.full_node_max.Y z ≠ CONTENT_IGNORE) →
      ∀ y, (g.dustTopNodes).vm x y z = g.vm x y z) ∧
    ((g.vm x g.full_node_max.Y z = CONTENT_IGNORE ∧ g.vm x (g.node_max.Y + 1) z ≠ CONTENT_AIR) →
      ∀ y, (g.dustTopNodes).vm x y z = g.vm x y z) := by
  obtain ⟨p, hp⟩ := dustColumn_change g x z (g.columnIndex x z) g.vm
  have hch : ∀ y, (g.dustTopNodes).vm x y z ≠ g.vm x y z →
      (g.dustTopNodes).vm x y z = g.dustColumn x z (g.columnIndex x z) g.vm x y z ∧
      g.dustColumn x z (g.columnIndex x z) g.vm x y z ≠ g.vm x y z := by
    intro y hne
    rw [dustTopNodes_vm] at hne ⊢
    split_ifs at hne ⊢ with hc
    · exact ⟨rfl, hne⟩
    · exact absurd rfl hne
  have hskip : ∀ y, g.dustColumn x z (g.columnIndex x z) g.vm = g.vm →
      (g.dustTopNodes).vm x y z = g.vm x y z := by
    intro y he
    rw [dustTopNodes_vm]
    split_ifs
    · rw [he]
    · rfl
  refine ⟨fun y hne => ?_, fun y1 y2 h1 h2 => ?_, fun h y => ?_, fun h y => ?_⟩
  · obtain ⟨e1, e2⟩ := hch y hne
    have := hp x y z e2
    obtain ⟨⟨_, hy, _⟩, ha, hd, hi, hb, hnd⟩ := this
    rw [e1, hy]
    exact ⟨ha, hd, hi, hb, hnd⟩
  · have a1 := (hp x y1 z (hch y1 h1).2).1.2.1
    have a2 := (hp x y2 z (hch y2 h2).2).1.2.1
    rw [a1, a2]
  · exact hskip y (dustColumn_skip g x z _ g.vm (Or.inl h))
  · exact hskip y (dustColumn_skip g x z _ g.vm (Or.inr h))

/-- Witness for C15 on the snow example: the cell at `y = 4` is changed. -/
theorem dustTopNodes_oneCell_witness :
    exGenSnow.vm 0 4 0 = CONTENT_AIR ∧
    (exGenSnow.dustTopNodes).vm 0 4 0 = exBiomeSnow.c_dust ∧
    exGenSnow.vm 0 (4 - 1) 0 ≠ CONTENT_IGNORE :=
  ⟨((dustTopNodes_oneCell exGenSnow 0 0).1 4 (by decide)).1,
    ((dustTopNodes_oneCell exGenSnow 0 0).1 4 (by decide)).2.1,
    ((dustTopNodes_oneCell exGenSnow 0 0).1 4 (by decide)).2.2.1⟩

/-- C16, counterexample.  With a base surface height of 5 and a carve test that
passes exactly for `y ≥ 5`, the lowest cell that the ridge pass overwrites in
the column is at `y_low = 5`; after the pass `ridge_heightmap[0] = 5`, while
`min(surface_y, y_low - 1) = 4`. -/
theorem ridgeEntry_counterexample :
    exGenBed.beforeRidge.ridge_heightmap (exGenBed.columnIndexC 0 0) = 5 ∧
    exGenBed.surfaceY 0 0 = 5 ∧
    exGenBed.beforeRidge.ridgeWrites 0 5 0 ∧
    (∀ y : Int, y < 5 → ¬ exGenBed.beforeRidge.ridgeWrites 0 y 0) ∧
    (exGenBed.beforeRidge.generateRidgeTerrain).ridge_heightmap (exGenBed.columnIndexC 0 0)
      = 5 ∧
    (exGenBed.generateTerrain).1.ridge_heightmap (exGenBed.columnIndexC 0 0) = 5 ∧
    min (exGenBed.surfaceY 0 0) (5 - 1) = 4 := by
  refine ⟨by decide!, by decide!, by decide!, ?_, by decide!, by decide!, by decide!⟩
  intro y hy hw
  have hin := hw.2.1
  have h1 : exGenBed.beforeRidge.node_min.Y = 0 := by decide
  have hlo : -1 ≤ y := by
    have := hin.2.2.1
    rw [h1] at this
    omega
  interval_cases y <;> revert hw <;> decide!

/-- C16, amended.  For a column of the chunk (with `csize.X` the width of the
chunk), `ridgeWrites` marks exactly the cells that `generateRidgeTerrain`
overwrites.  If the pass overwrites no cell of the column, the entry of
`ridge_heightmap` is unchanged; otherwise, with `y_low` the lowest overwritten
cell and `s` the entry before the pass (`surface_y` after
`generateBaseTerrain`), the entry is `y_low - 1` when `y_low < s` and `s` when
`y_low ≥ s`: a carve at height `y` lowers the entry to `y - 1` only when the
entry is higher than `y`.  The last part states the same for `generateTerrain`
with the `ridges` flag set. -/
theorem ridgeEntry_amended (g : MapgenV7) (hc : g.csize.X = g.rowLen) (x z : Int)
    (hx : g.node_min.X ≤ x ∧ x ≤ g.node_max.X) (hz : g.node_min.Z ≤ z ∧ z ≤ g.node_max.Z) :
    (∀ y, (g.generateRidgeTerrain).vm x y z =
      if g.ridgeWrites x y z then
        (if y > g.water_level then CONTENT_AIR else g.c_water_source)
      else g.vm x y z) ∧
    ((∀ y, ¬ g.ridgeWrites x y z) →
      (g.generateRidgeTerrain).ridge_heightmap (g.columnIndexC x z)
        = g.ridge_heightmap (g.columnIndexC x z)) ∧
    (∀ yl, g.ridgeWrites x yl z → (∀ y, y < yl → ¬ g.ridgeWrites x y z) →
      (g.generateRidgeTerrain).ridge_heightmap (g.columnIndexC x z)
        = if yl < g.ridge_heightmap (g.columnIndexC x z) then yl - 1
          else g.ridge_heightmap (g.columnIndexC x z)) ∧
    (g.spflags &&& MGV7_RIDGES ≠ 0 →
      ∀ yl, g.beforeRidge.ridgeWrites x yl z →
        (∀ y, y < yl → ¬ g.beforeRidge.ridgeWrites x y z) →
        (g.generateTerrain).1.ridge_heightmap (g.columnIndexC x z)
          = if yl < g.surfaceY x z then yl - 1 else g.surfaceY x z) := by
  have he := generateRidgeTerrain_entry g hc x z hx hz
  refine ⟨fun y => generateRidgeTerrain_writes g x y z, he.1, he.2, ?_⟩
  intro hf yl hyl hbelow
  have hb := beforeRidge_rowLen g
  have e2 : g.beforeRidge.node_min = g.node_min := by rw [beforeRidge_frame]
  have e3 : g.beforeRidge.node_max = g.node_max := by rw [beforeRidge_frame]
  have he2 := generateRidgeTerrain_entry g.beforeRidge (by rw [hb.1, hb.2.1]; exact hc) x z
    (by rw [e2, e3]; exact hx) (by rw [e2, e3]; exact hz)
  have hs : g.beforeRidge.ridge_heightmap (g.columnIndexC x z) = g.surfaceY x z := by
    have e4 : g.beforeRidge.ridge_heightmap = (g.generateBaseTerrain).1.ridge_heightmap := by
      rw [beforeRidge_frame]
    have e5 : g.columnIndexC x z = g.columnIndex x z := by
      unfold MapgenV7.columnIndexC MapgenV7.columnIndex
      rw [hc]
    rw [e4, e5]
    exact (generateBaseTerrain_maps g x z hx hz).2
  rw [generateTerrain_ridges g hf]
  have := he2.2 yl hyl hbelow
  rw [hb.2.2, hs] at this
  exact this

/-- Witness for the amended C16 on the river example: the lowest overwritten
cell is the halo cell `y = -1`, below the surface. -/
theorem ridgeEntry_amended_witness :
    (exGenRiver.generateTerrain).1.ridge_heightmap (exGenRiver.columnIndexC 0 0)
      = if (-1 : Int) < exGenRiver.surfaceY 0 0 then -1 - 1 else exGenRiver.surfaceY 0 0 :=
  (ridgeEntry_amended exGenRiver (by decide) 0 0 (by decide) (by decide)).2.2.2 (by decide) (-1)
    (by decide!) (fun y hy hw => by
      have hin := hw.2.1
      have h1 : exGenRiver.beforeRidge.node_min.Y = 0 := by decide
      have := hin.2.2.1
      rw [h1] at this
      omega)

/-- C17, counterexample.  For `blockseed = 1` `generateCaves` constructs the
pseudo-random generator from `1 + 21343 = 21344`, while the bitwise
exclusive-or of 1 and 21343 is 21342. -/
theorem bruiseSeed_counterexample :
    exGenSeed.blockseed = 1 ∧
    exCaveLib.PseudoRandom (exGenSeed.generateCavesNoise 0).bruiseSeed = 21344 ∧
    exGenSeed.blockseed ^^^ 21343 = 21342 ∧
    (exGenSeed.generateCavesNoise 0).bruiseSeed ≠ exGenSeed.blockseed ^^^ 21343 := by
  decide

/-- C17, amended.  For every block seed `bs`, `generateCaves` constructs the
pseudo-random generator that decides `bruises_count` and drives the tunnels
from the sum `bs + 21343` taken modulo `2^32`. -/
theorem bruiseSeed_amended {ρ : Type} (cl : CaveLib ρ) (g : MapgenV7) (max_stone_y : Int) :
    (g.generateCavesNoise max_stone_y).bruiseSeed = (g.blockseed + 21343) % 4294967296 ∧
    g.generateCaves cl max_stone_y
      = (g.generateCavesNoise max_stone_y).bruiseCaves cl max_stone_y
          (cl.PseudoRandom ((g.blockseed + 21343) % 4294967296)) := by
  have h : (g.generateCavesNoise max_stone_y).bruiseSeed
      = (g.blockseed + 21343) % 4294967296 := by
    unfold MapgenV7.bruiseSeed
    rw [generateCavesNoise_blockseed]
  refine ⟨h, ?_⟩
  unfold MapgenV7.generateCaves
  dsimp only
  rw [h]

/-- C18.  In `generateBiomes`, for a column of the chunk in which no cell with
`node_min.Y ≤ y ≤ node_max.Y` holds `IGNORE` and with stone and water ids that
are not `AIR`: whatever the earlier columns did, after each of the first `n`
cells of the downward scan no null `biome` has been dereferenced, and for `n ≥
1` a biome has been sampled or `have_air` is true; so the scan of the column
dereferences no null `biome`; the pass returns when no cell of the chunk holds
`IGNORE`; and `generateBaseTerrain` and `generateTerrain` leave no `IGNORE` in
the cells they visit when the stone and water ids are not `IGNORE`. -/
theorem biomeScan_sampled (g : MapgenV7) (heat hum : Int → ℚ) (x z : Int)
    (hx : g.node_min.X ≤ x ∧ x ≤ g.node_max.X) (hz : g.node_min.Z ≤ z ∧ z ≤ g.node_max.Z)
    (hs1 : g.c_stone ≠ CONTENT_AIR) (hw1 : g.c_water_source ≠ CONTENT_AIR)
    (hni : ∀ y, g.node_min.Y ≤ y → y ≤ g.node_max.Y → g.vm x y z ≠ CONTENT_IGNORE) :
    (∀ (st : BiomeState) (k : Int), (∀ y, st.vm x y z = g.vm x y z) →
      (∀ n : Nat, (n : Int) ≤ g.node_max.Y + 1 - g.node_min.Y →
        (g.biomeScanAfter heat hum x z k st n).fault = st.fault ∧
        (1 ≤ n → (g.biomeScanAfter heat hum x z k st n).biome.isSome = true ∨
          (g.biomeScanAfter heat hum x z k st n).have_air = true)) ∧
      (g.biomeColumn heat hum x z k st).fault = st.fault) ∧
    (∀ y, ((g.biomeLoop heat hum ({ vm := g.vm, desert_stone := false, fault := false }, 0)).1.vm
        x y z)
      = (g.biomeColumn heat hum x z (g.columnIndex x z)
          { vm := g.vm, desert_stone := false, fault := false }).vm x y z) ∧
    ((∀ a b c, g.node_min.X ≤ a → a ≤ g.node_max.X → g.node_min.Y ≤ b → b ≤ g.node_max.Y →
        g.node_min.Z ≤ c → c ≤ g.node_max.Z → g.vm a b c ≠ CONTENT_IGNORE) →
      (g.generateBiomes heat hum).isSome = true) ∧
    (∀ g0 : MapgenV7, g0.c_stone ≠ CONTENT_IGNORE → g0.c_water_source ≠ CONTENT_IGNORE →
      ∀ a b c, g0.inChunk a b c →
        (g0.generateBaseTerrain).1.vm a b c ≠ CONTENT_IGNORE ∧
        (g0.generateTerrain).1.vm a b c ≠ CONTENT_IGNORE) := by
  refine ⟨fun st k hst => ⟨fun n hn => ?_, ?_⟩, fun y => ?_,
    generateBiomes_returns g heat hum hs1 hw1,
    fun g0 h1 h2 a b c hin => ⟨generateBaseTerrain_noIgnore g0 h1 h2 a b c hin,
      generateTerrain_noIgnore g0 h1 h2 a b c hin⟩⟩
  · exact biomeScanAfter_noFault g heat hum x z k st hs1 hw1
      (fun y h1 h2 => by rw [hst]; exact hni y h1 h2) n hn
  · exact biomeColumn_noFault g heat hum x z k st hs1 hw1
      (fun y h1 h2 => by rw [hst]; exact hni y h1 h2)
  · exact biomeLoop_vm g heat hum _ x y z hx hz

/-- Witness for C18 on the flat example column. -/
theorem biomeScan_sampled_witness :
    (exGenFlat.biomeScanAfter exHeat exHeat 0 0 0
      { vm := exGenFlat.vm, desert_stone := false, fault := false } 3).fault = false ∧
    (exGenFlat.generateBiomes exHeat exHeat).isSome = true :=
  ⟨(((biomeScan_sampled exGenFlat exHeat exHeat 0 0 (by decide) (by decide) (by decide)
      (by decide) (fun y _ _ => by
        show (if y ≤ 5 then 1 else CONTENT_AIR) ≠ CONTENT_IGNORE
        split_ifs <;> decide)).1
      { vm := exGenFlat.vm, desert_stone := false, fault := false } 0 (fun _ => rfl)).1 3
      (by decide)).1,
    (biomeScan_sampled exGenFlat exHeat exHeat 0 0 (by decide) (by decide) (by decide)
      (by decide) (fun y _ _ => by
        show (if y ≤ 5 then 1 else CONTENT_AIR) ≠ CONTENT_IGNORE
        split_ifs <;> decide)).2.2.1 (fun a b c _ _ _ _ _ _ => by
        show (if b ≤ 5 then 1 else CONTENT_AIR) ≠ CONTENT_IGNORE
        split_ifs <;> decide)⟩

/-- C19.  `generateRidgeTerrain` overwrites no cell with `y < water_level - 9`,
whatever the noise values; so after the pass every entry of `ridge_heightmap`
is at least the minimum of its value before the pass and `water_level - 10`,
and after `generateTerrain` the entry of every column of the chunk is at least
`min(surface_y, water_level - 10)`. -/
theorem ridgeDepth_bound (g : MapgenV7) :
    (∀ x y z, y < g.water_level - 9 →
      ¬ g.ridgeWrites x y z ∧ (g.generateRidgeTerrain).vm x y z = g.vm x y z) ∧
    (∀ i, (g.generateRidgeTerrain).ridge_heightmap i
      ≥ min (g.ridge_heightmap i) (g.water_level - 10)) ∧
    (∀ x z, g.node_min.X ≤ x → x ≤ g.node_max.X → g.node_min.Z ≤ z → z ≤ g.node_max.Z →
      (g.generateTerrain).1.ridge_heightmap (g.columnIndex x z)
        ≥ min (g.surfaceY x z) (g.water_level - 10)) := by
  refine ⟨fun x y z hy => ?_, fun i => generateRidgeTerrain_snd_ge g i, ?_⟩
  · have hn : ¬ g.ridgeWrites x y z := by
      intro hwr
      have := ridgeCarves_depth g _ _ y hwr.2.2
      omega
    exact ⟨hn, by rw [generateRidgeTerrain_writes, if_neg hn]⟩
  · intro x z hx1 hx2 hz1 hz2
    have hb := (generateBaseTerrain_maps g x z ⟨hx1, hx2⟩ ⟨hz1, hz2⟩).2
    rw [generateTerrain_ridge_heightmap]
    split_ifs with hf
    · have h1 := generateRidgeTerrain_snd_ge g.beforeRidge (g.columnIndex x z)
      have e2 : g.beforeRidge.ridge_heightmap = (g.generateBaseTerrain).1.ridge_heightmap := by
        rw [beforeRidge_frame]
      have e3 : g.beforeRidge.water_level = g.water_level := by rw [beforeRidge_frame]
      rw [e2, e3, hb] at h1
      exact h1
    · rw [hb]
      exact min_le_left _ _

/-- Witness for C19 on the river example, column `(0, 0)`. -/
theorem ridgeDepth_bound_witness :
    (exGenRiver.generateTerrain).1.ridge_heightmap (exGenRiver.columnIndex 0 0)
      ≥ min (exGenRiver.surfaceY 0 0) (exGenRiver.water_level - 10) :=
  (ridgeDepth_bound exGenRiver).2.2 0 0 (by decide) (by decide) (by decide) (by decide)

/-- C20.  `baseTerrainLevelAtPoint(x, z)`, `getGroundLevelAtPoint` and
`getBiomeAtPoint` leave the generator as it was except for the persistence
fields of the `terrain_base` and `terrain_alt` noise parameters, which both
hold the `terrain_persist` noise value at the point; and the value each of them
returns is the same whatever persistence values were stored before the call. -/
theorem pointQuery_sideEffect (nl : NoiseLib) (g : MapgenV7) (x z : Int) (p : v2s16)
    (q : v3s16) :
    (g.baseTerrainLevelAtPoint nl x z).2
      = g.withPersist (nl.NoisePerlin2D g.noise_terrain_persist.np x z g.seed)
          (nl.NoisePerlin2D g.noise_terrain_persist.np x z g.seed) ∧
    (g.getGroundLevelAtPoint nl p).2
      = g.withPersist (nl.NoisePerlin2D g.noise_terrain_persist.np p.X p.Y g.seed)
          (nl.NoisePerlin2D g.noise_terrain_persist.np p.X p.Y g.seed) ∧
    (g.getBiomeAtPoint nl q).2
      = g.withPersist (nl.NoisePerlin2D g.noise_terrain_persist.np q.X q.Z g.seed)
          (nl.NoisePerlin2D g.noise_terrain_persist.np q.X q.Z g.seed) ∧
    (∀ a b : ℚ,
      ((g.withPersist a b).baseTerrainLevelAtPoint nl x z).1
          = (g.baseTerrainLevelAtPoint nl x z).1 ∧
      ((g.withPersist a b).getGroundLevelAtPoint nl p).1 = (g.getGroundLevelAtPoint nl p).1 ∧
      ((g.withPersist a b).getBiomeAtPoint nl q).1 = (g.getBiomeAtPoint nl q).1) := by
  refine ⟨baseTerrainLevelAtPoint_snd nl g x z, ?_, ?_, ?_⟩
  · unfold MapgenV7.getGroundLevelAtPoint
    dsimp only
    split_ifs <;> exact baseTerrainLevelAtPoint_snd nl g p.X p.Y
  · exact baseTerrainLevelAtPoint_snd nl g q.X q.Z
  · intro a b
    rw [baseTerrainLevelAtPoint_withPersist, getGroundLevelAtPoint_withPersist,
      getBiomeAtPoint_withPersist]
    exact ⟨rfl, rfl, rfl⟩

/-- C21.  `pathRemoveFile` on a NUL-terminated buffer: if the string contains the
delimiter, the index written is that of its last occurrence, it lies within
the string (and the buffer), and the string afterwards is the prefix of the
input before that occurrence; if the string does not contain the delimiter
(the empty string included), the index written is `-1`, outside the buffer. -/
theorem pathRemoveFile_truncates (path : List Nat) (delim : Nat) (hnul : 0 ∈ path) :
    (delim ∈ cstr path →
      ∃ k : Nat, pathRemoveFile_index path delim = some (k : Int) ∧
        k < (cstr path).length ∧ (cstr path).getD k 0 = delim ∧
        (∀ j : Nat, k < j → j < (cstr path).length → (cstr path).getD j 0 ≠ delim) ∧
        k < path.length ∧
        ∃ r, pathRemoveFile path delim = some r ∧ cstr r = (cstr path).take k) ∧
    (delim ∉ cstr path →
      pathRemoveFile_index path delim = some (-1) ∧ pathRemoveFile path delim = none) := by
  have hlen : strlen path = some (cstr path).length := by
    unfold strlen
    rw [if_pos hnul]
  have hidx : pathRemoveFile_index path delim
      = some (pathRemoveFile_scan path delim (cstr path).length
          (((cstr path).length : Int) - 1)) := by
    unfold pathRemoveFile_index
    rw [hlen]
    rfl
  have hs := pathRemoveFile_scan_spec path delim (cstr path).length
    (((cstr path).length : Int) - 1) rfl
  have hlt := cstr_lt_of_mem path hnul
  generalize pathRemoveFile_scan path delim (cstr path).length
    (((cstr path).length : Int) - 1) = r at hidx hs
  constructor
  · intro hmem
    obtain ⟨j0, hj0, he0⟩ := (mem_iff_getD _ _).1 hmem
    have hr0 : 0 ≤ r := by
      by_contra hneg
      have := hs.2.2.1 (j0 : Int) (by omega) (by omega)
      rw [Int.toNat_ofNat, (cstr_get path j0 hj0).1] at this
      exact this he0
    have hk : ((r.toNat : Nat) : Int) = r := Int.toNat_of_nonneg hr0
    refine ⟨r.toNat, by rw [hidx, hk], by omega, ?_, ?_, by omega, ?_⟩
    · rw [← (cstr_get path r.toNat (by omega)).1]
      exact hs.2.2.2 hr0
    · intro j h1 h2
      rw [← (cstr_get path j h2).1]
      have := hs.2.2.1 (j : Int) (by omega) (by omega)
      rw [Int.toNat_ofNat] at this
      exact this
    · refine ⟨path.set r.toNat 0, ?_, cstr_set path r.toNat (by omega)⟩
      unfold pathRemoveFile
      rw [hidx]
      show (if 0 ≤ r ∧ r < (path.length : Int) then some (path.set r.toNat 0) else none) = _
      rw [if_pos ⟨hr0, by omega⟩]
  · intro hnm
    have hr : r = -1 := by
      by_contra hne
      have hr0 : 0 ≤ r := by have := hs.1; omega
      have h1 := hs.2.2.2 hr0
      have h2 : r.toNat < (cstr path).length := by omega
      rw [(cstr_get path r.toNat h2).1] at h1
      exact hnm ((mem_iff_getD _ _).2 ⟨r.toNat, h2, h1⟩)
    subst hr
    refine ⟨hidx, ?_⟩
    unfold pathRemoveFile
    rw [hidx]
    show (if (0 : Int) ≤ -1 ∧ (-1 : Int) < (path.length : Int) then _ else none) = none
    rw [if_neg (by omega)]

/-- Witness for C21: the path `/a/b` is cut to `/a`, and for the path `ab`
without a delimiter the index written is `-1`. -/
theorem pathRemoveFile_truncates_witness :
    (∃ k : Nat, pathRemoveFile_index [47, 97, 47, 98, 0] 47 = some (k : Int) ∧
        k < (cstr [47, 97, 47, 98, 0]).length ∧ (cstr [47, 97, 47, 98, 0]).getD k 0 = 47 ∧
        (∀ j : Nat, k < j → j < (cstr [47, 97, 47, 98, 0]).length →
          (cstr [47, 97, 47, 98, 0]).getD j 0 ≠ 47) ∧
        k < [47, 97, 47, 98, 0].length ∧
        ∃ r, pathRemoveFile [47, 97, 47, 98, 0] 47 = some r ∧
          cstr r = (cstr [47, 97, 47, 98, 0]).take k) ∧
    (pathRemoveFile_index [97, 98, 0] 47 = some (-1) ∧ pathRemoveFile [97, 98, 0] 47 = none) :=
  ⟨(pathRemoveFile_truncates [47, 97, 47, 98, 0] 47 (by decide)).1 (by decide),
    (pathRemoveFile_truncates [97, 98, 0] 47 (by decide)).2 (by decide)⟩
